import Mathlib

/-!
# wag: the XDP firewall controller and the WireGuard endpoint watcher

A shallow embedding of `router/bpf.go` (the user-space controller of the
kernel maps `devices`, `account_locked`, `public_table`, `mfa_table`) and of
the endpoint watcher of `internal/router/init.go`, followed by the theorems
that settle the properties of the specification.

Conventions.

* Go `uint64` values are `Nat`s; every arithmetic operation that can wrap is
  written with an explicit `% 2^64`.
* A Go `error` is identified with its message (`Error := String`); a `nil`
  error is `none`.
* Kernel maps are association lists.  System calls that write to a map or
  allocate a kernel object may fail for reasons outside the program (full map,
  out of memory, no file descriptor left): the kernel state carries a schedule
  of such faults, consumed one entry per call, and every theorem holds for
  every schedule.
* The Go standard library (`crypto/sha1`, `net`, `strings`) is modelled by
  executable definitions that follow the library's behaviour.
-/

namespace Wag

/-! ## Machine integers -/

/-- The Go constant `math.MaxUint64`. -/
def MaxUint64 : Nat := 2 ^ 64 - 1

/-- The Go conversion `uint64(x)` of a signed integer: two's complement. -/
def uint64 (x : Int) : Nat := (x % 2 ^ 64).toNat

/-- Addition of two `uint64` values, wrapping. -/
def add64 (a b : Nat) : Nat := (a + b) % 2 ^ 64

/-- Subtraction of two `uint64` values, wrapping. -/
def sub64 (a b : Nat) : Nat := (a % 2 ^ 64 + 2 ^ 64 - b % 2 ^ 64) % 2 ^ 64

/-- Multiplication of two `uint64` values, wrapping. -/
def mul64 (a b : Nat) : Nat := (a * b) % 2 ^ 64

/-! ## `crypto/sha1` -/

/-- A user identifier: the 20 bytes of `sha1.Sum([]byte(username))`. -/
abbrev UserId := List Nat

/-- Rotate a 32-bit word left by `n` bits. -/
def rotl32 (x n : Nat) : Nat := ((x <<< n) ||| (x >>> (32 - n))) % 2 ^ 32

/-- Big-endian bytes of a 32-bit word. -/
def be32 (x : Nat) : List Nat :=
  [x >>> 24 % 256, x >>> 16 % 256, x >>> 8 % 256, x % 256]

/-- Big-endian bytes of a 64-bit word. -/
def be64 (x : Nat) : List Nat := be32 (x >>> 32 % 2 ^ 32) ++ be32 (x % 2 ^ 32)

/-- SHA-1 padding: a `0x80` byte, zeros up to 56 mod 64, the bit length. -/
def sha1Pad (msg : List Nat) : List Nat :=
  msg ++ [0x80] ++ List.replicate ((119 - msg.length % 64) % 64) 0 ++ be64 (8 * msg.length)

/-- The `i`-th big-endian 32-bit word of a block. -/
def sha1Word (bs : List Nat) (i : Nat) : Nat :=
  bs.getD (4 * i) 0 * 2 ^ 24 + bs.getD (4 * i + 1) 0 * 2 ^ 16
    + bs.getD (4 * i + 2) 0 * 2 ^ 8 + bs.getD (4 * i + 3) 0

/-- The 80-word message schedule of a 64-byte block. -/
def sha1Schedule (block : List Nat) : List Nat :=
  (List.range 64).foldl
    (fun w _ =>
      w ++ [rotl32 (w.getD (w.length - 3) 0 ^^^ w.getD (w.length - 8) 0
              ^^^ w.getD (w.length - 14) 0 ^^^ w.getD (w.length - 16) 0) 1])
    ((List.range 16).map (sha1Word block))

/-- The five 32-bit chaining words of SHA-1. -/
structure Sha1State where
  a : Nat
  b : Nat
  c : Nat
  d : Nat
  e : Nat

/-- One of the 80 rounds, on schedule word `w` of index `t`. -/
def sha1Round (s : Sha1State) (t w : Nat) : Sha1State :=
  let fk : Nat × Nat :=
    if t < 20 then ((s.b &&& s.c) ||| ((s.b ^^^ 0xFFFFFFFF) &&& s.d), 0x5A827999)
    else if t < 40 then (s.b ^^^ s.c ^^^ s.d, 0x6ED9EBA1)
    else if t < 60 then ((s.b &&& s.c) ||| (s.b &&& s.d) ||| (s.c &&& s.d), 0x8F1BBCDC)
    else (s.b ^^^ s.c ^^^ s.d, 0xCA62C1D6)
  { a := (rotl32 s.a 5 + fk.1 + s.e + fk.2 + w) % 2 ^ 32
    b := s.a
    c := rotl32 s.b 30
    d := s.c
    e := s.d }

/-- The compression function on one 64-byte block. -/
def sha1Block (h : Sha1State) (block : List Nat) : Sha1State :=
  let s := (sha1Schedule block).enum.foldl (fun s tw => sha1Round s tw.1 tw.2) h
  { a := (h.a + s.a) % 2 ^ 32
    b := (h.b + s.b) % 2 ^ 32
    c := (h.c + s.c) % 2 ^ 32
    d := (h.d + s.d) % 2 ^ 32
    e := (h.e + s.e) % 2 ^ 32 }

/-- The first `n` 64-byte blocks of a byte string. -/
def sha1Chunks : Nat → List Nat → List (List Nat)
  | 0, _ => []
  | n + 1, bs => bs.take 64 :: sha1Chunks n (bs.drop 64)

/-- SHA-1 of a byte string. -/
def sha1Bytes (msg : List Nat) : List Nat :=
  let p := sha1Pad msg
  let s := (sha1Chunks (p.length / 64) p).foldl sha1Block
    { a := 0x67452301, b := 0xEFCDAB89, c := 0x98BADCFE, d := 0x10325476, e := 0xC3D2E1F0 }
  be32 s.a ++ be32 s.b ++ be32 s.c ++ be32 s.d ++ be32 s.e

/-- The Go expression `sha1.Sum([]byte(s))`. -/
def sha1Sum (s : String) : UserId := sha1Bytes (s.toUTF8.toList.map UInt8.toNat)

/-! ## Package `net`: addresses -/

/-- A Go `net.IP`: a byte slice of length 4 or 16 (the `nil` slice is `none`
where an `Option` is used). -/
abbrev IP := List Nat

/-- One decimal field of a dotted IPv4 address: at least one digit, no leading
zero, value at most 255. -/
def parseOctet (f : List Char) : Option Nat :=
  if f.isEmpty then none
  else if !f.all Char.isDigit then none
  else if decide (1 < f.length) && f.head? == some '0' then none
  else
    let v := f.foldl (fun a c => 10 * a + (c.toNat - 48)) 0
    if 255 < v then none else some v

/-- Go `netip.parseIPv4Fields`: exactly four decimal fields separated by dots. -/
def parseIPv4Fields (s : List Char) : Option (List Nat) :=
  let fields := s.splitOn '.'
  if fields.length ≠ 4 then none else fields.mapM parseOctet

/-- Value of a hexadecimal digit. -/
def hexVal (c : Char) : Option Nat :=
  if '0' ≤ c ∧ c ≤ '9' then some (c.toNat - 48)
  else if 'a' ≤ c ∧ c ≤ 'f' then some (c.toNat - 87)
  else if 'A' ≤ c ∧ c ≤ 'F' then some (c.toNat - 55)
  else none

/-- End of Go `netip.parseIPv6`: the whole string must be used, and a short
address is completed by expanding the `::` found after `ellipsis` bytes. -/
def parseIPv6Finish (s : List Char) (ip : List Nat) (ellipsis : Option Nat) : Option IP :=
  if !s.isEmpty then none
  else if ip.length < 16 then
    match ellipsis with
    | none => none
    | some e => some (ip.take e ++ List.replicate (16 - ip.length) 0 ++ ip.drop e)
  else if ellipsis.isSome then none
  else some ip

/-- The loop of Go `netip.parseIPv6`: hexadecimal groups separated by colons,
at most one `::`, possibly a trailing dotted IPv4 address.  `ip` holds the
bytes written so far; the loop runs at most eight times. -/
def parseIPv6Loop : Nat → List Char → List Nat → Option Nat → Option IP
  | 0, s, ip, ellipsis => parseIPv6Finish s ip ellipsis
  | fuel + 1, s, ip, ellipsis =>
    if 16 ≤ ip.length then parseIPv6Finish s ip ellipsis
    else
      let digits := s.takeWhile (fun c => (hexVal c).isSome)
      let rest := s.drop digits.length
      if 4 < digits.length then none
      else if digits.length = 0 then none
      else if rest.head? = some '.' then
        if ellipsis.isNone ∧ ip.length ≠ 12 then none
        else if 16 < ip.length + 4 then none
        else
          match parseIPv4Fields s with
          | none => none
          | some v4 => parseIPv6Finish [] (ip ++ v4) ellipsis
      else
        let acc := digits.foldl (fun a c => 16 * a + (hexVal c).getD 0) 0
        let ip := ip ++ [acc / 256, acc % 256]
        match rest with
        | [] => parseIPv6Finish [] ip ellipsis
        | c :: s1 =>
          if c ≠ ':' then none
          else
            match s1 with
            | [] => none
            | c1 :: s2 =>
              if c1 = ':' then
                if ellipsis.isSome then none
                else if s2.isEmpty then parseIPv6Finish [] ip (some ip.length)
                else parseIPv6Loop fuel s2 ip (some ip.length)
              else parseIPv6Loop fuel s1 ip ellipsis

/-- Go `netip.parseIPv6` for an address without zone. -/
def parseIPv6 (s : List Char) : Option IP :=
  match s with
  | ':' :: ':' :: s1 =>
    if s1.isEmpty then some (List.replicate 16 0) else parseIPv6Loop 8 s1 [] (some 0)
  | _ => parseIPv6Loop 8 s [] none

/-- The 16-byte form of an IPv4 address (`::ffff:a.b.c.d`). -/
def v4InV6 (v4 : List Nat) : IP := [0, 0, 0, 0, 0, 0, 0, 0, 0, 0, 0xff, 0xff] ++ v4

/-- A Go `netip.Addr` without zone: the family it was written in and its bytes
(4 for IPv4, 16 for IPv6). -/
inductive Addr where
  | v4 (bytes : List Nat)
  | v6 (bytes : List Nat)
deriving DecidableEq, Repr

/-- Go `Addr.As16`. -/
def Addr.As16 : Addr → IP
  | .v4 b => v4InV6 b
  | .v6 b => b

/-- Go `Addr.BitLen`. -/
def Addr.BitLen : Addr → Nat
  | .v4 _ => 32
  | .v6 _ => 128

/-- Go `netip.ParseAddr`, restricted to the results without zone (the callers
in package `net` reject a zone): the first `.`, `:` or `%` of the string
selects the syntax. -/
def ParseAddr (s : List Char) : Option Addr :=
  if s.contains '%' then none
  else
    match s.find? (fun c => c = '.' ∨ c = ':') with
    | some '.' => (parseIPv4Fields s).map Addr.v4
    | some _ => (parseIPv6 s).map Addr.v6
    | none => none

/-- Go `net.ParseIP`: the 16-byte form of a dotted IPv4 or a textual IPv6
address, `none` (Go `nil`) for anything else. -/
def ParseIP (s : String) : Option IP := (ParseAddr s.toList).map Addr.As16

/-- Go `IP.To4`: the four bytes of an IPv4 address, `none` (Go `nil`) when the
address is not an IPv4 address. -/
def To4 (ip : IP) : Option IP :=
  if ip.length = 4 then some ip
  else if ip.length = 16 ∧ ip.take 10 = List.replicate 10 0 ∧ (ip.drop 10).take 2 = [0xff, 0xff]
  then some (ip.drop 12)
  else none

/-- The expression `net.ParseIP(address).To4()` (`To4` of `nil` is `nil`). -/
def ParseIP4 (address : String) : Option IP := (ParseIP address).bind To4

/-- Go `net.ParseCIDR`, as far as `parseIP` uses it: the address in 16-byte
form and the number of leading ones of the mask.  The text after the first
`/` must be a decimal number not above the bit length of the address. -/
def ParseCIDR (s : String) : Option (IP × Nat) :=
  let cs := s.toList
  if !cs.contains '/' then none
  else
    let addr := cs.takeWhile (fun c => c ≠ '/')
    let mask := cs.drop (addr.length + 1)
    match ParseAddr addr with
    | none => none
    | some a =>
      if mask.isEmpty || !mask.all Char.isDigit then none
      else
        let n := mask.foldl (fun v c => 10 * v + (c.toNat - 48)) 0
        if a.BitLen < n then none else some (a.As16, n)

/-- Go `unicode.IsSpace`. -/
def isSpace (c : Char) : Bool :=
  let n := c.toNat
  (9 ≤ n && n ≤ 13) || n == 0x20 || n == 0x85 || n == 0xA0 || n == 0x1680
    || (0x2000 ≤ n && n ≤ 0x200a) || n == 0x2028 || n == 0x2029 || n == 0x202f
    || n == 0x205f || n == 0x3000

/-- Go `strings.TrimSpace`. -/
def TrimSpace (s : String) : String :=
  String.mk (((s.toList.dropWhile isSpace).reverse.dropWhile isSpace).reverse)

/-! ## Kernel maps -/

/-- A Go `error`, identified with its message. -/
abbrev Error := String

/-- The message of `ebpf.ErrKeyNotExist`. -/
def ErrKeyNotExist : Error := "key does not exist"

/-- Go `strings.Contains`. -/
def Contains (s sub : String) : Bool := s.toList.tails.any (fun t => sub.toList.isPrefixOf t)

/-- A kernel hash map as the list of its entries. -/
abbrev KMap (κ ν : Type) := List (κ × ν)

/-- The value stored under a key, if any. -/
def KMap.get {κ ν : Type} [DecidableEq κ] : KMap κ ν → κ → Option ν
  | [], _ => none
  | (k1, v) :: m, k => if k1 = k then some v else KMap.get m k

/-- Store a value under a key, replacing the value the key had. -/
def KMap.put {κ ν : Type} [DecidableEq κ] : KMap κ ν → κ → ν → KMap κ ν
  | [], k, v => [(k, v)]
  | (k1, v1) :: m, k, v => if k1 = k then (k, v) :: m else (k1, v1) :: KMap.put m k v

/-- Remove a key. -/
def KMap.delete {κ ν : Type} [DecidableEq κ] (m : KMap κ ν) (k : κ) : KMap κ ν :=
  m.filter (fun p => decide (p.1 ≠ k))

/-- Modelled from the spec: the type `fwentry` of the values of the `devices`
map, whose declaration and whose methods `Bytes`, `Unpack` and `Size` are not
in the sources.  The spec gives the value as
`{ user_id[20], lastPacketTime u64, sessionExpiry u64 }`; the map holds the
record itself, standing for its packed bytes. -/
structure fwentry where
  user_id : UserId
  lastPacketTime : Nat
  sessionExpiry : Nat
deriving DecidableEq, Repr

/-- Modelled from the spec: `fwentry.Unpack` on the result of `LookupBytes`,
which is `nil` for a key that is not in the map: the packed record has a fixed
size, and a slice of another size is rejected. -/
def fwentry.Unpack (deviceBytes : Option fwentry) : Except Error fwentry :=
  match deviceBytes with
  | none => .error "firewall entry is too short"
  | some e => .ok e

/-- The key of an inner longest-prefix-match trie as the kernel holds it:
`{ prefix_len u32, addr[4] }`. -/
abbrev TrieKey := Nat × List Nat

/-- Modelled from the spec: the type `Key` that `parseIP` returns, whose
declaration and method `Bytes` are not in the sources. -/
structure Key where
  Prefixlen : Nat
  IP : IP
deriving DecidableEq, Repr

/-- Modelled from the spec: `Key.Bytes`, the packed trie key
`{ prefix_len u32, addr[4] }`; the four address bytes are those of `IP.To4`,
zero for an address that is not IPv4. -/
def Key.Bytes (k : Key) : TrieKey := (k.Prefixlen % 2 ^ 32, (To4 k.IP).getD [0, 0, 0, 0])

/-- The four bytes of an address as a number. -/
def addrNat (a : List Nat) : Nat :=
  a.getD 0 0 * 2 ^ 24 + a.getD 1 0 * 2 ^ 16 + a.getD 2 0 * 2 ^ 8 + a.getD 3 0

/-- The first `len` bits of a four-byte address. -/
def prefixBits (len : Nat) (a : List Nat) : Nat := addrNat a / 2 ^ (32 - len)

/-- Two trie keys name the same node: same prefix length, same prefix bits. -/
def sameNode (x y : TrieKey) : Bool := x.1 == y.1 && prefixBits x.1 x.2 == prefixBits y.1 y.2

/-- The node of a trie a key names: its prefix length and its prefix bits. -/
def nodeOf (x : TrieKey) : Nat × Nat := (x.1, prefixBits x.1 x.2)

/-- An inner LPM trie as the list of its keys (every value is the byte 1). -/
abbrev Trie := List TrieKey

/-- Insert a key in a trie, replacing the node of the same prefix. -/
def Trie.put : Trie → TrieKey → Trie
  | [], x => [x]
  | y :: t, x => if sameNode y x then x :: t else y :: Trie.put t x

/-- Longest-prefix-match lookup of a destination: is some prefix of the trie a
prefix of the destination. -/
def Trie.matches (t : Trie) (d : List Nat) : Bool :=
  t.any (fun x => prefixBits x.1 x.2 == prefixBits x.1 d)

/-- The maps of `xdpObjects`, together with the kernel's table of inner map
objects (`innerMaps`, by map ID; `nextID` is the ID the next new map gets).
An outer table holds, for a user, the ID of the inner trie. -/
structure bpfObjects where
  Devices : KMap IP fwentry
  AccountLocked : KMap UserId Nat
  PublicTable : KMap UserId Nat
  MfaTable : KMap UserId Nat
  InactivityTimeoutMinutes : Nat
  innerMaps : KMap Nat Trie
  nextID : Nat
deriving DecidableEq, Repr

/-- The state the controller runs against: the maps, the schedule of the
faults the coming system calls meet (`some e`: the call fails with `e` and
changes nothing; an exhausted schedule holds no fault), and the record of the
states reached after each effective system call so far, oldest first. -/
structure Kernel where
  xdpObjects : bpfObjects
  faults : List (Option Error)
  history : List bpfObjects
deriving DecidableEq, Repr

/-- Take the next entry of the fault schedule. -/
def Kernel.fault (k : Kernel) : Option Error × Kernel :=
  match k.faults with
  | [] => (none, k)
  | f :: fs => (f, { k with faults := fs })

/-- Install the maps a system call leaves, and record them. -/
def Kernel.write (k : Kernel) (o : bpfObjects) : Kernel :=
  { k with xdpObjects := o, history := k.history ++ [o] }

/-- The two hash-of-maps tables. -/
inductive Table where
  | PublicTable
  | MfaTable
deriving DecidableEq, Repr

/-- The entries of an outer table. -/
def bpfObjects.table (o : bpfObjects) : Table → KMap UserId Nat
  | .PublicTable => o.PublicTable
  | .MfaTable => o.MfaTable

/-- Replace the entries of an outer table. -/
def bpfObjects.setTable (o : bpfObjects) (t : Table) (m : KMap UserId Nat) : bpfObjects :=
  match t with
  | .PublicTable => { o with PublicTable := m }
  | .MfaTable => { o with MfaTable := m }

/-- Go `table.String()`: the name of the map. -/
def Table.String : Table → String
  | .PublicTable => "Hash(public_table)"
  | .MfaTable => "Hash(mfa_table)"

/-! ### System calls on the maps

Each returns the error (`none` for `nil`) and the state it leaves.  Looking a
key up reads the state and always answers; the calls that write or allocate
first take an entry of the fault schedule. -/

/-- The call `xdpObjects.Devices.LookupBytes(key)`: an error for a key that is
not four bytes (the `nil` of a failed `To4`), `nil` bytes for a key that is
not in the map. -/
def Devices.LookupBytes (k : Kernel) (key : Option IP) : Except Error (Option fwentry) :=
  match key with
  | none => .error "marshal key: invalid key size"
  | some a => .ok (KMap.get k.xdpObjects.Devices a)

/-- The call `xdpObjects.Devices.Lookup(key, &out)`: its error. -/
def Devices.Lookup (k : Kernel) (key : Option IP) : Option Error :=
  match key with
  | none => some "marshal key: invalid key size"
  | some a =>
    match KMap.get k.xdpObjects.Devices a with
    | none => some ("lookup: " ++ ErrKeyNotExist)
    | some _ => none

/-- The call `xdpObjects.Devices.Put(key, value)`. -/
def Devices.Put (k : Kernel) (key : Option IP) (value : fwentry) : Option Error × Kernel :=
  match key with
  | none => (some "marshal key: invalid key size", k)
  | some a =>
    match k.fault with
    | (some e, k1) => (some ("update: " ++ e), k1)
    | (none, k1) =>
      (none, k1.write { k1.xdpObjects with Devices := KMap.put k1.xdpObjects.Devices a value })

/-- The call `xdpObjects.Devices.Update(key, value, ebpf.UpdateExist)`. -/
def Devices.UpdateExist (k : Kernel) (key : Option IP) (value : fwentry) :
    Option Error × Kernel :=
  match key with
  | none => (some "marshal key: invalid key size", k)
  | some a =>
    match k.fault with
    | (some e, k1) => (some ("update: " ++ e), k1)
    | (none, k1) =>
      match KMap.get k1.xdpObjects.Devices a with
      | none => (some ("update: " ++ ErrKeyNotExist), k1)
      | some _ =>
        (none, k1.write { k1.xdpObjects with Devices := KMap.put k1.xdpObjects.Devices a value })

/-- The call `xdpObjects.Devices.LookupAndDelete(key, out)`. -/
def Devices.LookupAndDelete (k : Kernel) (key : Option IP) : Option Error × Kernel :=
  match key with
  | none => (some "marshal key: invalid key size", k)
  | some a =>
    match k.fault with
    | (some e, k1) => (some ("lookup and delete: " ++ e), k1)
    | (none, k1) =>
      match KMap.get k1.xdpObjects.Devices a with
      | none => (some ("lookup and delete: " ++ ErrKeyNotExist), k1)
      | some _ =>
        (none, k1.write { k1.xdpObjects with Devices := KMap.delete k1.xdpObjects.Devices a })

/-- The call `xdpObjects.AccountLocked.Lookup(userid, &out)`: the value, or
the error of a missing key. -/
def AccountLocked.Lookup (k : Kernel) (userid : UserId) : Except Error Nat :=
  match KMap.get k.xdpObjects.AccountLocked userid with
  | none => .error ("lookup: " ++ ErrKeyNotExist)
  | some v => .ok v

/-- The call `xdpObjects.AccountLocked.Put(userid, value)`. -/
def AccountLocked.Put (k : Kernel) (userid : UserId) (value : Nat) : Option Error × Kernel :=
  match k.fault with
  | (some e, k1) => (some ("update: " ++ e), k1)
  | (none, k1) =>
    (none, k1.write
      { k1.xdpObjects with AccountLocked := KMap.put k1.xdpObjects.AccountLocked userid value })

/-- The call `xdpObjects.AccountLocked.Delete(userid)`. -/
def AccountLocked.Delete (k : Kernel) (userid : UserId) : Option Error × Kernel :=
  match k.fault with
  | (some e, k1) => (some ("delete: " ++ e), k1)
  | (none, k1) =>
    match KMap.get k1.xdpObjects.AccountLocked userid with
    | none => (some ("delete: " ++ ErrKeyNotExist), k1)
    | some _ =>
      (none, k1.write
        { k1.xdpObjects with AccountLocked := KMap.delete k1.xdpObjects.AccountLocked userid })

/-- The call `table.Lookup(userid, &innerMapID)` on an outer table. -/
def Table.Lookup (k : Kernel) (table : Table) (userid : UserId) : Except Error Nat :=
  match KMap.get (k.xdpObjects.table table) userid with
  | none => .error ("lookup: " ++ ErrKeyNotExist)
  | some id => .ok id

/-- The call `table.Put(userid, uint32(inner.FD()))` on an outer table: the
entry of the user now refers to the inner map behind the descriptor. -/
def Table.Put (k : Kernel) (table : Table) (userid : UserId) (inner : Nat) :
    Option Error × Kernel :=
  match k.fault with
  | (some e, k1) => (some ("update: " ++ e), k1)
  | (none, k1) =>
    (none, k1.write
      (k1.xdpObjects.setTable table (KMap.put (k1.xdpObjects.table table) userid inner)))

/-- The call `table.Delete(userid)` on an outer table. -/
def Table.Delete (k : Kernel) (table : Table) (userid : UserId) : Option Error × Kernel :=
  match k.fault with
  | (some e, k1) => (some ("delete: " ++ e), k1)
  | (none, k1) =>
    match KMap.get (k1.xdpObjects.table table) userid with
    | none => (some ("delete: " ++ ErrKeyNotExist), k1)
    | some _ =>
      (none, k1.write
        (k1.xdpObjects.setTable table (KMap.delete (k1.xdpObjects.table table) userid)))

/-- The call `ebpf.NewMap(innerMapSpec)`: a fresh, empty trie; the handle is
its ID. -/
def NewMap (k : Kernel) : Except Error Nat × Kernel :=
  match k.fault with
  | (some e, k1) => (.error e, k1)
  | (none, k1) =>
    (.ok k1.xdpObjects.nextID, k1.write
      { k1.xdpObjects with
        innerMaps := KMap.put k1.xdpObjects.innerMaps k1.xdpObjects.nextID []
        nextID := k1.xdpObjects.nextID + 1 })

/-- The call `ebpf.NewMapFromID(id)`: a handle on an existing inner map. -/
def NewMapFromID (k : Kernel) (id : Nat) : Except Error Nat × Kernel :=
  match k.fault with
  | (some e, k1) => (.error e, k1)
  | (none, k1) =>
    match KMap.get k1.xdpObjects.innerMaps id with
    | none => (.error "no such map", k1)
    | some _ => (.ok id, k1)

/-- The call `Close()` on the handle of an inner map. -/
def Close (k : Kernel) : Option Error × Kernel := k.fault

/-- The call `innerMap.Put(key, uint8(1))` on an inner trie: the kernel
rejects a prefix length above 32. -/
def InnerMap.Put (k : Kernel) (id : Nat) (key : TrieKey) : Option Error × Kernel :=
  match k.fault with
  | (some e, k1) => (some ("update: " ++ e), k1)
  | (none, k1) =>
    if 32 < key.1 then (some "update: invalid argument", k1)
    else
      match KMap.get k1.xdpObjects.innerMaps id with
      | none => (some "update: bad file descriptor", k1)
      | some t =>
        (none, k1.write
          { k1.xdpObjects with innerMaps := KMap.put k1.xdpObjects.innerMaps id (t.put key) })

/-! ## `router/bpf.go` -/

/-- The two route lists of a user (`config.Acl`). -/
structure Acl where
  Allow : List String
  Mfa : List String
deriving DecidableEq, Repr

/-- The configuration values the controller reads (`config.Values()` and
`config.GetEffectiveAcl`).  The minutes are Go `int`s. -/
structure Config where
  SessionInactivityTimeoutMinutes : Int
  MaxSessionLifetimeMinutes : Int
  GetEffectiveAcl : String → Acl

/-- The value `loadXDP` and `RefreshConfiguration` compute for the
`inactivity_time` map: the timeout in nanoseconds, `MaxUint64` when the
configured minutes are negative. -/
def inactivityValue (cfg : Config) : Nat :=
  if cfg.SessionInactivityTimeoutMinutes < 0 then MaxUint64
  else mul64 (uint64 cfg.SessionInactivityTimeoutMinutes) 60000000000

/-- `isAuthed`, at the clock reading `currentTime` that `GetTimeStamp()`
returns. -/
def isAuthed (k : Kernel) (cfg : Config) (currentTime : Nat) (address : String) : Bool :=
  match ParseIP address with
  | none => false
  | some ip =>
    match Devices.LookupBytes k (To4 ip) with
    | .error _ => false
    | .ok deviceBytes =>
      match fwentry.Unpack deviceBytes with
      | .error _ => false
      | .ok deviceStruct =>
        match AccountLocked.Lookup k deviceStruct.user_id with
        | .error _ => false
        | .ok isAccountLocked =>
          let sessionValid :=
            decide (deviceStruct.sessionExpiry > currentTime)
              || decide (deviceStruct.sessionExpiry = MaxUint64)
          let sessionActive :=
            decide (sub64 currentTime deviceStruct.lastPacketTime
                < mul64 (uint64 cfg.SessionInactivityTimeoutMinutes) 60000000000)
              || decide (cfg.SessionInactivityTimeoutMinutes < 0)
          decide (isAccountLocked = 0) && sessionValid && sessionActive

/-- `xdpRemoveDevice`. -/
def xdpRemoveDevice (k : Kernel) (address : String) : Option Error × Kernel :=
  match ParseIP address with
  | none => (some ("Address " ++ address ++ " is not parsable as an IP address"), k)
  | some ip =>
    let msg := "remove device failed: "
    match Devices.LookupAndDelete k (To4 ip) with
    | (deviceTableErr, k1) =>
      let finalError : Error :=
        match deviceTableErr with
        | some e =>
          if !Contains e ErrKeyNotExist then
            msg ++ "removing from devices table failed: " ++ e ++ " "
          else msg
        | none => msg
      (if finalError = msg then none else some finalError, k1)

/-- `xdpUserExists`: an error when the user has no entry in `account_locked`. -/
def xdpUserExists (k : Kernel) (userid : UserId) : Option Error :=
  match AccountLocked.Lookup k userid with
  | .error e => some e
  | .ok _ => none

/-- `xdpAddDevice`. -/
def xdpAddDevice (k : Kernel) (username address : String) : Option Error × Kernel :=
  match ParseIP address with
  | none =>
    (some ("Device " ++ username
      ++ " does not have an internal IP address assigned to it, this is a big bug"), k)
  | some ip =>
    match Devices.Lookup k (To4 ip) with
    | none => (some "attempted to add a device with address that already exists", k)
    | some _ =>
      let deviceStruct : fwentry :=
        { lastPacketTime := 0, sessionExpiry := 0, user_id := sha1Sum username }
      match xdpUserExists k deviceStruct.user_id with
      | some err => (some err, k)
      | none => Devices.Put k (To4 ip) deviceStruct

/-- `parseIP`: a CIDR, or else a single address, which gets the prefix
length 32. -/
def parseIP (address : String) : Except Error Key :=
  let address := TrimSpace address
  match ParseCIDR address with
  | none =>
    match ParseIP address with
    | some out => .ok { Prefixlen := 32, IP := out }
    | none => .error ("could not parse ip from input: " ++ address)
  | some (ip, ones) => .ok { Prefixlen := ones % 2 ^ 32, IP := ip }

/-- The loop of `xdpAddRoute` over the destinations, on the inner map of
handle `innerMap`. -/
def xdpAddRouteLoop (k : Kernel) (innerMap : Nat) : List String → Option Error × Kernel
  | [] => (none, k)
  | destination :: destinations =>
    match parseIP destination with
    | .error err => (some err, k)
    | .ok key =>
      match InnerMap.Put k innerMap key.Bytes with
      | (some err, k1) => (some ("inner map: " ++ err), k1)
      | (none, k1) => xdpAddRouteLoop k1 innerMap destinations

/-- `xdpAddRoute`: add the destinations to the inner trie the outer table
holds for the user.  The deferred `innerMap.Close()` runs on every path after
the handle was opened. -/
def xdpAddRoute (k : Kernel) (username : String) (table : Table) (destinations : List String) :
    Option Error × Kernel :=
  let userid := sha1Sum username
  match Table.Lookup k table userid with
  | .error err => (some ("error looking up table: " ++ err), k)
  | .ok innerMapID =>
    match NewMapFromID k innerMapID with
    | (.error err, k1) => (some ("inner map: " ++ err), k1)
    | (.ok innerMap, k1) =>
      match xdpAddRouteLoop k1 innerMap destinations with
      | (res, k2) => (res, (Close k2).2)

/-- The closure `addMapTo` of `AddUser`. -/
def addMapTo (k : Kernel) (userid : UserId) (table : Table) : Option Error × Kernel :=
  match NewMap k with
  | (.error err, k1) => (some (table.String ++ " creating new map: " ++ err), k1)
  | (.ok inner, k1) =>
    match Table.Put k1 table userid inner with
    | (some err, k2) => (some (table.String ++ " adding new map to public table: " ++ err), k2)
    | (none, k2) => Close k2

/-- `AddUser`. -/
def AddUser (k : Kernel) (username : String) (acls : Acl) : Option Error × Kernel :=
  let userid := sha1Sum username
  match xdpUserExists k userid with
  | none => (some "user already exists", k)
  | some _ =>
    match AccountLocked.Put k userid 0 with
    | (some err, k1) => (some err, k1)
    | (none, k1) =>
      match addMapTo k1 userid .PublicTable with
      | (some err, k2) => (some err, k2)
      | (none, k2) =>
        match addMapTo k2 userid .MfaTable with
        | (some err, k3) => (some err, k3)
        | (none, k3) =>
          match xdpAddRoute k3 username .MfaTable acls.Mfa with
          | (some err, k4) => (some err, k4)
          | (none, k4) =>
            match xdpAddRoute k4 username .PublicTable acls.Allow with
            | (some err, k5) => (some err, k5)
            | (none, k5) => (none, k5)

/-- How a call ends: it returns its error value, or it panics. -/
inductive Outcome where
  | returned (err : Option Error)
  | panicked (msg : String)
deriving DecidableEq, Repr

/-- The method call `err.Error()` on an error value: a run-time panic on the
`nil` error. -/
def errorString (err : Option Error) : Except String String :=
  match err with
  | none => .error "runtime error: invalid memory address or nil pointer dereference"
  | some e => .ok e

/-- `RemoveUser`.  `finalError` is `nil` when its `Error` method is called. -/
def RemoveUser (k : Kernel) (username : String) : Outcome × Kernel :=
  let userid := sha1Sum username
  match AccountLocked.Delete k userid with
  | (some err, k1) => (.returned (some err), k1)
  | (none, k1) =>
    let finalError : Option Error := none
    match Table.Delete k1 .PublicTable userid with
    | (publicErr, k2) =>
      let afterPublic : Except String (Option Error) :=
        match publicErr with
        | some e =>
          if !Contains e ErrKeyNotExist then
            (errorString finalError).map
              (fun m => some (m ++ "removing from public table failed"))
          else .ok finalError
        | none => .ok finalError
      match afterPublic with
      | .error p => (.panicked p, k2)
      | .ok finalError =>
        match Table.Delete k2 .MfaTable userid with
        | (mfaErr, k3) =>
          let afterMfa : Except String (Option Error) :=
            match mfaErr with
            | some e =>
              if !Contains e ErrKeyNotExist then
                match errorString finalError, errorString publicErr with
                | .error p, _ => .error p
                | .ok _, .error p => .error p
                | .ok m, .ok pm =>
                  .ok (some (m ++ "removing from mfa table failed: " ++ pm ++ " "))
              else .ok finalError
            | none => .ok finalError
          match afterMfa with
          | .error p => (.panicked p, k3)
          | .ok finalError => (.returned finalError, k3)

/-- The closure `updateRoutes` of `refreshUserAcls`. -/
def updateRoutes (k : Kernel) (username : String) (table : Table) (routes : List String) :
    Option Error × Kernel :=
  let id := sha1Sum username
  match NewMap k with
  | (.error err, k1) => (some (table.String ++ " creating new map: " ++ err), k1)
  | (.ok inner, k1) =>
    match Table.Put k1 table id inner with
    | (some err, k2) => (some (table.String ++ " adding new map to public table: " ++ err), k2)
    | (none, k2) =>
      match xdpAddRoute k2 username table routes with
      | (some err, k3) => (some err, k3)
      | (none, k3) => Close k3

/-- `refreshUserAcls` (and `RefreshUserAcls`, which only adds the lock). -/
def refreshUserAcls (k : Kernel) (cfg : Config) (username : String) : Option Error × Kernel :=
  let acls := cfg.GetEffectiveAcl username
  match updateRoutes k username .PublicTable acls.Allow with
  | (err1, k1) =>
    match updateRoutes k1 username .MfaTable acls.Mfa with
    | (err2, k2) =>
      match err1 with
      | some e => (some e, k2)
      | none =>
        match err2 with
        | some e => (some e, k2)
        | none => (none, k2)

/-- `SetAuthorized`; `now1` and `now2` are the readings of its two calls of
`GetTimeStamp()`. -/
def SetAuthorized (k : Kernel) (cfg : Config) (now1 now2 : Nat)
    (internalAddress username : String) : Option Error × Kernel :=
  match ParseIP4 internalAddress with
  | none => (some "internalAddress could not be parsed as an IPv4 address", k)
  | some _ =>
    let deviceStruct : fwentry :=
      { lastPacketTime := now1
        sessionExpiry :=
          if cfg.MaxSessionLifetimeMinutes < 0 then MaxUint64
          else add64 now2 (mul64 (uint64 cfg.MaxSessionLifetimeMinutes) 60000000000)
        user_id := sha1Sum username }
    Devices.UpdateExist k (ParseIP4 internalAddress) deviceStruct

/-- `Deauthenticate`. -/
def Deauthenticate (k : Kernel) (address : String) : Option Error × Kernel :=
  match ParseIP address with
  | none => (some ("Unable to get IP address from: " ++ address), k)
  | some ip =>
    match To4 ip with
    | none => (some "IP address was not ipv4", k)
    | some _ =>
      match Devices.LookupBytes k (To4 ip) with
      | .error err => (some err, k)
      | .ok deviceBytes =>
        match fwentry.Unpack deviceBytes with
        | .error err => (some err, k)
        | .ok devicesStruct =>
          Devices.UpdateExist k (To4 ip)
            { devicesStruct with lastPacketTime := 0, sessionExpiry := 0 }

/-- The record `isAuthed` reads for an address: the entry of `devices` under
the four bytes of the address. -/
def deviceOf (k : Kernel) (address : String) : Option fwentry :=
  match ParseIP4 address with
  | none => none
  | some key => KMap.get k.xdpObjects.Devices key

/-- The inner trie the outer table refers to for a user: `none` when the
table has no entry for the user or the entry refers to no inner map. -/
def tableTrie (o : bpfObjects) (table : Table) (userid : UserId) : Option Trie :=
  match KMap.get (o.table table) userid with
  | none => none
  | some id => KMap.get o.innerMaps id

/-- The answer of the packet path for a destination through the outer table
of a user: whether the inner trie matches, `none` without an inner trie. -/
def routeLookup (o : bpfObjects) (table : Table) (userid : UserId) (d : List Nat) :
    Option Bool :=
  (tableTrie o table userid).map (fun t => t.matches d)

/-- A route `xdpAddRoute` can insert: it parses, and its prefix length is one
the kernel accepts. -/
def validRoute (r : String) : Prop :=
  ∃ key, parseIP r = .ok key ∧ key.Bytes.1 ≤ 32

/-- The trie after the routes are inserted in order into the trie `t`
(a route that does not parse inserts nothing). -/
def routeKeysFrom (t : Trie) (routes : List String) : Trie :=
  routes.foldl
    (fun t r =>
      match parseIP r with
      | .ok key => t.put key.Bytes
      | .error _ => t)
    t

/-- The trie that holds exactly the entries of a list of routes. -/
def routeKeys (routes : List String) : Trie := routeKeysFrom [] routes

/-- The maps with the inner map `id` holding the trie `t`. -/
def bpfObjects.withTrie (o : bpfObjects) (id : Nat) (t : Trie) : bpfObjects :=
  { o with innerMaps := KMap.put o.innerMaps id t }

/-- The maps after `ebpf.NewMap` created a fresh, empty inner map. -/
def bpfObjects.allocated (o : bpfObjects) : bpfObjects :=
  { o with innerMaps := KMap.put o.innerMaps o.nextID [], nextID := o.nextID + 1 }

/-- The maps after a fresh inner map was created, put in the outer table for
the user, and brought to hold the trie `t`. -/
def bpfObjects.replaced (o : bpfObjects) (table : Table) (userid : UserId) (t : Trie) :
    bpfObjects :=
  (o.allocated.setTable table
    (KMap.put (o.allocated.table table) userid o.nextID)).withTrie o.nextID t

/-- Every inner map ID an outer table holds was handed out by the kernel: it
is below `nextID`. -/
def innerIDsAllocated (o : bpfObjects) : Prop :=
  (∀ p ∈ o.PublicTable, p.2 < o.nextID) ∧ (∀ p ∈ o.MfaTable, p.2 < o.nextID)

instance (o : bpfObjects) : Decidable (innerIDsAllocated o) := by
  unfold innerIDsAllocated
  infer_instance

/-- What `updateRoutes` on a table leaves of the state `o` in a state it goes
through: the inner map IDs stay allocated, the other table refers to the same
tries, and the table refers for the user to the trie it referred to or to a
trie holding the first entries of the new list. -/
def refreshStage (o : bpfObjects) (table : Table) (uid : UserId) (rs : List String)
    (o1 : bpfObjects) : Prop :=
  innerIDsAllocated o1 ∧
  (∀ t1 u1, t1 ≠ table → tableTrie o1 t1 u1 = tableTrie o t1 u1) ∧
  (tableTrie o1 table uid = tableTrie o table uid ∨
    ∃ m, tableTrie o1 table uid = some (routeKeys (rs.take m)))

/-- The route lists of the installation, the public list followed by an entry
that is neither an address nor a CIDR. -/
def brokenAclConfig : Config :=
  { SessionInactivityTimeoutMinutes := 1
    MaxSessionLifetimeMinutes := 1
    GetEffectiveAcl := fun _ => { Allow := ["10.0.0.0/24", "bogus"], Mfa := ["10.1.0.0/16"] } }

/-- Invariant P1: every entry of `devices` has an owner that is a key of
`account_locked`. -/
def devicesHaveUsers (o : bpfObjects) : Prop :=
  ∀ p ∈ o.Devices, (KMap.get o.AccountLocked p.2.user_id).isSome = true

instance (o : bpfObjects) : Decidable (devicesHaveUsers o) := by
  unfold devicesHaveUsers
  infer_instance

/-- Two states with the same `devices` and `account_locked` maps. -/
def sameDevicesUsers (k k1 : Kernel) : Prop :=
  k1.xdpObjects.Devices = k.xdpObjects.Devices ∧
    k1.xdpObjects.AccountLocked = k.xdpObjects.AccountLocked

/-- The expiry `SetAuthorized` stores when its second clock reading is `now`:
`MaxUint64` for a negative lifetime, else the reading plus the lifetime in
nanoseconds, in `uint64` arithmetic. -/
def sessionExpiryValue (cfg : Config) (now : Nat) : Nat :=
  if cfg.MaxSessionLifetimeMinutes < 0 then MaxUint64
  else add64 now (mul64 (uint64 cfg.MaxSessionLifetimeMinutes) 60000000000)

/-! ## Package `net`: printing -/

/-- Lower-case hexadecimal digits of a number, without leading zeros. -/
def hexDigits (n : Nat) : String := String.mk (Nat.toDigits 16 n)

/-- Dotted decimal form of four bytes. -/
def dotted (b : List Nat) : String := ".".intercalate (b.map toString)

/-- The eight 16-bit groups of a 16-byte address. -/
def groups16 (ip : IP) : List Nat :=
  (List.range 8).map (fun i => ip.getD (2 * i) 0 * 256 + ip.getD (2 * i + 1) 0)

/-- The first longest run of at least two zero groups, as start and end. -/
def longestZeroRun (gs : List Nat) : Option (Nat × Nat) :=
  (List.range 8).foldl
    (fun best i =>
      let l := ((gs.drop i).takeWhile (fun g => g == 0)).length
      let bestLen := match best with
        | none => 0
        | some (s, e) => e - s
      if 2 ≤ l ∧ bestLen < l then some (i, i + l) else best)
    none

/-- Go `netip.Addr.string6`: the groups in hexadecimal, the longest run of
zero groups written `::`. -/
def string6 (ip : IP) : String :=
  let gs := groups16 ip
  match longestZeroRun gs with
  | none => ":".intercalate (gs.map hexDigits)
  | some (s, e) =>
    ":".intercalate ((gs.take s).map hexDigits) ++ "::"
      ++ ":".intercalate ((gs.drop e).map hexDigits)

/-- Go `IP.String`. -/
def IPString (ip : IP) : String :=
  if ip.length = 0 then "<nil>"
  else if ip.length ≠ 4 ∧ ip.length ≠ 16 then
    "?" ++ String.join (ip.map (fun b => hexDigits (b / 16) ++ hexDigits (b % 16)))
  else
    match To4 ip with
    | some p4 => dotted p4
    | none => string6 ip

/-- A Go `net.UDPAddr`. -/
structure UDPAddr where
  IP : IP
  Port : Nat
  Zone : String
deriving DecidableEq, Repr

/-- Go `(*UDPAddr).String`, on a possibly `nil` pointer. -/
def UDPAddrString (a : Option UDPAddr) : String :=
  match a with
  | none => "<nil>"
  | some a =>
    let ip := if a.IP.length = 0 then "" else IPString a.IP
    let host := if a.Zone ≠ "" then ip ++ "%" ++ a.Zone else ip
    if host.toList.contains ':' then "[" ++ host ++ "]:" ++ toString a.Port
    else host ++ ":" ++ toString a.Port

/-- A Go `net.IPNet`. -/
structure IPNet where
  IP : IP
  Mask : List Nat
deriving DecidableEq, Repr

/-! ## The endpoint watcher of `internal/router/init.go` -/

/-- A WireGuard peer as `ctrl.Device` reports it (`wgtypes.Peer`). -/
structure Peer where
  PublicKey : String
  AllowedIPs : List IPNet
  Endpoint : Option UDPAddr
deriving DecidableEq, Repr

/-- Modelled from the spec: the device record of the coordination store
(`data.Device`, key `devices-<address>`), whose declaration is not in the
sources: the tunnel address and the last observed UDP endpoint. -/
structure Device where
  Address : String
  Endpoint : Option UDPAddr
deriving DecidableEq, Repr

/-- Modelled from the spec: the device records of the coordination store, by
tunnel address, and the schedule of the faults its coming operations meet
(time-outs, lost quorum). -/
structure Store where
  devices : KMap String Device
  faults : List (Option Error)
deriving DecidableEq, Repr

/-- Modelled from the spec: `data.GetDeviceByAddress`, which is not in the
sources: the record stored under the address, an error when there is
none or the store fails. -/
def GetDeviceByAddress (s : Store) (address : String) : Except Error Device × Store :=
  match s.faults with
  | some e :: fs => (.error e, { s with faults := fs })
  | f =>
    match KMap.get s.devices address with
    | none => (.error "device not found", { s with faults := f.tail })
    | some d => (.ok d, { s with faults := f.tail })

/-- Modelled from the spec: `data.UpdateDeviceEndpoint`, which is not in the
sources: it persists the endpoint in the record of the device. -/
def UpdateDeviceEndpoint (s : Store) (address : String) (endpoint : Option UDPAddr) :
    Option Error × Store :=
  match s.faults with
  | some e :: fs => (some e, { s with faults := fs })
  | f =>
    match KMap.get s.devices address with
    | none => (some "device not found", { s with faults := f.tail })
    | some d =>
      (none, { devices := KMap.put s.devices address { d with Endpoint := endpoint }
               faults := f.tail })

/-- A call the watcher makes on the controller or on the store. -/
inductive Call where
  | GetDeviceByAddress (address : String)
  | UpdateDeviceEndpoint (address : String) (endpoint : Option UDPAddr)
  | Deauthenticate (address : String)
deriving DecidableEq, Repr

/-- The state of the watcher goroutine and of what it acts on: its variables
`startup` and `cache`, the kernel maps, the store, and the record of its
calls, oldest first, each with the kernel state at the moment of the call. -/
structure Watcher where
  startup : Bool
  cache : KMap String String
  kernel : Kernel
  store : Store
  calls : List (Call × Kernel)

/-- The Go map read `cache[ip]`: the empty string for a missing key. -/
def cacheGet (cache : KMap String String) (ip : String) : String :=
  (KMap.get cache ip).getD ""

/-- The call `Deauthenticate(ip)` of the watcher, whose error is only logged. -/
def Watcher.deauthenticate (w : Watcher) (ip : String) : Watcher :=
  { w with
    kernel := (Deauthenticate w.kernel ip).2
    calls := w.calls ++ [(Call.Deauthenticate ip, w.kernel)] }

/-- The body of the loop `for _, p := range dev.Peers` of the watcher. -/
def watchPeer (w : Watcher) (p : Peer) : Watcher :=
  match p.AllowedIPs with
  | [allowed] =>
    let ip := IPString allowed.IP
    if cacheGet w.cache ip ≠ UDPAddrString p.Endpoint then
      let w1 := { w with cache := KMap.put w.cache ip (UDPAddrString p.Endpoint) }
      match GetDeviceByAddress w1.store ip with
      | (.error _, s1) =>
        { w1 with store := s1, calls := w1.calls ++ [(Call.GetDeviceByAddress ip, w1.kernel)] }
          |>.deauthenticate ip
      | (.ok _, s1) =>
        let w2 :=
          { w1 with
            store := (UpdateDeviceEndpoint s1 (IPString allowed.IP) p.Endpoint).2
            calls := w1.calls ++ [(Call.GetDeviceByAddress ip, w1.kernel),
              (Call.UpdateDeviceEndpoint (IPString allowed.IP) p.Endpoint, w1.kernel)] }
        if !w2.startup then w2.deauthenticate ip else w2
    else w
  | _ => w

/-- One tick of the watcher on the peers `ctrl.Device` returned: the loop over
the peers, then `startup = false`. -/
def watcherTick (w : Watcher) (peers : List Peer) : Watcher :=
  { peers.foldl watchPeer w with startup := false }

/-- The watcher as the goroutine starts it: `startup` set, the cache filled
from the devices `data.GetAllDevices` returned. -/
def watcherStart (kernel : Kernel) (store : Store) (d : List Device) : Watcher :=
  { startup := true
    cache := d.foldl (fun c device => KMap.put c device.Address (UDPAddrString device.Endpoint)) []
    kernel := kernel
    store := store
    calls := [] }

/-! ## A concrete installation

One user, `alice`, with one device at `192.0.2.5`; her public trie holds
`10.0.0.0/24` and her MFA trie `10.1.0.0/16`. -/

/-- The maps of the installation, the device not authenticated. -/
def exampleObjects : bpfObjects :=
  { Devices := [([192, 0, 2, 5],
      { user_id := sha1Sum "alice", lastPacketTime := 0, sessionExpiry := 0 })]
    AccountLocked := [(sha1Sum "alice", 0)]
    PublicTable := [(sha1Sum "alice", 1)]
    MfaTable := [(sha1Sum "alice", 2)]
    InactivityTimeoutMinutes := 60000000000
    innerMaps := [(1, [(24, [10, 0, 0, 0])]), (2, [(16, [10, 1, 0, 0])])]
    nextID := 3 }

/-- The installation with no fault ahead. -/
def exampleKernel : Kernel := { xdpObjects := exampleObjects, faults := [], history := [] }

/-- A configuration with the given inactivity timeout and session lifetime,
in minutes, and the route lists of the installation for every user. -/
def exampleConfig (inactivity lifetime : Int) : Config :=
  { SessionInactivityTimeoutMinutes := inactivity
    MaxSessionLifetimeMinutes := lifetime
    GetEffectiveAcl := fun _ => { Allow := ["10.0.0.0/24"], Mfa := ["10.1.0.0/16"] } }

/-- The installation after `SetAuthorized("192.0.2.5", "alice")` at clock
reading 100 under a one-minute lifetime. -/
def authedKernel : Kernel :=
  (SetAuthorized exampleKernel (exampleConfig 1 1) 100 100 "192.0.2.5" "alice").2

/-- A watcher past its warm-up scan, over the installation with the device
authenticated; the cache and the store hold the endpoint
`198.51.100.1:51820`. -/
def roamWatcher : Watcher :=
  { startup := false
    cache := [("192.0.2.5", "198.51.100.1:51820")]
    kernel := authedKernel
    store :=
      { devices := [("192.0.2.5",
          { Address := "192.0.2.5", Endpoint := some ⟨[198, 51, 100, 1], 51820, ""⟩ })]
        faults := [] }
    calls := [] }

/-- The peer of the device, seen from the endpoint `198.51.100.2:51820`. -/
def roamPeer : Peer :=
  { PublicKey := "pk"
    AllowedIPs := [{ IP := [192, 0, 2, 5], Mask := [255, 255, 255, 255] }]
    Endpoint := some ⟨[198, 51, 100, 2], 51820, ""⟩ }

/-- The installation with the entry of `alice` missing from `public_table`. -/
def partialKernel : Kernel :=
  { xdpObjects := { exampleObjects with PublicTable := [] }, faults := [], history := [] }

/-- The installation when the second coming system call fails with `EIO`. -/
def faultyKernel : Kernel := { exampleKernel with faults := [none, some "EIO"] }

/-- The installation when the third coming system call fails with `EIO`. -/
def faultyKernel3 : Kernel := { exampleKernel with faults := [none, none, some "EIO"] }

/-- The routes of a new user `bob`: a CIDR and a bare address for the public
table, a CIDR for the MFA table. -/
def bobAcl : Acl := { Allow := ["10.0.0.0/24", "10.2.3.4"], Mfa := ["10.1.0.0/16"] }

/-- An access list with two entries of the same prefix. -/
def overlapAcl : Acl :=
  { Allow := ["10.0.0.5/24", " 10.2.3.4", "10.0.0.9/24"], Mfa := ["10.1.0.0/16", "10.1.2.3/16"] }

/-! ## Package `net`: networks -/

/-- Go `net.CIDRMask(ones, bits)` for a bit length of 32 or 128 and at most
`bits` ones: `ones` one bits followed by zero bits, as bytes. -/
def CIDRMask (ones bits : Nat) : List Nat :=
  (List.range (bits / 8)).map (fun i =>
    let n := ones - 8 * i
    if 8 ≤ n then 0xff else 0xff - 0xff >>> n)

/-- Go `IP.Mask`: the bytes of the address under the mask, the empty slice
(Go `nil`) when the lengths do not fit. -/
def IPMask (ip mask : List Nat) : List Nat :=
  let mask :=
    if mask.length = 16 ∧ ip.length = 4 ∧ mask.take 12 = List.replicate 12 0xff then mask.drop 12
    else mask
  let ip :=
    if mask.length = 4 ∧ ip.length = 16 ∧ ip.take 12 = v4InV6 [] then ip.drop 12 else ip
  if ip.length ≠ mask.length then []
  else List.zipWith (fun a m => a &&& m) ip mask

/-- Go `net.ParseCIDR`: the address in 16-byte form and the network, `none`
for the parse error. -/
def ParseCIDRNet (s : String) : Option (IP × IPNet) :=
  let cs := s.toList
  if !cs.contains '/' then none
  else
    let addr := cs.takeWhile (fun c => c ≠ '/')
    let mask := cs.drop (addr.length + 1)
    match ParseAddr addr with
    | none => none
    | some ipAddr =>
      if mask.isEmpty || !mask.all Char.isDigit then none
      else
        let n := mask.foldl (fun v c => 10 * v + (c.toNat - 48)) 0
        if ipAddr.BitLen < n then none
        else
          let m := CIDRMask n ipAddr.BitLen
          some (ipAddr.As16, { IP := IPMask ipAddr.As16 m, Mask := m })

/-- Go `net.networkNumberAndMask`; the empty slices stand for `nil`. -/
def networkNumberAndMask (n : IPNet) : List Nat × List Nat :=
  let ip := (To4 n.IP).getD n.IP
  if (To4 n.IP).isNone ∧ ip.length ≠ 16 then ([], [])
  else if n.Mask.length = 4 then
    if ip.length ≠ 4 then ([], []) else (ip, n.Mask)
  else if n.Mask.length = 16 then
    if ip.length = 4 then (ip, n.Mask.drop 12) else (ip, n.Mask)
  else ([], [])

/-- Go `(*IPNet).Contains`; the empty slice stands for the `nil` address. -/
def IPNet.Contains (n : IPNet) (ip : List Nat) : Bool :=
  let (nn, m) := networkNumberAndMask n
  let ip := (To4 ip).getD ip
  if ip.length ≠ nn.length then false
  else (List.range ip.length).all (fun i => nn.getD i 0 &&& m.getD i 0 == ip.getD i 0 &&& m.getD i 0)

/-- Go `(*IPNet).String` for a network that `ParseCIDR` returned (its mask is
canonical): the address, a slash, and the number of ones of the mask. -/
def IPNet.String (n : IPNet) : String :=
  let (nn, m) := networkNumberAndMask n
  IPString nn ++ "/" ++ toString ((m.map (fun b => (List.range 8).countP (fun j => b.testBit j))).sum)

/-! ## Tunnel addresses: `router/wireguard.go` and `utils/utils.go` -/

/-- The loop `for i := len(ip) - 1; i >= 0; i-- { ip[i]++; if ip[i] != 0 { break } }`
on the bytes taken last first. -/
def incrementLoop : List Nat → List Nat
  | [] => []
  | b :: bs => if (b + 1) % 256 ≠ 0 then (b + 1) % 256 :: bs else 0 :: incrementLoop bs

/-- `router.incrementIP`.  The second component is the error, `none` for
`nil`. -/
def incrementIP (origIP cidr : String) : String × Option Error :=
  let ip := (ParseIP origIP).getD []
  match ParseCIDRNet cidr with
  | none => (origIP, some ("invalid CIDR address: " ++ cidr))
  | some (_, ipNet) =>
    let ip := (incrementLoop ip.reverse).reverse
    if !ipNet.Contains ip then (origIP, some "overflowed CIDR while incrementing IP")
    else (IPString ip, none)

/-- `utils.IncrementIP`. -/
def IncrementIP (origIP cidr : String) : String × Option Error :=
  let ip := (ParseIP origIP).getD []
  match ParseCIDRNet cidr with
  | none => (origIP, some ("invalid CIDR address: " ++ cidr))
  | some (_, ipNet) =>
    let ip := (incrementLoop ip.reverse).reverse
    if !ipNet.Contains ip then (origIP, some "overflowed CIDR while incrementing IP")
    else (IPString ip, none)

/-- The scan of `utils.GetIP` from the right over the bytes after the first
(`rest`): the part of `rest` before its last `:` or `/`, if it has one. -/
def GetIPScan (rest : List Char) : Option (List Char) :=
  match rest.reverse.dropWhile (fun c => c ≠ ':' ∧ c ≠ '/') with
  | [] => none
  | _ :: before => some before.reverse

/-- `utils.GetIP`: the address without the port or the prefix length; the
first byte is never taken for a separator. -/
def GetIP (addr : String) : String :=
  match addr.toList with
  | [] => addr
  | c :: rest =>
    match GetIPScan rest with
    | none => addr
    | some before => String.mk (c :: before)

/-- The numeric successor of an IPv4 address lies in the network of base
address `base` with `ones` leading mask bits: it is an IPv4 address, and its
first `ones` bits are those of the base. -/
def successorInCIDR (a base : List Nat) (ones : Nat) : Prop :=
  addrNat a + 1 < 2 ^ 32 ∧ (addrNat a + 1) / 2 ^ (32 - ones) = addrNat base / 2 ^ (32 - ones)

instance (a base : List Nat) (ones : Nat) : Decidable (successorInCIDR a base ones) := by
  unfold successorInCIDR
  exact inferInstance

/-- The four bytes of a number below `2 ^ 32`, most significant first. -/
def natAddr (n : Nat) : List Nat := [n / 2 ^ 24 % 256, n / 2 ^ 16 % 256, n / 2 ^ 8 % 256, n % 256]

/-! ## The WireGuard device: `router/wireguard.go` -/

/-- A `wgtypes.PeerConfig`, with the fields `RemovePeer` and `AddPeer` fill. -/
structure PeerConfig where
  PublicKey : String
  Remove : Bool
  ReplaceAllowedIPs : Bool
  AllowedIPs : List IPNet
deriving DecidableEq, Repr

/-- The WireGuard device behind the client `ctrl`: its peers, in the order the
kernel lists them, and the schedule of the faults the coming calls of the
client meet. -/
structure WgCtrl where
  Peers : List Peer
  faults : List (Option Error)
deriving DecidableEq, Repr

/-- Take the next entry of the fault schedule of the client. -/
def WgCtrl.fault (c : WgCtrl) : Option Error × WgCtrl :=
  match c.faults with
  | [] => (none, c)
  | f :: fs => (f, { c with faults := fs })

/-- The call `ctrl.Device(name)`: the peers of the device. -/
def ctrl.Device (c : WgCtrl) : Except Error (List Peer) × WgCtrl :=
  match c.fault with
  | (some e, c1) => (.error e, c1)
  | (none, c1) => (.ok c1.Peers, c1)

/-- The call `ctrl.ConfigureDevice(name, cfg)` for a configuration of one
peer: the peer is removed, or updated, or added after the present ones. -/
def ctrl.ConfigureDevice (c : WgCtrl) (p : PeerConfig) : Option Error × WgCtrl :=
  match c.fault with
  | (some e, c1) => (some e, c1)
  | (none, c1) =>
    if p.Remove then
      (none, { c1 with Peers := c1.Peers.filter (fun q => q.PublicKey ≠ p.PublicKey) })
    else if c1.Peers.any (fun q => q.PublicKey = p.PublicKey) then
      (none, { c1 with Peers := c1.Peers.map (fun q =>
        if q.PublicKey = p.PublicKey then
          { q with AllowedIPs :=
              if p.ReplaceAllowedIPs then p.AllowedIPs else q.AllowedIPs ++ p.AllowedIPs }
        else q) })
    else
      (none, { c1 with Peers := c1.Peers ++
        [{ PublicKey := p.PublicKey, AllowedIPs := p.AllowedIPs, Endpoint := none }] })

/-- `RemovePeer`. -/
def RemovePeer (c : WgCtrl) (k : Kernel) (internalAddress : String) :
    Option Error × WgCtrl × Kernel :=
  match ctrl.Device c with
  | (.error err, c1) => (some err, c1, k)
  | (.ok dev, c1) =>
    match dev.find? (fun peer =>
        match peer.AllowedIPs with
        | [allowed] => IPString allowed.IP == internalAddress
        | _ => false) with
    | none => (some "wireguard peer not found", c1, k)
    | some peer =>
      let pubkey := peer.PublicKey
      match ctrl.ConfigureDevice c1
          { PublicKey := pubkey, Remove := true, ReplaceAllowedIPs := false, AllowedIPs := [] } with
      | (err1, c2) =>
        match xdpRemoveDevice k internalAddress with
        | (err2, k1) =>
          if err1 ≠ none then (err1, c2, k1)
          else if err2 ≠ none then (err1, c2, k1)
          else (none, c2, k1)

/-- Modelled from the spec: the device record of package `database`, which is
not in the sources: the tunnel address, the public key and the owning
username of a device. -/
structure DatabaseDevice where
  Address : String
  Publickey : String
  Username : String
deriving DecidableEq, Repr

/-- Modelled from the spec: the device records of package `database`, and the
schedule of the faults its coming operations meet. -/
structure Database where
  devices : List DatabaseDevice
  faults : List (Option Error)
deriving DecidableEq, Repr

/-- Modelled from the spec: `database.CreateMFAEntry`, which is not in the
sources: it stores a record for a tunnel address that has none (the address
is unique per device) and returns it. -/
def CreateMFAEntry (db : Database) (address publickey username : String) :
    Except Error DatabaseDevice × Database :=
  match db.faults with
  | some e :: fs => (.error e, { db with faults := fs })
  | f =>
    if db.devices.any (fun d => d.Address = address) then
      (.error "device already exists", { db with faults := f.tail })
    else
      let d : DatabaseDevice := { Address := address, Publickey := publickey, Username := username }
      (.ok d, { devices := db.devices ++ [d], faults := f.tail })

/-- Modelled from the spec: `database.DeleteDevice`, which is not in the
sources: it removes the record of a tunnel address. -/
def DeleteDevice (db : Database) (address : String) : Option Error × Database :=
  match db.faults with
  | some e :: fs => (some e, { db with faults := fs })
  | f => (none, { devices := db.devices.filter (fun d => d.Address ≠ address), faults := f.tail })

/-- The values of `config.Values().Wireguard` that `AddPeer` reads. -/
structure WireguardValues where
  ServerAddress : IP
  Range : IPNet
deriving DecidableEq, Repr

/-- How a call of `AddPeer` ends: it returns an address and an error value, or
it panics. -/
inductive AddPeerOutcome where
  | returned (address : String) (err : Option Error)
  | panicked (msg : String)
deriving DecidableEq, Repr

/-- The expression `utils.GetIP(peer.AllowedIPs[0].IP.String())` of the loop
of `AddPeer`, for a peer with an allowed address. -/
def peerAddress (peer : Peer) : String :=
  match peer.AllowedIPs with
  | allowed :: _ => GetIP (IPString allowed.IP)
  | [] => ""

/-- `AddPeer`.  The record `CreateMFAEntry` returns is handed to
`xdpAddDevice` by its username and address. -/
def AddPeer (wg : WireguardValues) (c : WgCtrl) (db : Database) (k : Kernel)
    (pub username : String) : AddPeerOutcome × WgCtrl × Database × Kernel :=
  match ctrl.Device c with
  | (.error err, c1) => (.returned "" (some err), c1, db, k)
  | (.ok dev, c1) =>
    if dev.any (fun peer => peer.AllowedIPs.isEmpty) then
      (.panicked "runtime error: index out of range [0] with length 0", c1, db, k)
    else
      let addresses := dev.map peerAddress
      let newAddress :=
        match addresses.getLast? with
        | some last => last
        | none => IPString wg.ServerAddress
      match incrementIP newAddress wg.Range.String with
      | (_, some err) => (.returned "" (some err), c1, db, k)
      | (newAddress, none) =>
        match ParseCIDRNet (newAddress ++ "/32") with
        | none => (.returned "" (some ("invalid CIDR address: " ++ newAddress ++ "/32")), c1, db, k)
        | some (_, network) =>
          match CreateMFAEntry db newAddress pub username with
          | (.error err, db1) =>
            (.returned "" (some ("unable to setup for first use mfa: " ++ err)), c1, db1, k)
          | (.ok newDevice, db1) =>
            match xdpAddDevice k newDevice.Username newDevice.Address with
            | (some err, k1) =>
              (.returned "" (some err), c1, (DeleteDevice db1 newAddress).2, k1)
            | (none, k1) =>
              match ctrl.ConfigureDevice c1
                  { PublicKey := pub, Remove := false, ReplaceAllowedIPs := true,
                    AllowedIPs := [network] } with
              | (err, c2) => (.returned (IPString network.IP) err, c2, db1, k1)

/-- A peer with one allowed address, a `/32`. -/
def tunnelPeer (key : String) (address : IP) : Peer :=
  { PublicKey := key, AllowedIPs := [{ IP := address, Mask := [255, 255, 255, 255] }],
    Endpoint := none }

/-- The tunnel `10.0.0.0/24` with the server at `10.0.0.1`. -/
def tunnelValues : WireguardValues :=
  { ServerAddress := [10, 0, 0, 1], Range := { IP := [10, 0, 0, 0], Mask := [255, 255, 255, 0] } }

/-- A device that lists the peer `10.0.0.5` before the peer `10.0.0.2`. -/
def tunnelCtrl : WgCtrl :=
  { Peers := [tunnelPeer "pk5" [10, 0, 0, 5], tunnelPeer "pk2" [10, 0, 0, 2]], faults := [] }

/-- The records of the two devices of `tunnelCtrl`. -/
def tunnelDatabase : Database :=
  { devices := [⟨"10.0.0.5", "pk5", "alice"⟩, ⟨"10.0.0.2", "pk2", "alice"⟩], faults := [] }

/-- The kernel maps with the two devices of `tunnelCtrl`, owned by `alice`. -/
def tunnelKernel : Kernel :=
  { xdpObjects :=
      { exampleObjects with
        Devices := [([10, 0, 0, 5], ⟨sha1Sum "alice", 0, 0⟩), ([10, 0, 0, 2], ⟨sha1Sum "alice", 0, 0⟩)] }
    faults := [], history := [] }

/-- The device of the example installation as a WireGuard peer. -/
def exampleCtrl : WgCtrl := { Peers := [tunnelPeer "pk" [192, 0, 2, 5]], faults := [] }

/-- The example installation when its next system call fails with `EIO`. -/
def failingKernel : Kernel := { exampleKernel with faults := [some "EIO"] }

/-! ## The clock, `RefreshConfiguration` and `GetRules` of `router/bpf.go` -/

/-- A Go `int64` from the exact result of signed arithmetic: two's complement. -/
def int64 (x : Int) : Int := (x + 2 ^ 63) % 2 ^ 64 - 2 ^ 63

/-- The `Timespec` that `clock_gettime` fills. -/
structure Timespec where
  Ftv_sec : Int
  Ftv_nsec : Int
deriving DecidableEq, Repr

/-- `GetTimeStamp`, for the time `t` that `clock_gettime(CLOCK_BOOTTIME)`
reports: the nanoseconds since boot. -/
def GetTimeStamp (t : Timespec) : Nat :=
  uint64 (int64 (int64 (t.Ftv_sec * 1000000000) + t.Ftv_nsec))

/-- The call `xdpObjects.InactivityTimeoutMinutes.Put(uint32(0), value)`. -/
def InactivityTimeoutMinutes.Put (k : Kernel) (value : Nat) : Option Error × Kernel :=
  match k.fault with
  | (some e, k1) => (some ("update: " ++ e), k1)
  | (none, k1) => (none, k1.write { k1.xdpObjects with InactivityTimeoutMinutes := value })

/-- Modelled from the spec: the user record that `data.GetAllUsers` lists;
package `data` declares it outside the sources. -/
structure UserModel where
  Username : String
deriving DecidableEq, Repr

/-- The loop of `RefreshConfiguration` over the users: the result of every
`refreshUserAcls` is appended to `errors`. -/
def RefreshConfigurationLoop (cfg : Config) :
    Kernel → List (Option Error) → List UserModel → List (Option Error) × Kernel
  | k, errors, [] => (errors, k)
  | k, errors, user :: users =>
    match refreshUserAcls k cfg user.Username with
    | (err, k1) => RefreshConfigurationLoop cfg k1 (errors ++ [err]) users

/-- `RefreshConfiguration`; `users` is what `data.GetAllUsers()` returns.  The
result is the Go slice `[]error`, whose entries may be `nil` (`none`). -/
def RefreshConfiguration (k : Kernel) (cfg : Config) (users : Except Error (List UserModel)) :
    List (Option Error) × Kernel :=
  match users with
  | .error err => ([some err], k)
  | .ok users =>
    let value :=
      if cfg.SessionInactivityTimeoutMinutes < 0 then MaxUint64
      else mul64 (uint64 cfg.SessionInactivityTimeoutMinutes) 60000000000
    match InactivityTimeoutMinutes.Put k value with
    | (some err, k1) => ([some ("could not set inactivity timeout: " ++ err)], k1)
    | (none, k1) => RefreshConfigurationLoop cfg k1 [] users

/-- `FirewallRules`. -/
structure FirewallRules where
  IsAuthorized : Bool
  LastPacketTimestamp : Nat
  Expiry : Nat
  MFA : List String
  Public : List String
  IP : IP
deriving DecidableEq, Repr

/-- Go `hex.EncodeToString`. -/
def hexEncode (b : List Nat) : String :=
  String.join (b.map (fun x => hexDigits (x / 16) ++ hexDigits (x % 16)))

/-- Modelled from the spec: `Key.Unpack`, which is not in the sources: the key
of which the trie holds the packed form `{ prefix_len u32, addr[4] }`. -/
def Key.Unpack (b : TrieKey) : Key := { Prefixlen := b.1, IP := b.2 }

/-- Modelled from the spec: `Key.String`, which is not in the sources: the
CIDR form of the key, the address and the prefix length. -/
def Key.String (k : Key) : String := IPString k.IP ++ "/" ++ toString k.Prefixlen

/-- The closure `iterateSubmap` of `GetRules`: the keys of the inner map with
the given ID, as strings. -/
def iterateSubmap (k : Kernel) (innerMapID : Nat) : Except Error (List String) × Kernel :=
  match NewMapFromID k innerMapID with
  | (.error err, k1) => (.error ("map from id: " ++ err), k1)
  | (.ok innerMap, k1) =>
    let result :=
      ((KMap.get k1.xdpObjects.innerMaps innerMap).getD []).map
        (fun innerKey => (Key.Unpack innerKey).String)
    (.ok result, (Close k1).2)

/-- The statement `err = table.Lookup(user_id, &innerMapID); if err == nil { ... }`
of `GetRules` for one outer table: the list of the rule is replaced by the
strings of the inner map when the table holds the user, and is kept as it is
(`current`) otherwise. -/
def GetRulesTable (k : Kernel) (table : Table) (userid : UserId) (current : List String) :
    Except Error (List String) × Kernel :=
  match Table.Lookup k table userid with
  | .ok innerMapID => iterateSubmap k innerMapID
  | .error _ => (.ok current, k)

/-- One iteration of the loop of `GetRules` over the `devices` map, for the
entry `ipBytes ↦ deviceBytes`, at the clock reading `currentTime` of its call
of `isAuthed`. -/
def GetRulesStep (k : Kernel) (cfg : Config) (currentTime : Nat)
    (result : KMap String FirewallRules) (ipBytes : IP) (deviceBytes : fwentry) :
    Except Error (KMap String FirewallRules) × Kernel :=
  match fwentry.Unpack (some deviceBytes) with
  | .error err => (.error err, k)
  | .ok deviceStruct =>
    let res := hexEncode deviceStruct.user_id
    let fwRule : FirewallRules :=
      (KMap.get result res).getD
        { IsAuthorized := false, LastPacketTimestamp := 0, Expiry := 0, MFA := [], Public := [],
          IP := [] }
    let fwRule := { fwRule with IP := ipBytes }
    let fwRule := { fwRule with Expiry := deviceStruct.sessionExpiry }
    let fwRule := { fwRule with LastPacketTimestamp := deviceStruct.lastPacketTime }
    let fwRule := { fwRule with IsAuthorized := isAuthed k cfg currentTime (IPString fwRule.IP) }
    match GetRulesTable k .PublicTable deviceStruct.user_id fwRule.Public with
    | (.error err, k1) => (.error err, k1)
    | (.ok pub, k1) =>
      let fwRule := { fwRule with Public := pub }
      match GetRulesTable k1 .MfaTable deviceStruct.user_id fwRule.MFA with
      | (.error err, k2) => (.error err, k2)
      | (.ok mfa, k2) =>
        let fwRule := { fwRule with MFA := mfa }
        (.ok (KMap.put result res fwRule), k2)

/-- The loop of `GetRules` over the entries of the `devices` map; `clock i` is
the clock reading of the `isAuthed` call of iteration `i`. -/
def GetRulesLoop (cfg : Config) (clock : Nat → Nat) :
    Kernel → Nat → KMap String FirewallRules → List (IP × fwentry) →
      Except Error (KMap String FirewallRules) × Kernel
  | k, _, result, [] => (.ok result, k)
  | k, i, result, (ipBytes, deviceBytes) :: rest =>
    match GetRulesStep k cfg (clock i) result ipBytes deviceBytes with
    | (.error err, k1) => (.error err, k1)
    | (.ok result1, k1) => GetRulesLoop cfg clock k1 (i + 1) result1 rest

/-- `GetRules`: the result map, by the hexadecimal user ID, or the error. -/
def GetRules (k : Kernel) (cfg : Config) (clock : Nat → Nat) :
    Except Error (KMap String FirewallRules) × Kernel :=
  GetRulesLoop cfg clock k 0 [] k.xdpObjects.Devices

/-- The strings `GetRules` lists for an inner trie. -/
def trieStrings (t : Trie) : List String := t.map (fun innerKey => (Key.Unpack innerKey).String)

/-- A rule of the result of `GetRules` describes the entry `p` of the
`devices` map, read at the clock reading `currentTime`: it has the address,
the time stamps and the `isAuthed` result of the device, and, for each outer
table that holds the user, the keys of the user's inner trie. -/
def ruleDescribes (k : Kernel) (cfg : Config) (currentTime : Nat) (p : IP × fwentry)
    (rule : FirewallRules) : Prop :=
  rule.IP = p.1 ∧ rule.Expiry = p.2.sessionExpiry ∧
  rule.LastPacketTimestamp = p.2.lastPacketTime ∧
  rule.IsAuthorized = isAuthed k cfg currentTime (IPString p.1) ∧
  ((KMap.get k.xdpObjects.PublicTable p.2.user_id).isSome = true →
    (tableTrie k.xdpObjects .PublicTable p.2.user_id).map trieStrings = some rule.Public) ∧
  ((KMap.get k.xdpObjects.MfaTable p.2.user_id).isSome = true →
    (tableTrie k.xdpObjects .MfaTable p.2.user_id).map trieStrings = some rule.MFA)

/-- The example installation with a session lifetime of 307445734 minutes. -/
def longLifetimeConfig : Config := exampleConfig 1 307445734

/-- The clock 40 seconds after boot. -/
def fortySeconds : Timespec := { Ftv_sec := 40, Ftv_nsec := 0 }

/-- Routes for `bob` of which one is neither an address nor a CIDR. -/
def badAcl : Acl := { Allow := ["10.0.0.0/24", "not-an-ip"], Mfa := ["10.1.0.0/16"] }

/-- A store without devices and without faults ahead. -/
def emptyStore : Store := { devices := [], faults := [] }

/-! ## Authenticators: `internal/webserver/authenticators` -/

/-- `resultMessage`; `mail` is what `data.GetHelpMail()` returns.  The result
is the message and the HTTP status. -/
def resultMessage (mail : String) (err : Option Error) : String × Nat :=
  match err with
  | none => ("Success", 200)
  | some e =>
    let msg :=
      if Contains e "account is locked" then "Account is locked contact: " ++ mail
      else if Contains e "device is locked" then "Device is locked contact: " ++ mail
      else "Validation failed"
    (msg, 400)

/-- The four authenticators the map `allMfa` is built from at compile time:
`new(Totp)`, `new(Webauthn)`, `new(Oidc)` and `new(Pam)`. -/
inductive Authenticator where
  | Totp
  | Webauthn
  | Oidc
  | Pam
deriving DecidableEq, Repr

/-- Modelled from the spec: the keys `types.Totp`, `types.Webauthn`,
`types.Oidc` and `types.Pam` of the map `allMfa`; package `types` is not in
the sources, the spec names the methods `totp`, `webauthn`, `oidc`, `pam`. -/
def allMfa (method : String) : Option Authenticator :=
  if method = "totp" then some .Totp
  else if method = "webauthn" then some .Webauthn
  else if method = "oidc" then some .Oidc
  else if method = "pam" then some .Pam
  else none

/-- The `enable` flags embedded in the authenticators, as they are at one
moment. -/
abbrev EnableFlags := Authenticator → Bool

/-- `(*enable).IsEnabled` of an authenticator. -/
def IsEnabled (flags : EnableFlags) (a : Authenticator) : Bool := flags a

/-- `(*enable).Enable` of an authenticator. -/
def Enable (flags : EnableFlags) (a : Authenticator) : EnableFlags :=
  fun b => if b = a then true else flags b

/-- `(*enable).Disable` of an authenticator. -/
def Disable (flags : EnableFlags) (a : Authenticator) : EnableFlags :=
  fun b => if b = a then false else flags b

/-- `GetMethod`, with the flags as they are at the call. -/
def GetMethod (flags : EnableFlags) (method : String) : Option Authenticator × Bool :=
  match allMfa method with
  | some v => if IsEnabled flags v then (some v, true) else (none, false)
  | none => (none, false)

/-- What a handler has written to its `http.ResponseWriter`. -/
structure ResponseWriter where
  Header : KMap String String
  status : Option Nat
  body : String
deriving DecidableEq, Repr

/-- Go `http.NotFound`: `http.Error(w, "404 page not found", 404)`. -/
def NotFound (w : ResponseWriter) : ResponseWriter :=
  let h := KMap.delete w.Header "Content-Length"
  let h := KMap.put h "Content-Type" "text/plain; charset=utf-8"
  let h := KMap.put h "X-Content-Type-Options" "nosniff"
  { Header := h
    status := match w.status with
      | none => some 404
      | some c => some c
    body := w.body ++ "404 page not found\n" }

/-- An HTTP handler `func(w http.ResponseWriter, r *http.Request)`: what it
does to the response and to the rest of the server state `σ`, for a request
of type `ρ`. -/
abbrev Handler (σ ρ : Type) := σ × ResponseWriter → ρ → σ × ResponseWriter

/-- `checkEnabled`: the returned handler reads the flag of `a` when it
serves a request; `flags` are the flags at that moment. -/
def checkEnabled {σ ρ : Type} (a : Authenticator) (f : Handler σ ρ) (flags : EnableFlags) :
    Handler σ ρ :=
  fun sw r =>
    if !IsEnabled flags a then (sw.1, NotFound sw.2)
    else f sw r

/-- The loop of `ReinitaliseMethods`; `Init i m` is what `a.Init()` returns for
the method `m` at position `i` of the argument list. -/
def ReinitaliseMethodsLoop (Init : Nat → String → Option Error) :
    Nat → List String → List String → Option Error → List String × Option Error
  | _, [], out, errRet => (out, errRet)
  | i, m :: method, out, errRet =>
    match allMfa m with
    | some _ =>
      match Init i m with
      | some err =>
        match errRet with
        | none =>
          ReinitaliseMethodsLoop Init (i + 1) method out (some (m ++ " failed to init: " ++ err))
        | some prev =>
          ReinitaliseMethodsLoop Init (i + 1) method (out ++ [m])
            (some (m ++ " failed to init: " ++ err ++ "\n" ++ prev))
      | none => ReinitaliseMethodsLoop Init (i + 1) method (out ++ [m]) errRet
    | none => ReinitaliseMethodsLoop Init (i + 1) method out errRet

/-- `ReinitaliseMethods`. -/
def ReinitaliseMethods (Init : Nat → String → Option Error) (method : List String) :
    List String × Option Error :=
  ReinitaliseMethodsLoop Init 0 method [] none

/-- The flags with only `totp` enabled. -/
def totpOnly : EnableFlags := fun a => decide (a = Authenticator.Totp)

/-- A handler that counts its invocations and writes `ok`. -/
def countingHandler : Handler Nat String :=
  fun sw _ => (sw.1 + 1, { sw.2 with status := some 200, body := sw.2.body ++ "ok" })

/-- The response nothing was written to. -/
def emptyResponse : ResponseWriter := { Header := [], status := none, body := "" }

/-! ## Command-line actions: `commands/devices.go` and `commands/webadmin.go` -/

/-- A Go `flag.FlagSet` with boolean and string flags: the names of the
defined flags (`formal`), the flags that were set (`actual`), the values of
the string flags, and, while parsing, the string flag that waits for its
value in the next argument. -/
structure FlagSet where
  boolFlags : List String
  stringFlags : List String
  actual : List String
  values : KMap String String
  pending : Option String
deriving DecidableEq, Repr

/-- Go `strconv.ParseBool` accepts these texts. -/
def parseBoolTexts : List String :=
  ["1", "t", "T", "TRUE", "true", "True", "0", "f", "F", "FALSE", "false", "False"]

/-- The assignment `f.actual[name] = flag`. -/
def FlagSet.setActual (f : FlagSet) (name : String) : FlagSet :=
  if name ∈ f.actual then f else { f with actual := f.actual ++ [name] }

/-- Go `(*FlagSet).Parse` under `ContinueOnError`: `parseOne` on each
argument up to the first that is not a flag.  The result is the error, or the
flag set after parsing. -/
def FlagSet.Parse : FlagSet → List String → Except Error FlagSet
  | f, [] =>
    match f.pending with
    | some name => .error ("flag needs an argument: -" ++ name)
    | none => .ok f
  | f, s :: args =>
    match f.pending with
    | some name =>
      FlagSet.Parse
        ({ f with values := KMap.put f.values name s, pending := none }.setActual name) args
    | none =>
      let cs := s.toList
      if cs.length < 2 ∨ cs.head? ≠ some '-' then .ok f
      else if cs = ['-', '-'] then .ok f
      else
        let numMinuses := if cs.get? 1 = some '-' then 2 else 1
        let name := cs.drop numMinuses
        if name.isEmpty ∨ name.head? = some '-' ∨ name.head? = some '=' then
          .error ("bad flag syntax: " ++ s)
        else
          let hasValue := (name.drop 1).contains '='
          let nameOnly := name.take 1 ++ (name.drop 1).takeWhile (fun c => c ≠ '=')
          let value := String.mk (name.drop (nameOnly.length + 1))
          let n := String.mk nameOnly
          if n ∈ f.boolFlags then
            if hasValue ∧ value ∉ parseBoolTexts then
              .error ("invalid boolean value \"" ++ value ++ "\" for -" ++ n
                ++ ": parse error")
            else FlagSet.Parse (f.setActual n) args
          else if n ∈ f.stringFlags then
            if hasValue then
              FlagSet.Parse ({ f with values := KMap.put f.values n value }.setActual n) args
            else FlagSet.Parse { f with pending := some n } args
          else if n = "help" ∨ n = "h" then .error "flag: help requested"
          else .error ("flag provided but not defined: -" ++ n)

/-- Go `strings.ToLower`, for a text whose letters are ASCII letters (the
names of the flags are). -/
def ToLower (s : String) : String := String.mk (s.toList.map Char.toLower)

/-- Go `(*FlagSet).Visit`: the flags that were set, in lexicographical order
of their names: the defined names in that order, those that were set. -/
def FlagSet.Visit (f : FlagSet) : List String :=
  ((f.boolFlags ++ f.stringFlags).insertionSort (fun a b => a.toList ≤ b.toList)).filter (fun n => n ∈ f.actual)

/-- The value a string flag is bound to: what was set, else the default. -/
def FlagSet.value (f : FlagSet) (name default : String) : String :=
  (KMap.get f.values name).getD default

/-- The callback of `fs.Visit` in `Init` and `Check`: a visited flag that is
one of the action flags becomes the action. -/
def visitAction (actions : List String) (action name : String) : String :=
  if name ∈ actions then ToLower name else action

/-- The command `devices` with its flag set, as `Devices()` builds it. -/
structure devices where
  fs : FlagSet
  device : String
  action : String
deriving DecidableEq, Repr

/-- `Devices()`. -/
def Devices : devices :=
  { fs := { boolFlags := ["del", "list", "sessions", "reset", "lock"], stringFlags := ["device"],
            actual := [], values := [], pending := none }
    device := "", action := "" }

/-- `(*devices).Init`; `load` is what `database.Load` returns. -/
def devices.Init (g : devices) (args : List String) (load : Option Error) :
    Option Error × devices :=
  match g.fs.Parse args with
  | .error err => (some err, g)
  | .ok fs =>
    let g := { g with fs := fs, device := fs.value "device" g.device }
    let visited := fs.Visit.foldl (visitAction ["reset", "del", "list", "lock", "sessions"]) g.action
    let g := { g with action := visited }
    let g := { g with action := ToLower g.action }
    if g.action = "del" ∨ g.action = "reset" ∨ g.action = "lock" then
      if g.device = "" then (some "Device must be supplied", g)
      else
        match load with
        | some err => (some ("Cannot load database: " ++ err), g)
        | none => (none, g)
    else if g.action = "list" ∨ g.action = "sessions" then
      match load with
      | some err => (some ("Cannot load database: " ++ err), g)
      | none => (none, g)
    else (some "Invalid action choice", g)

/-- The command `webadmin` with its flag set. -/
structure webadmin where
  fs : FlagSet
  username : String
  password : String
  socket : String
  action : String
deriving DecidableEq, Repr

/-- `Webadmin()`; `defaultSocket` is `control.DefaultWagSocket`. -/
def Webadmin (defaultSocket : String) : webadmin :=
  { fs := { boolFlags := ["add", "del", "list", "lockaccount", "unlockaccount"],
            stringFlags := ["username", "password", "socket"],
            actual := [], values := [], pending := none }
    username := "", password := "", socket := defaultSocket, action := "" }

/-- The call `g.FlagSet().Parse(args)` the caller makes before `Check`. -/
def webadmin.Parse (g : webadmin) (args : List String) : Except Error webadmin :=
  match g.fs.Parse args with
  | .error err => .error err
  | .ok fs =>
    .ok { g with
      fs := fs
      username := fs.value "username" g.username
      password := fs.value "password" g.password
      socket := fs.value "socket" g.socket }

/-- `(*webadmin).Check`. -/
def webadmin.Check (g : webadmin) : Option Error × webadmin :=
  let visited :=
    g.fs.Visit.foldl (visitAction ["lockaccount", "unlockaccount", "del", "list", "add"]) g.action
  let g := { g with action := visited }
  if g.action = "del" ∨ g.action = "unlockaccount" ∨ g.action = "lockaccount" then
    if g.username = "" then (some "address must be supplied", g) else (none, g)
  else if g.action = "list" then (none, g)
  else if g.action = "add" then
    if g.username = "" ∨ g.password = "" then
      (some "both username and password must be specified to add a user", g)
    else (none, g)
  else (some ("Unknown flag: " ++ g.action), g)

/-- The action flag `Init` and `Check` end up with among the flags that were
set: the first of `order` that was set, where `order` lists the action flags
from the lexicographically last to the first; the empty text when none was
set. -/
def chosenAction (order actual : List String) : String :=
  (order.find? (fun a => a ∈ actual)).getD ""

/-- The action flags of `devices`, from the lexicographically last to the first. -/
def devicesActions : List String := ["sessions", "reset", "lock", "list", "del"]

/-- The action flags of `webadmin`, from the lexicographically last to the first. -/
def webadminActions : List String := ["unlockaccount", "lockaccount", "list", "del", "add"]

/-! ## The admin actions on a device: `commands/devices.go`, `ui/devices.go` -/

/-- Modelled from the spec: the authentication attempts package `database`
keeps for each device, by tunnel address, and the schedule of the faults its
coming operations meet; the package is not in the sources. -/
structure AttemptsTable where
  attempts : KMap String Int
  faults : List (Option Error)
deriving DecidableEq, Repr

/-- Modelled from the spec: `database.SetAttemptsLeft`, which is not in the
sources: it stores the given value as the attempt counter of the device (the
admin `reset` "sets counter to 0", the admin `lock` "sets counter to
`lockout+1`"); a device without a record is an error. -/
def SetAttemptsLeft (db : AttemptsTable) (address : String) (attempts : Int) :
    Option Error × AttemptsTable :=
  match db.faults with
  | some e :: fs => (some e, { db with faults := fs })
  | f =>
    match KMap.get db.attempts address with
    | none => (some "device not found", { db with faults := f.tail })
    | some _ => (none, { attempts := KMap.put db.attempts address attempts, faults := f.tail })

/-- The functions of the packages `database` and `control` that `Run` calls
for the actions `del`, `list` and `sessions`, and `control.Block`; the
packages are not in the sources. -/
structure devicesCalls where
  DeleteDevice : AttemptsTable → String → Option Error × AttemptsTable
  Block : String → Option Error
  GetDevices : AttemptsTable → Option Error
  Sessions : Option Error

/-- `(*devices).Run`; `Lockout` is `g.config.Lockout`.  What the actions print
is left out. -/
def devices.Run (g : devices) (Lockout : Int) (calls : devicesCalls) (db : AttemptsTable) :
    Option Error × AttemptsTable :=
  if g.action = "del" then
    match calls.DeleteDevice db g.device with
    | (some err, db1) => (some ("Could not delete token: " ++ err), db1)
    | (none, db1) => (calls.Block g.device, db1)
  else if g.action = "list" then (calls.GetDevices db, db)
  else if g.action = "sessions" then (calls.Sessions, db)
  else if g.action = "lock" then
    match SetAttemptsLeft db g.device (Lockout + 1) with
    | (some err, db1) => (some ("Could not lock device: " ++ err), db1)
    | (none, db1) => (calls.Block g.device, db1)
  else if g.action = "reset" then
    match SetAttemptsLeft db g.device 0 with
    | (some err, db1) =>
      (some ("Could not reset device authentication attempts: " ++ err), db1)
    | (none, db1) => (none, db1)
  else (none, db)

/-- The field `Locked` that `devicesMgmt` reports for a device:
`dev.Attempts >= lockout`, with `lockout` from `data.GetLockout()`. -/
def reportedLocked (db : AttemptsTable) (lockout : Int) (address : String) : Bool :=
  decide ((KMap.get db.attempts address).getD 0 ≥ lockout)

/-- The state Locked of the spec for a device of a user:
`account_locked[user_id] != 0` or the attempt counter of the device at or
above the lockout threshold. -/
def Locked (k : Kernel) (db : AttemptsTable) (lockout : Int) (username address : String) : Bool :=
  decide ((KMap.get k.xdpObjects.AccountLocked (sha1Sum username)).getD 0 ≠ 0)
    || reportedLocked db lockout address

/-- The command `devices -reset -device 192.0.2.5`, after `Init`. -/
def resetCommand : devices := (Devices.Init ["-reset", "-device", "192.0.2.5"] none).2

/-- Calls of `database` and `control` that succeed and change nothing. -/
def quietCalls : devicesCalls :=
  { DeleteDevice := fun db _ => (none, db), Block := fun _ => none,
    GetDevices := fun _ => none, Sessions := none }

/-- The device `192.0.2.5` after five failed attempts. -/
def fiveAttempts : AttemptsTable := { attempts := [("192.0.2.5", 5)], faults := [] }

/-- The installation with the account of `alice` locked. -/
def lockedKernel : Kernel :=
  { exampleKernel with
    xdpObjects := { exampleObjects with AccountLocked := [(sha1Sum "alice", 1)] } }

/-! ## The coordination store: `internal/data/clustering.go` and `events.go` -/

/-- Go `strconv.ParseUint(s, 16, 64)`: at least one hexadecimal digit, no
sign, no underscore, the value below `2 ^ 64`. -/
def ParseUint16 (s : String) : Except Error Nat :=
  if s = "" then .error ("strconv.ParseUint: parsing \"" ++ s ++ "\": invalid syntax")
  else
    s.toList.foldl
      (fun acc c =>
        match acc with
        | .error e => .error e
        | .ok n =>
          match hexVal c with
          | none => .error ("strconv.ParseUint: parsing \"" ++ s ++ "\": invalid syntax")
          | some d =>
            if n ≥ MaxUint64 / 16 + 1 then
              .error ("strconv.ParseUint: parsing \"" ++ s ++ "\": value out of range")
            else .ok (n * 16 + d))
      (.ok 0)

/-- The elements of a path between its slashes. -/
def pathElements (p : String) : List String :=
  (p.toList.splitOn '/').map String.mk

/-- The elements of a cleaned path: empty elements and `.` are dropped, and
`..` removes the element before it, is dropped at the root, and is kept at the
start of a path that is not rooted. -/
def cleanElements (rooted : Bool) : List String → List String → List String
  | out, [] => out.reverse
  | out, e :: es =>
    if e = "" ∨ e = "." then cleanElements rooted out es
    else if e = ".." then
      match out with
      | prev :: out1 =>
        if prev = ".." then cleanElements rooted (e :: out) es
        else cleanElements rooted out1 es
      | [] => if rooted then cleanElements rooted out es else cleanElements rooted [e] es
    else cleanElements rooted (e :: out) es

/-- Go `path.Clean`. -/
def pathClean (p : String) : String :=
  if p = "" then "."
  else
    let rooted := p.toList.head? = some '/'
    let body := "/".intercalate (cleanElements rooted [] (pathElements p))
    if rooted then "/" ++ body
    else if body = "" then "." else body

/-- Go `path.Join`. -/
def pathJoin (elem : List String) : String :=
  if elem.all (fun e => e = "") then ""
  else pathClean ("/".intercalate (elem.filter (fun e => e ≠ "")))

/-- The constant `NodeEvents`. -/
def NodeEvents : String := "wag/node/"

/-- The constant `NodeErrors`. -/
def NodeErrors : String := "wag/node/errors"

/-- The etcd cluster behind the client `etcd`: the keys with their values, the
IDs of the members, and the schedule of the faults the coming calls of the
client meet. -/
structure Etcd where
  kvs : KMap String String
  members : List Nat
  faults : List (Option Error)
deriving DecidableEq, Repr

/-- Take the next entry of the fault schedule of the client. -/
def Etcd.fault (e : Etcd) : Option Error × Etcd :=
  match e.faults with
  | [] => (none, e)
  | f :: fs => (f, { e with faults := fs })

/-- The call `etcd.Put(ctx, key, val)`. -/
def Etcd.Put (e : Etcd) (key val : String) : Option Error × Etcd :=
  match e.fault with
  | (some err, e1) => (some err, e1)
  | (none, e1) => (none, { e1 with kvs := KMap.put e1.kvs key val })

/-- The call `etcd.Delete(ctx, key, clientv3.WithPrefix())`: every key that
starts with `key` is deleted. -/
def Etcd.DeletePrefix (e : Etcd) (key : String) : Option Error × Etcd :=
  match e.fault with
  | (some err, e1) => (some err, e1)
  | (none, e1) =>
    (none, { e1 with kvs := e1.kvs.filter (fun kv => !key.toList.isPrefixOf kv.1.toList) })

/-- The call `etcd.MemberRemove(ctx, id)`. -/
def Etcd.MemberRemove (e : Etcd) (id : Nat) : Option Error × Etcd :=
  match e.fault with
  | (some err, e1) => (some err, e1)
  | (none, e1) =>
    if id ∈ e1.members then (none, { e1 with members := e1.members.filter (fun m => m ≠ id) })
    else (some "etcdserver: member not found", e1)

/-- `RemoveMember`. -/
def RemoveMember (e : Etcd) (idHex : String) : Option Error × Etcd :=
  match ParseUint16 idHex with
  | .error err => (some ("bad member ID arg (" ++ err ++ "), expecting ID in Hex"), e)
  | .ok id =>
    match e.DeletePrefix (pathJoin [NodeEvents, idHex]) with
    | (some err, e1) => (some err, e1)
    | (none, e1) =>
      match e1.MemberRemove id with
      | (some err, e2) => (some err, e2)
      | (none, e2) => (none, e2)

/-- A cluster of the nodes `e` and `e5`, with keys of both nodes, an event
error, and a device. -/
def exampleEtcd : Etcd :=
  { kvs := [("wag/node/e/drain", "true"), ("wag/node/e5/ping", "Mon, 02 Jan 2006 15:04:05 -0700"),
            ("wag/node/errors/6f1d", "{}"), ("devices-192.0.2.5", "{}")]
    members := [14, 229]
    faults := [] }

/-- A Go `mvccpb.KeyValue`: the key and the value, as texts. -/
structure KeyValue where
  Key : String
  Value : String
deriving DecidableEq, Repr

/-- A Go `clientv3.Event` of a watch: whether its type is
`clientv3.EventTypeDelete`, the key-value `Kv`, and the previous key-value
`PrevKv`, `none` for `nil`. -/
structure Event where
  IsDelete : Bool
  Kv : KeyValue
  PrevKv : Option KeyValue
deriving DecidableEq, Repr

/-- `EventType`. -/
inductive EventType where
  | CREATED
  | DELETED
  | MODIFIED
deriving DecidableEq, Repr

/-- `(EventType).String`. -/
def EventType.String : EventType → String
  | .CREATED => "created"
  | .DELETED => "deleted"
  | .MODIFIED => "modified"

/-- `EventError`; the time is the text `time.Now()` is marshalled to. -/
structure EventError where
  NodeID : String
  ErrorID : String
  FailedEventData : String
  Error : String
  Time : String
deriving DecidableEq, Repr

/-- What a listener for values of type `T` is registered with and what it
reads from its surroundings: `json.Unmarshal` into a `T` (`none` for an
error), the zero value of `T`, the handler `f`, `json.Marshal` of an
`EventError`, `GetServerID()`, `time.Now()`, and the result of the n-th call
of `generateRandomBytes(16)`. -/
structure Listener (T : Type) where
  Unmarshal : String → Option T
  zero : T
  f : String → T → T → EventType → Option Error
  Marshal : EventError → String
  ServerID : String
  Now : String
  generateRandomBytes : Nat → Except Error String

/-- The state a listener acts on: the store, the events queue as the list of
what was written to it, the invocations of the handler so far, the number of
calls of `generateRandomBytes` so far, and the panic that ended the process,
if any. -/
structure ListenerState (T : Type) where
  etcd : Etcd
  EventsQueue : List String
  invocations : List (String × T × T × EventType)
  drawn : Nat
  panicked : Option String

/-- `RaiseError`. -/
def RaiseError {T : Type} (l : Listener T) (st : ListenerState T) (raisedError : Error)
    (value : String) : Option Error × ListenerState T :=
  let ee : EventError :=
    { NodeID := l.ServerID, ErrorID := "", FailedEventData := value, Error := raisedError,
      Time := l.Now }
  let st1 := { st with drawn := st.drawn + 1 }
  match l.generateRandomBytes st.drawn with
  | .error err => (some err, st1)
  | .ok id =>
    let ee := { ee with ErrorID := id }
    let eventErrorBytes := l.Marshal ee
    match st1.etcd.Put (pathJoin [NodeErrors, ee.ErrorID]) eventErrorBytes with
    | (err, e1) => (err, { st1 with etcd := e1 })

/-- The first step of the loop body of the listener: the state of the event
and the value that is decoded as the current one.  For a delete event the
value is `event.PrevKv.Value`; with `event.PrevKv` nil this read is a nil
dereference, `none` here. -/
def classifyEvent (event : Event) : Option (EventType × String) :=
  if event.IsDelete then
    match event.PrevKv with
    | none => none
    | some prev => some (.DELETED, prev.Value)
  else if event.PrevKv = none then some (.CREATED, event.Kv.Value)
  else some (.MODIFIED, event.Kv.Value)

/-- The decoding of the previous value in the loop body: the zero value when
`event.PrevKv` is nil, `none` when `json.Unmarshal` fails. -/
def decodePrevious {T : Type} (l : Listener T) (event : Event) : Option T :=
  match event.PrevKv with
  | none => some l.zero
  | some prev => l.Unmarshal prev.Value

/-- The goroutine the loop body starts for the handler. -/
def applyEvent {T : Type} (l : Listener T) (st : ListenerState T) (event : Event)
    (state : EventType) (value : String) (currentValue previousValue : T) : ListenerState T :=
  let st1 :=
    { st with invocations := st.invocations
        ++ [(event.Kv.Key, currentValue, previousValue, state)] }
  match l.f event.Kv.Key currentValue previousValue state with
  | some err => (RaiseError l st1 err value).2
  | none =>
    match state with
    | .MODIFIED =>
      let previous :=
        match event.PrevKv with
        | none => "nil"
        | some prev => prev.Value
      { st1 with EventsQueue := st1.EventsQueue
          ++ [event.Kv.Key ++ "[" ++ state.String ++ "]: " ++ previous ++ " -> " ++ value] }
    | _ =>
      { st1 with EventsQueue := st1.EventsQueue
          ++ [event.Kv.Key ++ "[" ++ state.String ++ "]"] }

/-- The body of the loop `for _, event := range watchEvent.Events` of the
listener `RegisterEventListener` starts; the goroutine it starts for the
handler runs to its end before the next event is taken. -/
def listenEvent {T : Type} (l : Listener T) (st : ListenerState T) (event : Event) :
    ListenerState T :=
  match classifyEvent event with
  | none =>
    { st with panicked := some "runtime error: invalid memory address or nil pointer dereference" }
  | some (state, value) =>
    match l.Unmarshal value with
    | none => st
    | some currentValue =>
      match decodePrevious l event with
      | none => st
      | some previousValue => applyEvent l st event state value currentValue previousValue

/-- The loop of the listener over the events of the watch, up to a panic. -/
def listen {T : Type} (l : Listener T) : ListenerState T → List Event → ListenerState T
  | st, [] => st
  | st, event :: events =>
    match st.panicked with
    | some _ => st
    | none => listen l (listenEvent l st event) events

/-- A listener for texts: every value decodes to itself except the empty
one, and the handler fails for the value `bad`. -/
def textListener : Listener String :=
  { Unmarshal := fun v => if v = "" then none else some v
    zero := ""
    f := fun _ current _ _ => if current = "bad" then some "cannot apply" else none
    Marshal := fun ee =>
      ee.NodeID ++ "|" ++ ee.ErrorID ++ "|" ++ ee.FailedEventData ++ "|" ++ ee.Error ++ "|" ++ ee.Time
    ServerID := "e5"
    Now := "2006-01-02T15:04:05Z"
    generateRandomBytes := fun _ => .ok "6f1e" }

/-- A listener state over the example cluster whose next store call fails. -/
def failingStoreState : ListenerState String :=
  { etcd := { exampleEtcd with faults := [some "context deadline exceeded"] }
    EventsQueue := [], invocations := [], drawn := 0, panicked := none }

/-- A listener state over the example cluster with no fault ahead. -/
def quietState : ListenerState String :=
  { etcd := exampleEtcd, EventsQueue := [], invocations := [], drawn := 0, panicked := none }

/-- A put event for a device key whose value the handler of `textListener`
rejects. -/
def badEvent : Event :=
  { IsDelete := false, Kv := ⟨"devices-192.0.2.5", "bad"⟩, PrevKv := none }

/-! ## Theorems -/

section KMapLemmas

variable {κ ν : Type} [DecidableEq κ]

theorem KMap.get_put_self (m : KMap κ ν) (k : κ) (v : ν) :
    KMap.get (KMap.put m k v) k = some v := by
  induction m with
  | nil => simp [KMap.put, KMap.get]
  | cons p m ih =>
    obtain ⟨k1, v1⟩ := p
    by_cases h : k1 = k
    · simp [KMap.put, KMap.get, h]
    · simp [KMap.put, KMap.get, h, ih]

theorem KMap.get_put_of_ne (m : KMap κ ν) (k k2 : κ) (v : ν) (hne : k2 ≠ k) :
    KMap.get (KMap.put m k v) k2 = KMap.get m k2 := by
  induction m with
  | nil => simp [KMap.put, KMap.get, Ne.symm hne]
  | cons p m ih =>
    obtain ⟨k1, v1⟩ := p
    by_cases h : k1 = k
    · subst h
      simp [KMap.put, KMap.get, Ne.symm hne]
    · by_cases h2 : k1 = k2
      · subst h2
        simp [KMap.put, KMap.get, h]
      · simp [KMap.put, KMap.get, h, h2, ih]

theorem KMap.get_delete_self (m : KMap κ ν) (k : κ) :
    KMap.get (KMap.delete m k) k = none := by
  induction m with
  | nil => simp [KMap.delete, KMap.get]
  | cons p m ih =>
    obtain ⟨k1, v1⟩ := p
    by_cases h : k1 = k
    · simpa [KMap.delete, List.filter, h] using ih
    · simpa [KMap.delete, List.filter, h, KMap.get] using ih

theorem KMap.get_delete_of_ne (m : KMap κ ν) (k k2 : κ) (hne : k2 ≠ k) :
    KMap.get (KMap.delete m k) k2 = KMap.get m k2 := by
  induction m with
  | nil => simp [KMap.delete, KMap.get]
  | cons p m ih =>
    obtain ⟨k1, v1⟩ := p
    by_cases h : k1 = k
    · subst h
      have h2 : ¬ k1 = k2 := fun e => hne e.symm
      simpa [KMap.delete, List.filter, KMap.get, h2] using ih
    · by_cases h2 : k1 = k2
      · subst h2
        simp [KMap.delete, List.filter, h, KMap.get]
      · simpa [KMap.delete, List.filter, h, KMap.get, h2] using ih

theorem KMap.mem_put {m : KMap κ ν} {k : κ} {v : ν} {p : κ × ν}
    (h : p ∈ KMap.put m k v) : p ∈ m ∨ p = (k, v) := by
  induction m with
  | nil => simp [KMap.put] at h; exact Or.inr h
  | cons q m ih =>
    obtain ⟨k1, v1⟩ := q
    by_cases hk : k1 = k
    · simp only [KMap.put, hk, if_true, List.mem_cons] at h
      rcases h with h | h
      · exact Or.inr h
      · exact Or.inl (List.mem_cons_of_mem _ h)
    · simp only [KMap.put, hk, if_false, List.mem_cons] at h
      rcases h with h | h
      · exact Or.inl (h ▸ List.mem_cons_self _ _)
      · rcases ih h with h1 | h1
        · exact Or.inl (List.mem_cons_of_mem _ h1)
        · exact Or.inr h1

theorem KMap.mem_delete {m : KMap κ ν} {k : κ} {p : κ × ν}
    (h : p ∈ KMap.delete m k) : p ∈ m ∧ p.1 ≠ k := by
  simpa [KMap.delete] using h

theorem KMap.mem_of_get {m : KMap κ ν} {k : κ} {v : ν}
    (h : KMap.get m k = some v) : (k, v) ∈ m := by
  induction m with
  | nil => simp [KMap.get] at h
  | cons q m ih =>
    obtain ⟨k1, v1⟩ := q
    by_cases hk : k1 = k
    · simp only [KMap.get, hk, if_true, Option.some.injEq] at h
      subst h; subst hk
      exact List.mem_cons_self _ _
    · simp only [KMap.get, hk, if_false] at h
      exact List.mem_cons_of_mem _ (ih h)

theorem KMap.get_isSome_of_mem {m : KMap κ ν} {p : κ × ν}
    (h : p ∈ m) : (KMap.get m p.1).isSome = true := by
  induction m with
  | nil => simp at h
  | cons q m ih =>
    obtain ⟨k1, v1⟩ := q
    by_cases hk : k1 = p.1
    · simp [KMap.get, hk]
    · simp only [KMap.get, hk, if_false]
      rcases List.mem_cons.mp h with h1 | h1
      · exact absurd (by rw [h1]) hk
      · exact ih h1

theorem KMap.get_put_isSome (m : KMap κ ν) (k k2 : κ) (v : ν)
    (h : (KMap.get m k2).isSome = true) : (KMap.get (KMap.put m k v) k2).isSome = true := by
  by_cases hk : k2 = k
  · subst hk; simp [KMap.get_put_self]
  · rw [KMap.get_put_of_ne _ _ _ _ hk]; exact h

theorem KMap.put_put (m : KMap κ ν) (k : κ) (v1 v2 : ν) :
    KMap.put (KMap.put m k v1) k v2 = KMap.put m k v2 := by
  induction m with
  | nil => simp [KMap.put]
  | cons q m ih =>
    obtain ⟨k1, w⟩ := q
    by_cases hk : k1 = k
    · simp [KMap.put, hk]
    · simp [KMap.put, hk, ih]

theorem KMap.put_of_get (m : KMap κ ν) (k : κ) (v : ν) (h : KMap.get m k = some v) :
    KMap.put m k v = m := by
  induction m with
  | nil => simp [KMap.get] at h
  | cons q m ih =>
    obtain ⟨k1, w⟩ := q
    by_cases hk : k1 = k
    · simp only [KMap.get, hk, if_true, Option.some.injEq] at h
      simp [KMap.put, hk, h]
    · simp only [KMap.get, hk, if_false] at h
      simp [KMap.put, hk, ih h]

end KMapLemmas

theorem Kernel.fault_xdpObjects (k : Kernel) : k.fault.2.xdpObjects = k.xdpObjects := by
  unfold Kernel.fault
  split <;> rfl

theorem Kernel.fault_history (k : Kernel) : k.fault.2.history = k.history := by
  unfold Kernel.fault
  split <;> rfl

theorem mul64_minutes_ne_max (a : Nat) : mul64 a 60000000000 ≠ MaxUint64 := by
  unfold mul64 MaxUint64
  norm_num
  omega

theorem inactivityValue_eq_max_iff (cfg : Config) :
    inactivityValue cfg = MaxUint64 ↔ cfg.SessionInactivityTimeoutMinutes < 0 := by
  unfold inactivityValue
  split
  · simp [*]
  · simp [*, mul64_minutes_ne_max]

theorem isAuthed_eq (k : Kernel) (cfg : Config) (now : Nat) (address : String) :
    isAuthed k cfg now address =
      match deviceOf k address with
      | none => false
      | some e =>
        match KMap.get k.xdpObjects.AccountLocked e.user_id with
        | none => false
        | some v =>
          decide (v = 0) && (decide (e.sessionExpiry > now) || decide (e.sessionExpiry = MaxUint64))
            && (decide (sub64 now e.lastPacketTime
                  < mul64 (uint64 cfg.SessionInactivityTimeoutMinutes) 60000000000)
                || decide (cfg.SessionInactivityTimeoutMinutes < 0)) := by
  unfold isAuthed deviceOf ParseIP4
  cases hp : ParseIP address with
  | none => simp
  | some ip =>
    cases h4 : To4 ip with
    | none => simp [Devices.LookupBytes, h4]
    | some key =>
      cases hd : KMap.get k.xdpObjects.Devices key with
      | none => simp [Devices.LookupBytes, hd, fwentry.Unpack, h4]
      | some entry =>
        cases hl : KMap.get k.xdpObjects.AccountLocked entry.user_id with
        | none => simp [Devices.LookupBytes, hd, fwentry.Unpack, h4, AccountLocked.Lookup, hl]
        | some v => simp [Devices.LookupBytes, hd, fwentry.Unpack, h4, AccountLocked.Lookup, hl]

theorem isAuthed_false_of_expiry_zero (k : Kernel) (cfg : Config) (now : Nat) (a : String)
    (e : fwentry) (hd : deviceOf k a = some e) (h0 : e.sessionExpiry = 0) :
    isAuthed k cfg now a = false := by
  rw [isAuthed_eq, hd]
  simp only
  cases KMap.get k.xdpObjects.AccountLocked e.user_id with
  | none => rfl
  | some v => simp [h0, MaxUint64]

theorem Devices.UpdateExist_ok {k k' : Kernel} {key : Option IP} {v : fwentry}
    (h : Devices.UpdateExist k key v = (none, k')) :
    ∃ a, key = some a ∧ (KMap.get k.xdpObjects.Devices a).isSome ∧
      k'.xdpObjects = { k.xdpObjects with Devices := KMap.put k.xdpObjects.Devices a v } := by
  unfold Devices.UpdateExist at h
  cases key with
  | none => simp at h
  | some a =>
    have hx := Kernel.fault_xdpObjects k
    rcases hf : k.fault with ⟨f, k1⟩
    rw [hf] at hx
    simp only at hx
    cases f with
    | some e => simp [hf] at h
    | none =>
      simp only [hf, hx] at h
      cases hg : KMap.get k.xdpObjects.Devices a with
      | none => simp [hg] at h
      | some e0 =>
        simp only [hg, Prod.mk.injEq, true_and] at h
        subst h
        exact ⟨a, rfl, by simp [hg], by simp [Kernel.write, hx]⟩

theorem Devices.UpdateExist_err {k k' : Kernel} {key : Option IP} {v : fwentry} {e : Error}
    (h : Devices.UpdateExist k key v = (some e, k')) : k'.xdpObjects = k.xdpObjects := by
  unfold Devices.UpdateExist at h
  cases key with
  | none => simp at h; rw [← h.2]
  | some a =>
    have hx := Kernel.fault_xdpObjects k
    rcases hf : k.fault with ⟨f, k1⟩
    rw [hf] at hx
    simp only at hx
    cases f with
    | some e1 => simp [hf] at h; rw [← h.2, hx]
    | none =>
      simp only [hf, hx] at h
      cases hg : KMap.get k.xdpObjects.Devices a with
      | none => simp [hg] at h; rw [← h.2, hx]
      | some e0 => simp [hg] at h

theorem Devices.Put_ok {k k' : Kernel} {key : Option IP} {v : fwentry}
    (h : Devices.Put k key v = (none, k')) :
    ∃ a, key = some a ∧
      k'.xdpObjects = { k.xdpObjects with Devices := KMap.put k.xdpObjects.Devices a v } := by
  unfold Devices.Put at h
  cases key with
  | none => simp at h
  | some a =>
    have hx := Kernel.fault_xdpObjects k
    rcases hf : k.fault with ⟨f, k1⟩
    rw [hf] at hx
    simp only at hx
    cases f with
    | some e => simp [hf] at h
    | none =>
      simp only [hf, hx, Prod.mk.injEq, true_and] at h
      subst h
      exact ⟨a, rfl, by simp [Kernel.write, hx]⟩

theorem Devices.Put_err {k k' : Kernel} {key : Option IP} {v : fwentry} {e : Error}
    (h : Devices.Put k key v = (some e, k')) : k'.xdpObjects = k.xdpObjects := by
  unfold Devices.Put at h
  cases key with
  | none => simp at h; rw [← h.2]
  | some a =>
    have hx := Kernel.fault_xdpObjects k
    rcases hf : k.fault with ⟨f, k1⟩
    rw [hf] at hx
    simp only at hx
    cases f with
    | some e1 => simp [hf] at h; rw [← h.2, hx]
    | none => simp [hf] at h

theorem SetAuthorized_ok {k k' : Kernel} {cfg : Config} {now1 now2 : Nat} {a u : String}
    (h : SetAuthorized k cfg now1 now2 a u = (none, k')) :
    ∃ key, ParseIP4 a = some key ∧ (KMap.get k.xdpObjects.Devices key).isSome ∧
      k'.xdpObjects = { k.xdpObjects with
        Devices := KMap.put k.xdpObjects.Devices key
          { user_id := sha1Sum u, lastPacketTime := now1,
            sessionExpiry := sessionExpiryValue cfg now2 } } := by
  unfold SetAuthorized at h
  cases hp : ParseIP4 a with
  | none => simp [hp] at h
  | some key =>
    simp only [hp] at h
    obtain ⟨a1, h1, h2, h3⟩ := Devices.UpdateExist_ok h
    cases h1
    exact ⟨key, rfl, h2, h3⟩

theorem SetAuthorized_err {k k' : Kernel} {cfg : Config} {now1 now2 : Nat} {a u : String}
    {e : Error} (h : SetAuthorized k cfg now1 now2 a u = (some e, k')) :
    k'.xdpObjects = k.xdpObjects := by
  unfold SetAuthorized at h
  cases hp : ParseIP4 a with
  | none => simp [hp] at h; rw [← h.2]
  | some key =>
    simp only [hp] at h
    exact Devices.UpdateExist_err h

theorem Deauthenticate_ok {k k' : Kernel} {a : String}
    (h : Deauthenticate k a = (none, k')) :
    ∃ key e, ParseIP4 a = some key ∧ KMap.get k.xdpObjects.Devices key = some e ∧
      k'.xdpObjects = { k.xdpObjects with
        Devices := KMap.put k.xdpObjects.Devices key
          { e with lastPacketTime := 0, sessionExpiry := 0 } } := by
  unfold Deauthenticate at h
  cases hp : ParseIP a with
  | none => simp [hp] at h
  | some ip =>
    cases h4 : To4 ip with
    | none => simp [hp, h4] at h
    | some key =>
      cases hd : KMap.get k.xdpObjects.Devices key with
      | none => simp [hp, h4, Devices.LookupBytes, hd, fwentry.Unpack] at h
      | some e =>
        simp only [hp, h4, Devices.LookupBytes, hd, fwentry.Unpack] at h
        obtain ⟨a1, h1, _, h3⟩ := Devices.UpdateExist_ok h
        cases h1
        exact ⟨key, e, by simp [ParseIP4, hp, h4], hd, h3⟩

theorem Deauthenticate_err {k k' : Kernel} {a : String} {e : Error}
    (h : Deauthenticate k a = (some e, k')) : k'.xdpObjects = k.xdpObjects := by
  unfold Deauthenticate at h
  cases hp : ParseIP a with
  | none => simp [hp] at h; rw [← h.2]
  | some ip =>
    cases h4 : To4 ip with
    | none => simp [hp, h4] at h; rw [← h.2]
    | some key =>
      cases hd : KMap.get k.xdpObjects.Devices key with
      | none => simp [hp, h4, Devices.LookupBytes, hd, fwentry.Unpack] at h; rw [← h.2]
      | some e0 =>
        simp only [hp, h4, Devices.LookupBytes, hd, fwentry.Unpack] at h
        exact Devices.UpdateExist_err h

theorem xdpAddDevice_ok {k k' : Kernel} {u a : String}
    (h : xdpAddDevice k u a = (none, k')) :
    ∃ key, ParseIP4 a = some key ∧ KMap.get k.xdpObjects.Devices key = none ∧
      (KMap.get k.xdpObjects.AccountLocked (sha1Sum u)).isSome ∧
      k'.xdpObjects = { k.xdpObjects with
        Devices := KMap.put k.xdpObjects.Devices key
          { user_id := sha1Sum u, lastPacketTime := 0, sessionExpiry := 0 } } := by
  unfold xdpAddDevice at h
  cases hp : ParseIP a with
  | none => simp [hp] at h
  | some ip =>
    simp only [hp] at h
    cases hl : Devices.Lookup k (To4 ip) with
    | none => simp [hl] at h
    | some e0 =>
      simp only [hl] at h
      cases hu : KMap.get k.xdpObjects.AccountLocked (sha1Sum u) with
      | none => simp [xdpUserExists, AccountLocked.Lookup, hu] at h
      | some v =>
        simp only [xdpUserExists, AccountLocked.Lookup, hu] at h
        obtain ⟨key, h4, hx⟩ := Devices.Put_ok h
        refine ⟨key, by simp [ParseIP4, hp, h4], ?_, by simp, hx⟩
        cases hg : KMap.get k.xdpObjects.Devices key with
        | none => rfl
        | some e1 => simp [Devices.Lookup, h4, hg] at hl

theorem xdpAddDevice_err {k k' : Kernel} {u a : String} {e : Error}
    (hr : xdpAddDevice k u a = (some e, k')) : k'.xdpObjects = k.xdpObjects := by
  unfold xdpAddDevice at hr
  cases hp : ParseIP a with
  | none => simp [hp] at hr; rw [← hr.2]
  | some ip =>
    simp only [hp] at hr
    cases hl : Devices.Lookup k (To4 ip) with
    | none => simp [hl] at hr; rw [← hr.2]
    | some e0 =>
      simp only [hl] at hr
      cases hu : xdpUserExists k (sha1Sum u) with
      | some e1 => simp [hu] at hr; rw [← hr.2]
      | none =>
        simp only [hu] at hr
        exact Devices.Put_err hr

theorem sameDevicesUsers.refl (k : Kernel) : sameDevicesUsers k k := ⟨rfl, rfl⟩

theorem sameDevicesUsers.trans {k k1 k2 : Kernel} (h1 : sameDevicesUsers k k1)
    (h2 : sameDevicesUsers k1 k2) : sameDevicesUsers k k2 :=
  ⟨h2.1.trans h1.1, h2.2.trans h1.2⟩

theorem Kernel.fault_same (k : Kernel) : sameDevicesUsers k k.fault.2 := by
  unfold sameDevicesUsers
  rw [Kernel.fault_xdpObjects]
  exact ⟨rfl, rfl⟩

theorem Table.Put_same (k : Kernel) (t : Table) (u : UserId) (i : Nat) :
    sameDevicesUsers k (Table.Put k t u i).2 := by
  have hx := Kernel.fault_xdpObjects k
  unfold Table.Put
  rcases hf : k.fault with ⟨f, k1⟩
  rw [hf] at hx
  cases f <;> cases t <;>
    simp_all [sameDevicesUsers, Kernel.write, bpfObjects.setTable]

theorem Table.Delete_same (k : Kernel) (t : Table) (u : UserId) :
    sameDevicesUsers k (Table.Delete k t u).2 := by
  have hx := Kernel.fault_xdpObjects k
  unfold Table.Delete
  rcases hf : k.fault with ⟨f, k1⟩
  rw [hf] at hx
  cases f with
  | some e => simp_all [sameDevicesUsers]
  | none =>
    simp only
    split <;> cases t <;> simp_all [sameDevicesUsers, Kernel.write, bpfObjects.setTable]

theorem NewMap_same (k : Kernel) : sameDevicesUsers k (NewMap k).2 := by
  have hx := Kernel.fault_xdpObjects k
  unfold NewMap
  rcases hf : k.fault with ⟨f, k1⟩
  rw [hf] at hx
  cases f <;> simp_all [sameDevicesUsers, Kernel.write]

theorem NewMapFromID_same (k : Kernel) (id : Nat) :
    sameDevicesUsers k (NewMapFromID k id).2 := by
  have hx := Kernel.fault_xdpObjects k
  unfold NewMapFromID
  rcases hf : k.fault with ⟨f, k1⟩
  rw [hf] at hx
  cases f with
  | some e => simp_all [sameDevicesUsers]
  | none =>
    simp only
    split <;> simp_all [sameDevicesUsers]

theorem Close_same (k : Kernel) : sameDevicesUsers k (Close k).2 := Kernel.fault_same k

theorem InnerMap.Put_trie_same (k : Kernel) (id : Nat) (key : TrieKey) :
    sameDevicesUsers k (InnerMap.Put k id key).2 := by
  have hx := Kernel.fault_xdpObjects k
  unfold InnerMap.Put
  rcases hf : k.fault with ⟨f, k1⟩
  rw [hf] at hx
  cases f with
  | some e => simp_all [sameDevicesUsers]
  | none =>
    simp only
    split
    · simp_all [sameDevicesUsers]
    · split <;> simp_all [sameDevicesUsers, Kernel.write]

theorem xdpAddRouteLoop_same (k : Kernel) (id : Nat) (ds : List String) :
    sameDevicesUsers k (xdpAddRouteLoop k id ds).2 := by
  induction ds generalizing k with
  | nil => exact sameDevicesUsers.refl k
  | cons d ds ih =>
    unfold xdpAddRouteLoop
    cases parseIP d with
    | error e => exact sameDevicesUsers.refl k
    | ok key =>
      simp only
      have h1 := InnerMap.Put_trie_same k id key.Bytes
      rcases hp : InnerMap.Put k id key.Bytes with ⟨r, k1⟩
      rw [hp] at h1
      cases r with
      | some e => exact h1
      | none => exact h1.trans (ih k1)

theorem xdpAddRoute_same (k : Kernel) (u : String) (t : Table) (ds : List String) :
    sameDevicesUsers k (xdpAddRoute k u t ds).2 := by
  unfold xdpAddRoute
  simp only
  cases Table.Lookup k t (sha1Sum u) with
  | error e => exact sameDevicesUsers.refl k
  | ok id =>
    simp only
    have h1 := NewMapFromID_same k id
    rcases hn : NewMapFromID k id with ⟨r, k1⟩
    rw [hn] at h1
    cases r with
    | error e => exact h1
    | ok im =>
      simp only
      exact h1.trans ((xdpAddRouteLoop_same k1 im ds).trans (Close_same _))

theorem addMapTo_same (k : Kernel) (uid : UserId) (t : Table) :
    sameDevicesUsers k (addMapTo k uid t).2 := by
  unfold addMapTo
  have h1 := NewMap_same k
  rcases hn : NewMap k with ⟨r, k1⟩
  rw [hn] at h1
  cases r with
  | error e => exact h1
  | ok inner =>
    simp only
    have h2 := Table.Put_same k1 t uid inner
    rcases hp : Table.Put k1 t uid inner with ⟨r2, k2⟩
    rw [hp] at h2
    cases r2 with
    | some e => exact h1.trans h2
    | none => exact h1.trans (h2.trans (Close_same k2))

theorem updateRoutes_same (k : Kernel) (u : String) (t : Table) (rs : List String) :
    sameDevicesUsers k (updateRoutes k u t rs).2 := by
  unfold updateRoutes
  simp only
  have h1 := NewMap_same k
  rcases hn : NewMap k with ⟨r, k1⟩
  rw [hn] at h1
  cases r with
  | error e => exact h1
  | ok inner =>
    simp only
    have h2 := Table.Put_same k1 t (sha1Sum u) inner
    rcases hp : Table.Put k1 t (sha1Sum u) inner with ⟨r2, k2⟩
    rw [hp] at h2
    cases r2 with
    | some e => exact h1.trans h2
    | none =>
      simp only
      have h3 := xdpAddRoute_same k2 u t rs
      rcases ha : xdpAddRoute k2 u t rs with ⟨r3, k3⟩
      rw [ha] at h3
      cases r3 with
      | some e => exact h1.trans (h2.trans h3)
      | none => exact h1.trans (h2.trans (h3.trans (Close_same k3)))

theorem refreshUserAcls_same (k : Kernel) (cfg : Config) (u : String) :
    sameDevicesUsers k (refreshUserAcls k cfg u).2 := by
  unfold refreshUserAcls
  simp only
  have h1 := updateRoutes_same k u .PublicTable (cfg.GetEffectiveAcl u).Allow
  rcases hu : updateRoutes k u .PublicTable (cfg.GetEffectiveAcl u).Allow with ⟨e1, k1⟩
  rw [hu] at h1
  have h2 := updateRoutes_same k1 u .MfaTable (cfg.GetEffectiveAcl u).Mfa
  rcases hv : updateRoutes k1 u .MfaTable (cfg.GetEffectiveAcl u).Mfa with ⟨e2, k2⟩
  rw [hv] at h2
  have h := h1.trans h2
  cases e1 <;> cases e2 <;> exact h

theorem devicesHaveUsers_of_same {k k1 : Kernel} (h : devicesHaveUsers k.xdpObjects)
    (hs : sameDevicesUsers k k1) : devicesHaveUsers k1.xdpObjects := by
  unfold devicesHaveUsers at *
  rw [hs.1, hs.2]
  exact h

theorem devicesHaveUsers_of_eq {o o1 : bpfObjects} (h : devicesHaveUsers o)
    (he : o1 = o) : devicesHaveUsers o1 := he ▸ h

theorem devicesHaveUsers_put_user {o o1 : bpfObjects} (h : devicesHaveUsers o)
    (hd : o1.Devices = o.Devices) (uid : UserId) (v : Nat)
    (ha : o1.AccountLocked = KMap.put o.AccountLocked uid v) : devicesHaveUsers o1 := by
  unfold devicesHaveUsers at *
  rw [hd, ha]
  intro p hp
  exact KMap.get_put_isSome _ _ _ _ (h p hp)

theorem devicesHaveUsers_put_device {o o1 : bpfObjects} (h : devicesHaveUsers o)
    (key : IP) (e : fwentry) (hu : (KMap.get o.AccountLocked e.user_id).isSome = true)
    (hd : o1.Devices = KMap.put o.Devices key e)
    (ha : o1.AccountLocked = o.AccountLocked) : devicesHaveUsers o1 := by
  unfold devicesHaveUsers at *
  rw [hd, ha]
  intro p hp
  rcases KMap.mem_put hp with h1 | h1
  · exact h p h1
  · rw [h1]; exact hu

theorem devicesHaveUsers_delete_device {o o1 : bpfObjects} (h : devicesHaveUsers o)
    (key : IP) (hd : o1.Devices = KMap.delete o.Devices key)
    (ha : o1.AccountLocked = o.AccountLocked) : devicesHaveUsers o1 := by
  unfold devicesHaveUsers at *
  rw [hd, ha]
  intro p hp
  exact h p (KMap.mem_delete hp).1

theorem devicesHaveUsers_delete_user {o o1 : bpfObjects} (h : devicesHaveUsers o)
    (uid : UserId) (hno : ∀ p ∈ o.Devices, p.2.user_id ≠ uid)
    (hd : o1.Devices = o.Devices)
    (ha : o1.AccountLocked = KMap.delete o.AccountLocked uid) : devicesHaveUsers o1 := by
  unfold devicesHaveUsers at *
  rw [hd, ha]
  intro p hp
  rw [KMap.get_delete_of_ne _ _ _ (hno p hp)]
  exact h p hp

theorem AccountLocked.Put_effect (k : Kernel) (uid : UserId) (v : Nat) :
    (AccountLocked.Put k uid v).2.xdpObjects.Devices = k.xdpObjects.Devices ∧
    ((AccountLocked.Put k uid v).2.xdpObjects.AccountLocked = k.xdpObjects.AccountLocked ∨
      (AccountLocked.Put k uid v).2.xdpObjects.AccountLocked
        = KMap.put k.xdpObjects.AccountLocked uid v) := by
  have hx := Kernel.fault_xdpObjects k
  unfold AccountLocked.Put
  rcases hf : k.fault with ⟨f, k1⟩
  rw [hf] at hx
  cases f <;> simp_all [Kernel.write]

theorem AccountLocked.Delete_effect (k : Kernel) (uid : UserId) :
    (AccountLocked.Delete k uid).2.xdpObjects.Devices = k.xdpObjects.Devices ∧
    (((AccountLocked.Delete k uid).1 ≠ none ∧
        (AccountLocked.Delete k uid).2.xdpObjects.AccountLocked = k.xdpObjects.AccountLocked) ∨
      (AccountLocked.Delete k uid).2.xdpObjects.AccountLocked
        = KMap.delete k.xdpObjects.AccountLocked uid) := by
  have hx := Kernel.fault_xdpObjects k
  unfold AccountLocked.Delete
  rcases hf : k.fault with ⟨f, k1⟩
  rw [hf] at hx
  cases f with
  | some e => simp_all
  | none =>
    simp only
    split <;> simp_all [Kernel.write]

theorem Devices.LookupAndDelete_effect (k : Kernel) (key : Option IP) :
    (Devices.LookupAndDelete k key).2.xdpObjects = k.xdpObjects ∨
    ∃ a, (Devices.LookupAndDelete k key).2.xdpObjects
      = { k.xdpObjects with Devices := KMap.delete k.xdpObjects.Devices a } := by
  have hx := Kernel.fault_xdpObjects k
  unfold Devices.LookupAndDelete
  cases key with
  | none => exact Or.inl rfl
  | some a =>
    simp only
    rcases hf : k.fault with ⟨f, k1⟩
    rw [hf] at hx
    cases f with
    | some e => simp_all
    | none =>
      simp only
      split
      · simp_all
      · have hx1 : k1.xdpObjects = k.xdpObjects := hx
        right; exact ⟨a, by simp [Kernel.write, hx1]⟩

theorem AddUser_invariant (k : Kernel) (u : String) (acls : Acl)
    (h : devicesHaveUsers k.xdpObjects) : devicesHaveUsers (AddUser k u acls).2.xdpObjects := by
  unfold AddUser
  simp only
  cases xdpUserExists k (sha1Sum u) with
  | none => exact h
  | some e0 =>
    simp only
    have h1 : devicesHaveUsers (AccountLocked.Put k (sha1Sum u) 0).2.xdpObjects := by
      obtain ⟨hd, ha | ha⟩ := AccountLocked.Put_effect k (sha1Sum u) 0
      · exact devicesHaveUsers_of_same h ⟨hd, ha⟩
      · exact devicesHaveUsers_put_user h hd _ _ ha
    rcases hp : AccountLocked.Put k (sha1Sum u) 0 with ⟨r1, k1⟩
    rw [hp] at h1
    cases r1 with
    | some e => exact h1
    | none =>
      simp only
      have s2 := addMapTo_same k1 (sha1Sum u) .PublicTable
      rcases h2 : addMapTo k1 (sha1Sum u) .PublicTable with ⟨r2, k2⟩
      rw [h2] at s2
      cases r2 with
      | some e => exact devicesHaveUsers_of_same h1 s2
      | none =>
        simp only
        have s3 := addMapTo_same k2 (sha1Sum u) .MfaTable
        rcases h3 : addMapTo k2 (sha1Sum u) .MfaTable with ⟨r3, k3⟩
        rw [h3] at s3
        cases r3 with
        | some e => exact devicesHaveUsers_of_same h1 (s2.trans s3)
        | none =>
          simp only
          have s4 := xdpAddRoute_same k3 u .MfaTable acls.Mfa
          rcases h4 : xdpAddRoute k3 u .MfaTable acls.Mfa with ⟨r4, k4⟩
          rw [h4] at s4
          cases r4 with
          | some e => exact devicesHaveUsers_of_same h1 (s2.trans (s3.trans s4))
          | none =>
            simp only
            have s5 := xdpAddRoute_same k4 u .PublicTable acls.Allow
            rcases h5 : xdpAddRoute k4 u .PublicTable acls.Allow with ⟨r5, k5⟩
            rw [h5] at s5
            cases r5 <;>
              exact devicesHaveUsers_of_same h1 (s2.trans (s3.trans (s4.trans s5)))

theorem RemoveUser_invariant (k : Kernel) (u : String)
    (h : devicesHaveUsers k.xdpObjects)
    (hno : ∀ p ∈ k.xdpObjects.Devices, p.2.user_id ≠ sha1Sum u) :
    devicesHaveUsers (RemoveUser k u).2.xdpObjects := by
  unfold RemoveUser
  simp only
  have h1 : devicesHaveUsers (AccountLocked.Delete k (sha1Sum u)).2.xdpObjects := by
    obtain ⟨hd, ⟨_, ha⟩ | ha⟩ := AccountLocked.Delete_effect k (sha1Sum u)
    · exact devicesHaveUsers_of_same h ⟨hd, ha⟩
    · exact devicesHaveUsers_delete_user h _ hno hd ha
  rcases hp : AccountLocked.Delete k (sha1Sum u) with ⟨r1, k1⟩
  rw [hp] at h1
  cases r1 with
  | some e => exact h1
  | none =>
    simp only
    have s2 := Table.Delete_same k1 .PublicTable (sha1Sum u)
    rcases h2 : Table.Delete k1 .PublicTable (sha1Sum u) with ⟨publicErr, k2⟩
    rw [h2] at s2
    have s3 := Table.Delete_same k2 .MfaTable (sha1Sum u)
    rcases h3 : Table.Delete k2 .MfaTable (sha1Sum u) with ⟨mfaErr, k3⟩
    rw [h3] at s3
    have d2 := devicesHaveUsers_of_same h1 s2
    have d3 := devicesHaveUsers_of_same h1 (s2.trans s3)
    simp only
    repeat' split
    all_goals first | exact d2 | exact d3

theorem Kernel.fault_eq (k : Kernel) :
    k.fault.2.xdpObjects = k.xdpObjects ∧ k.fault.2.history = k.history :=
  ⟨Kernel.fault_xdpObjects k, Kernel.fault_history k⟩

theorem NewMap_cases (k : Kernel) :
    (∃ e, (NewMap k).1 = .error e ∧ (NewMap k).2.xdpObjects = k.xdpObjects ∧
      (NewMap k).2.history = k.history) ∨
    ((NewMap k).1 = .ok k.xdpObjects.nextID ∧
      (NewMap k).2.xdpObjects = k.xdpObjects.allocated ∧
      (NewMap k).2.history = k.history ++ [k.xdpObjects.allocated]) := by
  obtain ⟨hx, hh⟩ := Kernel.fault_eq k
  unfold NewMap
  rcases hf : k.fault with ⟨f, k1⟩
  rw [hf] at hx hh
  simp only at hx hh
  cases f with
  | some e => exact Or.inl ⟨e, rfl, hx, hh⟩
  | none => exact Or.inr ⟨by simp [hx], by simp [Kernel.write, hx, bpfObjects.allocated],
      by simp [Kernel.write, hx, hh, bpfObjects.allocated]⟩

theorem Table.Put_cases (k : Kernel) (t : Table) (uid : UserId) (id : Nat) :
    (∃ e, (Table.Put k t uid id).1 = some e ∧ (Table.Put k t uid id).2.xdpObjects = k.xdpObjects ∧
      (Table.Put k t uid id).2.history = k.history) ∨
    ((Table.Put k t uid id).1 = none ∧
      (Table.Put k t uid id).2.xdpObjects
        = k.xdpObjects.setTable t (KMap.put (k.xdpObjects.table t) uid id) ∧
      (Table.Put k t uid id).2.history
        = k.history ++ [k.xdpObjects.setTable t (KMap.put (k.xdpObjects.table t) uid id)]) := by
  obtain ⟨hx, hh⟩ := Kernel.fault_eq k
  unfold Table.Put
  rcases hf : k.fault with ⟨f, k1⟩
  rw [hf] at hx hh
  simp only at hx hh
  cases f with
  | some e => exact Or.inl ⟨_, rfl, hx, hh⟩
  | none => exact Or.inr ⟨rfl, by simp [Kernel.write, hx], by simp [Kernel.write, hx, hh]⟩

theorem NewMapFromID_eq (k : Kernel) (id : Nat) :
    (NewMapFromID k id).2.xdpObjects = k.xdpObjects ∧
    (NewMapFromID k id).2.history = k.history ∧
    ∀ im, (NewMapFromID k id).1 = .ok im → im = id := by
  obtain ⟨hx, hh⟩ := Kernel.fault_eq k
  unfold NewMapFromID
  rcases hf : k.fault with ⟨f, k1⟩
  rw [hf] at hx hh
  simp only at hx hh
  cases f with
  | some e => exact ⟨hx, hh, by simp⟩
  | none =>
    simp only
    split
    · exact ⟨hx, hh, by simp⟩
    · exact ⟨hx, hh, by simp⟩

theorem Close_eq (k : Kernel) :
    (Close k).2.xdpObjects = k.xdpObjects ∧ (Close k).2.history = k.history :=
  Kernel.fault_eq k

theorem InnerMap.Put_trie_cases (k : Kernel) (id : Nat) (key : TrieKey) (t : Trie)
    (hg : KMap.get k.xdpObjects.innerMaps id = some t) :
    (∃ e, (InnerMap.Put k id key).1 = some e ∧
      (InnerMap.Put k id key).2.xdpObjects = k.xdpObjects ∧
      (InnerMap.Put k id key).2.history = k.history) ∨
    ((InnerMap.Put k id key).1 = none ∧ key.1 ≤ 32 ∧
      (InnerMap.Put k id key).2.xdpObjects = k.xdpObjects.withTrie id (t.put key) ∧
      (InnerMap.Put k id key).2.history
        = k.history ++ [k.xdpObjects.withTrie id (t.put key)]) := by
  obtain ⟨hx, hh⟩ := Kernel.fault_eq k
  unfold InnerMap.Put
  rcases hf : k.fault with ⟨f, k1⟩
  rw [hf] at hx hh
  simp only at hx hh
  cases f with
  | some e => exact Or.inl ⟨_, rfl, hx, hh⟩
  | none =>
    simp only
    by_cases h32 : 32 < key.1
    · simp only [h32, if_true]
      exact Or.inl ⟨_, rfl, hx, hh⟩
    · have hg1 : KMap.get k1.xdpObjects.innerMaps id = some t := by rw [hx]; exact hg
      right
      simp only [h32, if_false, hg1]
      exact ⟨by simp, by omega, by simp [Kernel.write, hx, bpfObjects.withTrie],
        by simp [Kernel.write, hx, hh, bpfObjects.withTrie]⟩

theorem bpfObjects.withTrie_withTrie (o : bpfObjects) (id : Nat) (t1 t2 : Trie) :
    (o.withTrie id t1).withTrie id t2 = o.withTrie id t2 := by
  simp [bpfObjects.withTrie, KMap.put_put]

theorem bpfObjects.withTrie_of_get (o : bpfObjects) (id : Nat) (t : Trie)
    (h : KMap.get o.innerMaps id = some t) : o.withTrie id t = o := by
  simp [bpfObjects.withTrie, KMap.put_of_get _ _ _ h]

theorem routeKeysFrom_cons_ok (t : Trie) (r : String) (rs : List String) (key : Key)
    (h : parseIP r = .ok key) :
    routeKeysFrom t (r :: rs) = routeKeysFrom (t.put key.Bytes) rs := by
  simp [routeKeysFrom, h]

theorem xdpAddRouteLoop_spec (rs : List String) :
    ∀ (k : Kernel) (id : Nat) (t0 : Trie),
      KMap.get k.xdpObjects.innerMaps id = some t0 →
      ∃ hs n, (xdpAddRouteLoop k id rs).2.history = k.history ++ hs ∧
        (∀ o1 ∈ hs, ∃ m, o1 = k.xdpObjects.withTrie id (routeKeysFrom t0 (rs.take m))) ∧
        (xdpAddRouteLoop k id rs).2.xdpObjects
          = k.xdpObjects.withTrie id (routeKeysFrom t0 (rs.take n)) ∧
        ((xdpAddRouteLoop k id rs).1 = none → n = rs.length ∧ ∀ r ∈ rs, validRoute r) := by
  induction rs with
  | nil =>
    intro k id t0 hg
    refine ⟨[], 0, by simp [xdpAddRouteLoop], by simp, ?_, by simp [xdpAddRouteLoop]⟩
    simp [xdpAddRouteLoop, routeKeysFrom, bpfObjects.withTrie_of_get _ _ _ hg]
  | cons r rs ih =>
    intro k id t0 hg
    have hstop : ∀ k1 : Kernel, k1.xdpObjects = k.xdpObjects → k1.history = k.history →
        ∃ hs n, k1.history = k.history ++ hs ∧
          (∀ o1 ∈ hs, ∃ m, o1 = k.xdpObjects.withTrie id (routeKeysFrom t0 ((r :: rs).take m))) ∧
          k1.xdpObjects = k.xdpObjects.withTrie id (routeKeysFrom t0 ((r :: rs).take n)) := by
      intro k1 hx hh
      refine ⟨[], 0, by simp [hh], by simp, ?_⟩
      simp [hx, routeKeysFrom, bpfObjects.withTrie_of_get _ _ _ hg]
    unfold xdpAddRouteLoop
    cases hp : parseIP r with
    | error e =>
      obtain ⟨hs, n, h1, h2, h3⟩ := hstop k rfl rfl
      exact ⟨hs, n, h1, h2, h3, by simp⟩
    | ok key =>
      simp only
      rcases InnerMap.Put_trie_cases k id key.Bytes t0 hg with ⟨e, he, hx, hh⟩ | ⟨hn, h32, hx, hh⟩
      · rcases hput : InnerMap.Put k id key.Bytes with ⟨res, k1⟩
        rw [hput] at he hx hh
        simp only at he hx hh
        subst he
        obtain ⟨hs, n, h1, h2, h3⟩ := hstop k1 hx hh
        exact ⟨hs, n, h1, h2, h3, by simp⟩
      · rcases hput : InnerMap.Put k id key.Bytes with ⟨res, k1⟩
        rw [hput] at hn hx hh
        simp only at hn hx hh
        subst hn
        simp only
        have hg1 : KMap.get k1.xdpObjects.innerMaps id = some (t0.put key.Bytes) := by
          rw [hx]; simp [bpfObjects.withTrie, KMap.get_put_self]
        obtain ⟨hs, n, h1, h2, h3, h4⟩ := ih k1 id (t0.put key.Bytes) hg1
        refine ⟨k.xdpObjects.withTrie id (t0.put key.Bytes) :: hs, n + 1, ?_, ?_, ?_, ?_⟩
        · rw [h1, hh]; simp
        · intro o1 ho1
          rcases List.mem_cons.mp ho1 with h | h
          · exact ⟨1, by rw [h]; simp [routeKeysFrom, hp]⟩
          · obtain ⟨m, hm⟩ := h2 o1 h
            refine ⟨m + 1, ?_⟩
            rw [hm, hx, bpfObjects.withTrie_withTrie, List.take_succ_cons,
              routeKeysFrom_cons_ok _ _ _ _ hp]
        · rw [h3, hx, bpfObjects.withTrie_withTrie, List.take_succ_cons,
            routeKeysFrom_cons_ok _ _ _ _ hp]
        · intro hnone
          obtain ⟨hlen, hval⟩ := h4 hnone
          refine ⟨by simp [hlen], ?_⟩
          intro r1 hr1
          rcases List.mem_cons.mp hr1 with h | h
          · rw [h]; exact ⟨key, hp, h32⟩
          · exact hval r1 h

theorem xdpAddRoute_spec (k : Kernel) (u : String) (table : Table) (rs : List String)
    (id : Nat) (t0 : Trie)
    (hT : KMap.get (k.xdpObjects.table table) (sha1Sum u) = some id)
    (hg : KMap.get k.xdpObjects.innerMaps id = some t0) :
    ∃ hs n, (xdpAddRoute k u table rs).2.history = k.history ++ hs ∧
      (∀ o1 ∈ hs, ∃ m, o1 = k.xdpObjects.withTrie id (routeKeysFrom t0 (rs.take m))) ∧
      (xdpAddRoute k u table rs).2.xdpObjects
        = k.xdpObjects.withTrie id (routeKeysFrom t0 (rs.take n)) ∧
      ((xdpAddRoute k u table rs).1 = none → n = rs.length ∧ ∀ r ∈ rs, validRoute r) := by
  unfold xdpAddRoute
  simp only [Table.Lookup, hT]
  obtain ⟨hx, hh, him⟩ := NewMapFromID_eq k id
  rcases hn : NewMapFromID k id with ⟨res, k1⟩
  rw [hn] at hx hh him
  simp only at hx hh him
  cases res with
  | error e =>
    refine ⟨[], 0, by simp [hh], by simp, ?_, by simp⟩
    simp [hx, routeKeysFrom, bpfObjects.withTrie_of_get _ _ _ hg]
  | ok im =>
    have := him im rfl
    subst this
    simp only
    have hg1 : KMap.get k1.xdpObjects.innerMaps im = some t0 := by rw [hx]; exact hg
    obtain ⟨hs, n, h1, h2, h3, h4⟩ := xdpAddRouteLoop_spec rs k1 im t0 hg1
    obtain ⟨cx, ch⟩ := Close_eq (xdpAddRouteLoop k1 im rs).2
    refine ⟨hs, n, ?_, ?_, ?_, h4⟩
    · rw [ch, h1, hh]
    · intro o1 ho1
      obtain ⟨m, hm⟩ := h2 o1 ho1
      exact ⟨m, by rw [hm, hx]⟩
    · rw [cx, h3, hx]

theorem bpfObjects.table_setTable (o : bpfObjects) (t : Table) (m : KMap UserId Nat) :
    (o.setTable t m).table t = m := by
  cases t <;> rfl

theorem bpfObjects.table_setTable_ne (o : bpfObjects) (t t1 : Table) (m : KMap UserId Nat)
    (h : t1 ≠ t) : (o.setTable t m).table t1 = o.table t1 := by
  cases t <;> cases t1 <;> first | rfl | exact absurd rfl h

theorem bpfObjects.innerMaps_setTable (o : bpfObjects) (t : Table) (m : KMap UserId Nat) :
    (o.setTable t m).innerMaps = o.innerMaps := by
  cases t <;> rfl

theorem bpfObjects.nextID_setTable (o : bpfObjects) (t : Table) (m : KMap UserId Nat) :
    (o.setTable t m).nextID = o.nextID := by
  cases t <;> rfl

theorem bpfObjects.replaced_nil (o : bpfObjects) (table : Table) (uid : UserId) :
    o.replaced table uid []
      = o.allocated.setTable table (KMap.put (o.allocated.table table) uid o.nextID) := by
  unfold bpfObjects.replaced
  apply bpfObjects.withTrie_of_get
  rw [bpfObjects.innerMaps_setTable]
  simp [bpfObjects.allocated, KMap.get_put_self]

theorem updateRoutes_spec (k : Kernel) (u : String) (table : Table) (rs : List String) :
    ∃ hs, (updateRoutes k u table rs).2.history = k.history ++ hs ∧
      (∀ o1 ∈ hs, o1 = k.xdpObjects.allocated ∨
        ∃ m, o1 = k.xdpObjects.replaced table (sha1Sum u) (routeKeys (rs.take m))) ∧
      ((updateRoutes k u table rs).2.xdpObjects = k.xdpObjects ∨
        (updateRoutes k u table rs).2.xdpObjects = k.xdpObjects.allocated ∨
        ∃ n, (updateRoutes k u table rs).2.xdpObjects
          = k.xdpObjects.replaced table (sha1Sum u) (routeKeys (rs.take n))) ∧
      ((updateRoutes k u table rs).1 = none →
        (updateRoutes k u table rs).2.xdpObjects
          = k.xdpObjects.replaced table (sha1Sum u) (routeKeys rs) ∧
        ∀ r ∈ rs, validRoute r) := by
  unfold updateRoutes
  simp only
  rcases NewMap_cases k with ⟨e, he, hx, hh⟩ | ⟨hok, hx, hh⟩
  · rcases hn : NewMap k with ⟨res, k1⟩
    rw [hn] at he hx hh
    simp only at he hx hh
    subst he
    exact ⟨[], by simp [hh], by simp, Or.inl hx, by simp⟩
  · rcases hn : NewMap k with ⟨res, k1⟩
    rw [hn] at hok hx hh
    simp only at hok hx hh
    subst hok
    simp only
    rcases Table.Put_cases k1 table (sha1Sum u) k.xdpObjects.nextID with
      ⟨e, he, hx2, hh2⟩ | ⟨hok2, hx2, hh2⟩
    · rcases hp : Table.Put k1 table (sha1Sum u) k.xdpObjects.nextID with ⟨res2, k2⟩
      rw [hp] at he hx2 hh2
      simp only at he hx2 hh2
      subst he
      refine ⟨[k.xdpObjects.allocated], by simp [hh2, hh], by simp, ?_, by simp⟩
      exact Or.inr (Or.inl (by rw [hx2, hx]))
    · rcases hp : Table.Put k1 table (sha1Sum u) k.xdpObjects.nextID with ⟨res2, k2⟩
      rw [hp] at hok2 hx2 hh2
      simp only at hok2 hx2 hh2
      subst hok2
      simp only
      have hsw : k2.xdpObjects = k.xdpObjects.replaced table (sha1Sum u) [] := by
        rw [hx2, hx, bpfObjects.replaced_nil]
      have hT : KMap.get (k2.xdpObjects.table table) (sha1Sum u) = some k.xdpObjects.nextID := by
        rw [hx2, bpfObjects.table_setTable, KMap.get_put_self]
      have hg : KMap.get k2.xdpObjects.innerMaps k.xdpObjects.nextID = some [] := by
        rw [hx2, bpfObjects.innerMaps_setTable, hx]
        simp [bpfObjects.allocated, KMap.get_put_self]
      have hrep : ∀ m, k2.xdpObjects.withTrie k.xdpObjects.nextID (routeKeysFrom [] (rs.take m))
          = k.xdpObjects.replaced table (sha1Sum u) (routeKeys (rs.take m)) := by
        intro m
        rw [hsw]
        unfold bpfObjects.replaced routeKeys
        rw [bpfObjects.withTrie_withTrie]
      obtain ⟨hs, n, h1, h2, h3, h4⟩ :=
        xdpAddRoute_spec k2 u table rs k.xdpObjects.nextID [] hT hg
      have hhist : k2.history = k.history ++ [k.xdpObjects.allocated,
          k.xdpObjects.replaced table (sha1Sum u) (routeKeys (rs.take 0))] := by
        rw [hh2, hh, hx, ← bpfObjects.replaced_nil]
        simp [routeKeys, routeKeysFrom]
      have hmem : ∀ o1 ∈ [k.xdpObjects.allocated,
          k.xdpObjects.replaced table (sha1Sum u) (routeKeys (rs.take 0))] ++ hs,
          o1 = k.xdpObjects.allocated ∨
            ∃ m, o1 = k.xdpObjects.replaced table (sha1Sum u) (routeKeys (rs.take m)) := by
        intro o1 ho1
        simp only [List.cons_append, List.nil_append, List.mem_cons] at ho1
        rcases ho1 with h | h | h
        · exact Or.inl h
        · exact Or.inr ⟨0, h⟩
        · obtain ⟨m, hm⟩ := h2 o1 h
          exact Or.inr ⟨m, by rw [hm, hrep]⟩
      rcases ha : xdpAddRoute k2 u table rs with ⟨res3, k3⟩
      rw [ha] at h1 h3 h4
      simp only at h1 h3 h4
      cases res3 with
      | some e =>
        refine ⟨_, ?_, hmem, ?_, by simp⟩
        · rw [h1, hhist]; simp
        · exact Or.inr (Or.inr ⟨n, by rw [h3, hrep]⟩)
      | none =>
        simp only
        obtain ⟨cx, ch⟩ := Close_eq k3
        obtain ⟨hlen, hval⟩ := h4 rfl
        have hfin : (Close k3).2.xdpObjects
            = k.xdpObjects.replaced table (sha1Sum u) (routeKeys rs) := by
          rw [cx, h3, hrep, hlen, List.take_length]
        refine ⟨_, ?_, hmem, ?_, ?_⟩
        · rw [ch, h1, hhist]; simp
        · exact Or.inr (Or.inr ⟨rs.length, by rw [hfin, List.take_length]⟩)
        · intro _
          exact ⟨hfin, hval⟩

theorem innerIDsAllocated.get_lt {o : bpfObjects} (h : innerIDsAllocated o) {t : Table}
    {u : UserId} {id : Nat} (hg : KMap.get (o.table t) u = some id) : id < o.nextID := by
  cases t with
  | PublicTable => exact h.1 _ (KMap.mem_of_get hg)
  | MfaTable => exact h.2 _ (KMap.mem_of_get hg)

theorem innerIDsAllocated.allocated {o : bpfObjects} (h : innerIDsAllocated o) :
    innerIDsAllocated o.allocated := by
  constructor
  · intro p hp
    have := h.1 p hp
    simp only [bpfObjects.allocated]
    omega
  · intro p hp
    have := h.2 p hp
    simp only [bpfObjects.allocated]
    omega

theorem innerIDsAllocated.replaced {o : bpfObjects} (h : innerIDsAllocated o)
    (table : Table) (uid : UserId) (t : Trie) : innerIDsAllocated (o.replaced table uid t) := by
  cases table with
  | PublicTable =>
    constructor
    · intro p hp
      simp only [bpfObjects.replaced, bpfObjects.withTrie, bpfObjects.setTable,
        bpfObjects.allocated, bpfObjects.table] at hp ⊢
      rcases KMap.mem_put hp with h1 | h1
      · have := h.1 p h1; omega
      · rw [h1]; simp
    · intro p hp
      simp only [bpfObjects.replaced, bpfObjects.withTrie, bpfObjects.setTable,
        bpfObjects.allocated, bpfObjects.table] at hp ⊢
      have := h.2 p hp; omega
  | MfaTable =>
    constructor
    · intro p hp
      simp only [bpfObjects.replaced, bpfObjects.withTrie, bpfObjects.setTable,
        bpfObjects.allocated, bpfObjects.table] at hp ⊢
      have := h.1 p hp; omega
    · intro p hp
      simp only [bpfObjects.replaced, bpfObjects.withTrie, bpfObjects.setTable,
        bpfObjects.allocated, bpfObjects.table] at hp ⊢
      rcases KMap.mem_put hp with h1 | h1
      · have := h.2 p h1; omega
      · rw [h1]; simp

theorem tableTrie_allocated {o : bpfObjects} (h : innerIDsAllocated o) (t : Table)
    (u : UserId) : tableTrie o.allocated t u = tableTrie o t u := by
  unfold tableTrie
  have ht : o.allocated.table t = o.table t := by cases t <;> rfl
  rw [ht]
  cases hg : KMap.get (o.table t) u with
  | none => rfl
  | some id =>
    have hlt := h.get_lt hg
    simp only [bpfObjects.allocated]
    exact KMap.get_put_of_ne _ _ _ _ (by omega)

theorem tableTrie_replaced_self (o : bpfObjects) (table : Table) (uid : UserId) (t : Trie) :
    tableTrie (o.replaced table uid t) table uid = some t := by
  unfold tableTrie bpfObjects.replaced
  have h1 : ((o.allocated.setTable table
      (KMap.put (o.allocated.table table) uid o.nextID)).withTrie o.nextID t).table table
      = KMap.put (o.allocated.table table) uid o.nextID := by
    cases table <;> rfl
  rw [h1, KMap.get_put_self]
  simp [bpfObjects.withTrie, KMap.get_put_self]

theorem tableTrie_replaced_other {o : bpfObjects} (h : innerIDsAllocated o) (table t1 : Table)
    (uid u1 : UserId) (t : Trie) (hne : t1 ≠ table) :
    tableTrie (o.replaced table uid t) t1 u1 = tableTrie o t1 u1 := by
  unfold tableTrie bpfObjects.replaced
  have h1 : ((o.allocated.setTable table
      (KMap.put (o.allocated.table table) uid o.nextID)).withTrie o.nextID t).table t1
      = o.table t1 := by
    cases table <;> cases t1 <;> first | rfl | exact absurd rfl hne
  rw [h1]
  cases hg : KMap.get (o.table t1) u1 with
  | none => rfl
  | some id =>
    have hlt := h.get_lt hg
    have hne2 : id ≠ o.nextID := by omega
    simp only [bpfObjects.withTrie, bpfObjects.innerMaps_setTable, bpfObjects.allocated]
    rw [KMap.get_put_of_ne _ _ _ _ hne2, KMap.get_put_of_ne _ _ _ _ hne2]

theorem refreshStage_self {o : bpfObjects} (h : innerIDsAllocated o) (table : Table)
    (uid : UserId) (rs : List String) : refreshStage o table uid rs o :=
  ⟨h, fun _ _ _ => rfl, Or.inl rfl⟩

theorem refreshStage_allocated {o : bpfObjects} (h : innerIDsAllocated o) (table : Table)
    (uid : UserId) (rs : List String) : refreshStage o table uid rs o.allocated :=
  ⟨h.allocated, fun t1 u1 _ => tableTrie_allocated h t1 u1, Or.inl (tableTrie_allocated h _ _)⟩

theorem refreshStage_replaced {o : bpfObjects} (h : innerIDsAllocated o) (table : Table)
    (uid : UserId) (rs : List String) (m : Nat) :
    refreshStage o table uid rs (o.replaced table uid (routeKeys (rs.take m))) :=
  ⟨h.replaced _ _ _, fun t1 u1 hne => tableTrie_replaced_other h table t1 uid u1 _ hne,
    Or.inr ⟨m, tableTrie_replaced_self _ _ _ _⟩⟩

theorem updateRoutes_stages (k : Kernel) (u : String) (table : Table) (rs : List String)
    (h : innerIDsAllocated k.xdpObjects) :
    ∃ hs, (updateRoutes k u table rs).2.history = k.history ++ hs ∧
      (∀ o1 ∈ hs, refreshStage k.xdpObjects table (sha1Sum u) rs o1) ∧
      refreshStage k.xdpObjects table (sha1Sum u) rs (updateRoutes k u table rs).2.xdpObjects ∧
      ((updateRoutes k u table rs).1 = none →
        tableTrie (updateRoutes k u table rs).2.xdpObjects table (sha1Sum u)
          = some (routeKeys rs) ∧
        ∀ r ∈ rs, validRoute r) := by
  obtain ⟨hs, h1, h2, h3, h4⟩ := updateRoutes_spec k u table rs
  refine ⟨hs, h1, ?_, ?_, ?_⟩
  · intro o1 ho1
    rcases h2 o1 ho1 with e | ⟨m, e⟩
    · rw [e]; exact refreshStage_allocated h _ _ _
    · rw [e]; exact refreshStage_replaced h _ _ _ m
  · rcases h3 with e | e | ⟨m, e⟩
    · rw [e]; exact refreshStage_self h _ _ _
    · rw [e]; exact refreshStage_allocated h _ _ _
    · rw [e]; exact refreshStage_replaced h _ _ _ m
  · intro hn
    obtain ⟨e, hv⟩ := h4 hn
    exact ⟨by rw [e]; exact tableTrie_replaced_self _ _ _ _, hv⟩

theorem refreshUserAcls_snd (k : Kernel) (cfg : Config) (u : String) :
    (refreshUserAcls k cfg u).2
      = (updateRoutes (updateRoutes k u .PublicTable (cfg.GetEffectiveAcl u).Allow).2 u
          .MfaTable (cfg.GetEffectiveAcl u).Mfa).2 := by
  unfold refreshUserAcls
  simp only
  split
  · rfl
  · split <;> rfl

theorem refreshUserAcls_stages (k : Kernel) (cfg : Config) (u : String)
    (h : innerIDsAllocated k.xdpObjects) :
    ∃ hs, (refreshUserAcls k cfg u).2.history = k.history ++ hs ∧
      ∀ o1, (o1 ∈ hs ∨ o1 = (refreshUserAcls k cfg u).2.xdpObjects) →
        (tableTrie o1 .PublicTable (sha1Sum u)
            = tableTrie k.xdpObjects .PublicTable (sha1Sum u) ∨
          ∃ m, tableTrie o1 .PublicTable (sha1Sum u)
            = some (routeKeys ((cfg.GetEffectiveAcl u).Allow.take m))) ∧
        (tableTrie o1 .MfaTable (sha1Sum u)
            = tableTrie k.xdpObjects .MfaTable (sha1Sum u) ∨
          ∃ m, tableTrie o1 .MfaTable (sha1Sum u)
            = some (routeKeys ((cfg.GetEffectiveAcl u).Mfa.take m))) := by
  obtain ⟨hs1, a1, a2, a3, _⟩ :=
    updateRoutes_stages k u .PublicTable (cfg.GetEffectiveAcl u).Allow h
  obtain ⟨hs2, b1, b2, b3, _⟩ :=
    updateRoutes_stages (updateRoutes k u .PublicTable (cfg.GetEffectiveAcl u).Allow).2 u
      .MfaTable (cfg.GetEffectiveAcl u).Mfa a3.1
  have hfin : (refreshUserAcls k cfg u).2
      = (updateRoutes (updateRoutes k u .PublicTable (cfg.GetEffectiveAcl u).Allow).2 u
          .MfaTable (cfg.GetEffectiveAcl u).Mfa).2 := by
    exact refreshUserAcls_snd k cfg u
  have first : ∀ o1, refreshStage k.xdpObjects .PublicTable (sha1Sum u)
      (cfg.GetEffectiveAcl u).Allow o1 →
      (tableTrie o1 .PublicTable (sha1Sum u)
            = tableTrie k.xdpObjects .PublicTable (sha1Sum u) ∨
          ∃ m, tableTrie o1 .PublicTable (sha1Sum u)
            = some (routeKeys ((cfg.GetEffectiveAcl u).Allow.take m))) ∧
        (tableTrie o1 .MfaTable (sha1Sum u)
            = tableTrie k.xdpObjects .MfaTable (sha1Sum u) ∨
          ∃ m, tableTrie o1 .MfaTable (sha1Sum u)
            = some (routeKeys ((cfg.GetEffectiveAcl u).Mfa.take m))) := by
    intro o1 hst
    exact ⟨hst.2.2, Or.inl (hst.2.1 _ _ (by decide))⟩
  have second : ∀ o1, refreshStage
      (updateRoutes k u .PublicTable (cfg.GetEffectiveAcl u).Allow).2.xdpObjects .MfaTable
      (sha1Sum u) (cfg.GetEffectiveAcl u).Mfa o1 →
      (tableTrie o1 .PublicTable (sha1Sum u)
            = tableTrie k.xdpObjects .PublicTable (sha1Sum u) ∨
          ∃ m, tableTrie o1 .PublicTable (sha1Sum u)
            = some (routeKeys ((cfg.GetEffectiveAcl u).Allow.take m))) ∧
        (tableTrie o1 .MfaTable (sha1Sum u)
            = tableTrie k.xdpObjects .MfaTable (sha1Sum u) ∨
          ∃ m, tableTrie o1 .MfaTable (sha1Sum u)
            = some (routeKeys ((cfg.GetEffectiveAcl u).Mfa.take m))) := by
    intro o1 hst
    have hp := hst.2.1 .PublicTable (sha1Sum u) (by decide)
    have hm := a3.2.1 .MfaTable (sha1Sum u) (by decide)
    refine ⟨by rw [hp]; exact a3.2.2, ?_⟩
    rcases hst.2.2 with e | e
    · exact Or.inl (by rw [e, hm])
    · exact Or.inr e
  refine ⟨hs1 ++ hs2, by rw [hfin, b1, a1, List.append_assoc], ?_⟩
  intro o1 ho1
  rcases ho1 with ho1 | ho1
  · rcases List.mem_append.mp ho1 with hm | hm
    · exact first o1 (a2 o1 hm)
    · exact second o1 (b2 o1 hm)
  · rw [ho1, hfin]
    exact second _ b3

theorem watchPeer_startup (w : Watcher) (p : Peer) : (watchPeer w p).startup = w.startup := by
  unfold watchPeer
  split
  · simp only
    split
    · split
      · rfl
      · simp only [Watcher.deauthenticate]
        split <;> rfl
    · rfl
  · rfl

theorem watchPeer_calls (w : Watcher) (p : Peer) :
    ∃ cs, (watchPeer w p).calls = w.calls ++ cs := by
  unfold watchPeer
  split
  · simp only
    split
    · split
      · exact ⟨_, by simp [Watcher.deauthenticate]; rfl⟩
      · simp only [Watcher.deauthenticate]
        split
        · exact ⟨_, by simp; rfl⟩
        · exact ⟨_, rfl⟩
    · exact ⟨[], by simp⟩
  · exact ⟨[], by simp⟩

theorem foldl_watchPeer_startup (ps : List Peer) (w : Watcher) :
    (ps.foldl watchPeer w).startup = w.startup := by
  induction ps generalizing w with
  | nil => rfl
  | cons p ps ih => rw [List.foldl_cons, ih, watchPeer_startup]

theorem foldl_watchPeer_calls (ps : List Peer) (w : Watcher) :
    ∃ cs, (ps.foldl watchPeer w).calls = w.calls ++ cs := by
  induction ps generalizing w with
  | nil => exact ⟨[], by simp⟩
  | cons p ps ih =>
    obtain ⟨c1, h1⟩ := watchPeer_calls w p
    obtain ⟨c2, h2⟩ := ih (watchPeer w p)
    exact ⟨c1 ++ c2, by rw [List.foldl_cons, h2, h1, List.append_assoc]⟩

theorem watchPeer_step (w : Watcher) (p : Peer) (allowed : IPNet)
    (hs : w.startup = false) (hp : p.AllowedIPs = [allowed])
    (hc : cacheGet w.cache (IPString allowed.IP) ≠ UDPAddrString p.Endpoint) :
    (watchPeer w p).calls =
      w.calls ++
      (match (GetDeviceByAddress w.store (IPString allowed.IP)).1 with
       | .ok _ =>
         [(Call.GetDeviceByAddress (IPString allowed.IP), w.kernel),
           (Call.UpdateDeviceEndpoint (IPString allowed.IP) p.Endpoint, w.kernel),
           (Call.Deauthenticate (IPString allowed.IP), w.kernel)]
       | .error _ =>
         [(Call.GetDeviceByAddress (IPString allowed.IP), w.kernel),
           (Call.Deauthenticate (IPString allowed.IP), w.kernel)]) ∧
    (watchPeer w p).kernel = (Deauthenticate w.kernel (IPString allowed.IP)).2 := by
  unfold watchPeer
  rw [hp]
  simp only [hc, ne_eq, not_false_eq_true, if_true]
  rcases hg : GetDeviceByAddress w.store (IPString allowed.IP) with ⟨r, s1⟩
  cases r with
  | error e => simp [Watcher.deauthenticate]
  | ok d => simp [Watcher.deauthenticate, hs]

theorem mul64_minutes_exact (m : Int) (h0 : 0 ≤ m) (h1 : m * 60000000000 < 2 ^ 64) :
    ((mul64 (uint64 m) 60000000000 : Nat) : Int) = m * 60000000000 := by
  unfold mul64 uint64
  have hm : m < 2 ^ 64 := by nlinarith
  have h2 : (m % 2 ^ 64).toNat = m.toNat := by
    rw [Int.emod_eq_of_lt h0 hm]
  rw [h2]
  have h3 : (m.toNat : Int) = m := Int.toNat_of_nonneg h0
  have h4 : m.toNat * 60000000000 < 2 ^ 64 := by
    have : ((m.toNat * 60000000000 : Nat) : Int) < 2 ^ 64 := by
      push_cast
      rw [h3]
      exact h1
    exact_mod_cast this
  rw [Nat.mod_eq_of_lt h4]
  push_cast
  rw [h3]

/-- C1. `isAuthed(address)` is true exactly when the address parses to an
IPv4 address with an entry in `devices`, `account_locked` holds 0 for the
owner of the entry, the session has not expired (`sessionExpiry == MAX` or
`sessionExpiry > now`) and the device is not inactive (`inactivity == MAX` or
`now - lastPacketTime < inactivity`), where `inactivity` is the value the
controller computes for the `inactivity_time` map (the configured minutes in
nanoseconds as a `uint64`, `MAX` for negative minutes) and the subtraction is
that of `uint64`.  A locked owner therefore never passes. -/
theorem isAuthed_iff (k : Kernel) (cfg : Config) (now : Nat) (address : String) :
    isAuthed k cfg now address = true ↔
      ∃ key entry, ParseIP4 address = some key ∧
        KMap.get k.xdpObjects.Devices key = some entry ∧
        KMap.get k.xdpObjects.AccountLocked entry.user_id = some 0 ∧
        (entry.sessionExpiry = MaxUint64 ∨ entry.sessionExpiry > now) ∧
        (inactivityValue cfg = MaxUint64 ∨
          sub64 now entry.lastPacketTime < inactivityValue cfg) := by
  rw [isAuthed_eq, inactivityValue_eq_max_iff]
  unfold deviceOf
  constructor
  · intro h
    cases hk : ParseIP4 address with
    | none => simp [hk] at h
    | some key =>
      cases hd : KMap.get k.xdpObjects.Devices key with
      | none => simp [hk, hd] at h
      | some e =>
        cases hl : KMap.get k.xdpObjects.AccountLocked e.user_id with
        | none => simp [hk, hd, hl] at h
        | some v =>
          simp only [hk, hd, hl, Bool.and_eq_true, Bool.or_eq_true,
            decide_eq_true_eq] at h
          obtain ⟨⟨hv, hs⟩, ha⟩ := h
          refine ⟨key, e, rfl, hd, by rw [hl, hv], hs.symm, ?_⟩
          by_cases hneg : cfg.SessionInactivityTimeoutMinutes < 0
          · exact Or.inl hneg
          · right
            rcases ha with ha | ha
            · simpa [inactivityValue, hneg] using ha
            · exact absurd ha hneg
  · rintro ⟨key, e, hk, hd, hl, hs, ha⟩
    simp only [hk, hd, hl, Bool.and_eq_true, Bool.or_eq_true,
      decide_eq_true_eq]
    refine ⟨⟨trivial, hs.symm⟩, ?_⟩
    rcases ha with ha | ha
    · exact Or.inr ha
    · by_cases hneg : cfg.SessionInactivityTimeoutMinutes < 0
      · exact Or.inr hneg
      · left
        simpa [inactivityValue, hneg] using ha

/-- C2, counterexample.  With a session lifetime and an inactivity timeout of
0 minutes, `SetAuthorized` on an existing device of an unlocked owner returns
no error and `isAuthed` is false at the very clock reading it used. -/
theorem SetAuthorized_zero_minutes_not_authed :
    deviceOf exampleKernel "192.0.2.5" ≠ none ∧
    KMap.get exampleKernel.xdpObjects.AccountLocked (sha1Sum "alice") = some 0 ∧
    (SetAuthorized exampleKernel (exampleConfig 0 0) 100 100 "192.0.2.5" "alice").1 = none ∧
    isAuthed (SetAuthorized exampleKernel (exampleConfig 0 0) 100 100 "192.0.2.5" "alice").2
      (exampleConfig 0 0) 100 "192.0.2.5" = false := by
  decide!

/-- C2 (as amended).  After `SetAuthorized(a, u)` returned without error for
an owner `u` that is not locked, the record of `a` holds the owner, the first
clock reading and the expiry computed from the second, and `isAuthed(a)` at a
clock reading `t` is true exactly when the session has not expired
(`sessionExpiry == MAX` or `t < sessionExpiry`) and the device is not inactive
(`inactivity == MAX` or `t - lastPacketTime < inactivity`). -/
theorem SetAuthorized_isAuthed_iff (k k' : Kernel) (cfg : Config) (now1 now2 t : Nat)
    (a u : String)
    (hret : SetAuthorized k cfg now1 now2 a u = (none, k'))
    (hunlocked : KMap.get k.xdpObjects.AccountLocked (sha1Sum u) = some 0) :
    deviceOf k' a = some { user_id := sha1Sum u, lastPacketTime := now1,
                           sessionExpiry := sessionExpiryValue cfg now2 } ∧
    (isAuthed k' cfg t a = true ↔
      (sessionExpiryValue cfg now2 = MaxUint64 ∨ t < sessionExpiryValue cfg now2) ∧
      (inactivityValue cfg = MaxUint64 ∨ sub64 t now1 < inactivityValue cfg)) := by
  obtain ⟨key, hk, _, hx⟩ := SetAuthorized_ok hret
  have hd : KMap.get k'.xdpObjects.Devices key
      = some { user_id := sha1Sum u, lastPacketTime := now1,
               sessionExpiry := sessionExpiryValue cfg now2 } := by
    rw [hx]; exact KMap.get_put_self _ _ _
  have hl : k'.xdpObjects.AccountLocked = k.xdpObjects.AccountLocked := by rw [hx]
  refine ⟨by simp [deviceOf, hk, hd], ?_⟩
  rw [isAuthed_iff]
  constructor
  · rintro ⟨key1, e, h1, h2, _, h4, h5⟩
    rw [hk] at h1
    cases h1
    rw [hd] at h2
    cases h2
    exact ⟨h4, h5⟩
  · rintro ⟨h4, h5⟩
    exact ⟨key, _, hk, hd, by rw [hl]; exact hunlocked, h4, h5⟩

/-- C2, witness: under a one-minute lifetime and timeout the device authorised
at reading 100 is authed at reading 150. -/
theorem SetAuthorized_isAuthed_iff_witness :
    SetAuthorized exampleKernel (exampleConfig 1 1) 100 100 "192.0.2.5" "alice"
        = (none, authedKernel) ∧
      isAuthed authedKernel (exampleConfig 1 1) 150 "192.0.2.5" = true :=
  ⟨by decide!,
   ((SetAuthorized_isAuthed_iff exampleKernel authedKernel (exampleConfig 1 1) 100 100 150
      "192.0.2.5" "alice" (by decide!) (by decide!)).2).mpr (by decide!)⟩

/-- C3.  When `Deauthenticate(a)` returns without error, the record of `a`
is the one it had with `lastPacketTime = 0` and `sessionExpiry = 0`, and
`isAuthed(a)` on the resulting state is false for every configuration and
every clock reading. -/
theorem Deauthenticate_not_authed (k k' : Kernel) (a : String)
    (h : Deauthenticate k a = (none, k')) :
    (∃ e, deviceOf k a = some e ∧
      deviceOf k' a = some { e with lastPacketTime := 0, sessionExpiry := 0 }) ∧
    ∀ (cfg : Config) (now : Nat), isAuthed k' cfg now a = false := by
  obtain ⟨key, e, hk, hd, hx⟩ := Deauthenticate_ok h
  have hd2 : deviceOf k' a = some { e with lastPacketTime := 0, sessionExpiry := 0 } := by
    simp only [deviceOf, hk, hx]
    exact KMap.get_put_self _ _ _
  refine ⟨⟨e, by simp [deviceOf, hk, hd], hd2⟩, ?_⟩
  intro cfg now
  exact isAuthed_false_of_expiry_zero k' cfg now a _ hd2 rfl

/-- C3, witness: the authorised device is authed with both limits disabled,
and no longer after `Deauthenticate`. -/
theorem Deauthenticate_not_authed_witness :
    Deauthenticate authedKernel "192.0.2.5"
        = (none, (Deauthenticate authedKernel "192.0.2.5").2) ∧
      isAuthed authedKernel (exampleConfig (-1) (-1)) 150 "192.0.2.5" = true ∧
      isAuthed (Deauthenticate authedKernel "192.0.2.5").2 (exampleConfig (-1) (-1)) 150
        "192.0.2.5" = false :=
  ⟨by decide!, by decide!,
   (Deauthenticate_not_authed authedKernel _ "192.0.2.5" (by decide!)).2 _ _⟩

/-- C4, counterexample.  On a device owned by `alice`, `SetAuthorized` for
`bob` returns no error and rewrites the owner of the entry. -/
theorem SetAuthorized_other_user_succeeds :
    (deviceOf exampleKernel "192.0.2.5").map fwentry.user_id = some (sha1Sum "alice") ∧
    sha1Sum "bob" ≠ sha1Sum "alice" ∧
    (SetAuthorized exampleKernel (exampleConfig 1 1) 100 100 "192.0.2.5" "bob").1 = none ∧
    (deviceOf (SetAuthorized exampleKernel (exampleConfig 1 1) 100 100 "192.0.2.5" "bob").2
      "192.0.2.5").map fwentry.user_id = some (sha1Sum "bob") ∧
    (SetAuthorized exampleKernel (exampleConfig 1 1) 100 100 "192.0.2.5" "bob").2.xdpObjects.Devices
      ≠ exampleKernel.xdpObjects.Devices := by
  decide!

/-- C4 (as amended).  `SetAuthorized(address, username)` succeeds only if
`devices` holds an entry for the address: without one it returns an error,
and whenever it returns an error the maps are unchanged.  The owner of the
entry is not compared: on success the entry holds `SHA-1(username)`, the
clock reading and the expiry. -/
theorem SetAuthorized_requires_device (k : Kernel) (cfg : Config) (now1 now2 : Nat)
    (a u : String) :
    (deviceOf k a = none →
      (SetAuthorized k cfg now1 now2 a u).1 ≠ none ∧
      (SetAuthorized k cfg now1 now2 a u).2.xdpObjects = k.xdpObjects) ∧
    ((SetAuthorized k cfg now1 now2 a u).1 ≠ none →
      (SetAuthorized k cfg now1 now2 a u).2.xdpObjects = k.xdpObjects) ∧
    ((SetAuthorized k cfg now1 now2 a u).1 = none →
      (deviceOf k a).isSome ∧
      deviceOf (SetAuthorized k cfg now1 now2 a u).2 a
        = some { user_id := sha1Sum u, lastPacketTime := now1,
                 sessionExpiry := sessionExpiryValue cfg now2 }) := by
  rcases hr : SetAuthorized k cfg now1 now2 a u with ⟨r, k'⟩
  have herr : r ≠ none → k'.xdpObjects = k.xdpObjects := by
    intro hne
    cases r with
    | none => exact absurd rfl hne
    | some e => exact SetAuthorized_err hr
  have hok : r = none → (deviceOf k a).isSome ∧
      deviceOf k' a = some (⟨sha1Sum u, now1, sessionExpiryValue cfg now2⟩ : fwentry) := by
    intro hn
    subst hn
    obtain ⟨key, hk, hs, hx⟩ := SetAuthorized_ok hr
    refine ⟨by simpa [deviceOf, hk] using hs, ?_⟩
    simp only [deviceOf, hk, hx]
    exact KMap.get_put_self _ _ _
  refine ⟨?_, herr, hok⟩
  intro hnone
  have hne : r ≠ none := by
    intro hn
    have := (hok hn).1
    simp [hnone] at this
  exact ⟨hne, herr hne⟩

/-- C4, witness: `SetAuthorized` on `192.0.2.9`, which has no entry, returns an
error and changes nothing. -/
theorem SetAuthorized_requires_device_witness :
    deviceOf exampleKernel "192.0.2.9" = none ∧
    (SetAuthorized exampleKernel (exampleConfig 1 1) 100 100 "192.0.2.9" "alice").1 ≠ none ∧
    (SetAuthorized exampleKernel (exampleConfig 1 1) 100 100 "192.0.2.9" "alice").2.xdpObjects
      = exampleKernel.xdpObjects :=
  ⟨by decide!,
   (SetAuthorized_requires_device exampleKernel (exampleConfig 1 1) 100 100 "192.0.2.9"
      "alice").1 (by decide!)⟩

/-- C5.  After `xdpAddDevice(username, address)` succeeded, the entry of the
address is `{SHA-1(username), lastPacketTime = 0, sessionExpiry = 0}` and
`isAuthed(address)` is false for every configuration and clock reading. -/
theorem xdpAddDevice_unauthenticated (k k' : Kernel) (u a : String)
    (h : xdpAddDevice k u a = (none, k')) :
    deviceOf k' a = some { user_id := sha1Sum u, lastPacketTime := 0, sessionExpiry := 0 } ∧
    ∀ (cfg : Config) (now : Nat), isAuthed k' cfg now a = false := by
  obtain ⟨key, hk, _, _, hx⟩ := xdpAddDevice_ok h
  have hd : deviceOf k' a
      = some { user_id := sha1Sum u, lastPacketTime := 0, sessionExpiry := 0 } := by
    simp only [deviceOf, hk, hx]
    exact KMap.get_put_self _ _ _
  exact ⟨hd, fun cfg now => isAuthed_false_of_expiry_zero k' cfg now a _ hd rfl⟩

/-- C5, witness: a second device added for `alice` is not authed. -/
theorem xdpAddDevice_unauthenticated_witness :
    xdpAddDevice exampleKernel "alice" "192.0.2.6"
        = (none, (xdpAddDevice exampleKernel "alice" "192.0.2.6").2) ∧
      isAuthed (xdpAddDevice exampleKernel "alice" "192.0.2.6").2 (exampleConfig (-1) (-1)) 7
        "192.0.2.6" = false :=
  ⟨by decide!,
   (xdpAddDevice_unauthenticated exampleKernel _ "alice" "192.0.2.6" (by decide!)).2 _ _⟩

/-- C6.  `xdpAddDevice(username, address)` returns an error and leaves the
`devices` map unchanged when the address already has an entry or the user has
no entry in `account_locked`. -/
theorem xdpAddDevice_rejects (k : Kernel) (u a : String)
    (h : (deviceOf k a).isSome ∨ KMap.get k.xdpObjects.AccountLocked (sha1Sum u) = none) :
    (xdpAddDevice k u a).1 ≠ none ∧
    (xdpAddDevice k u a).2.xdpObjects.Devices = k.xdpObjects.Devices := by
  rcases hr : xdpAddDevice k u a with ⟨r, k'⟩
  cases r with
  | some e =>
    refine ⟨by simp, ?_⟩
    unfold xdpAddDevice at hr
    cases hp : ParseIP a with
    | none => simp [hp] at hr; rw [← hr.2]
    | some ip =>
      simp only [hp] at hr
      cases hl : Devices.Lookup k (To4 ip) with
      | none => simp [hl] at hr; rw [← hr.2]
      | some e0 =>
        simp only [hl] at hr
        cases hu : xdpUserExists k (sha1Sum u) with
        | some e1 => simp [hu] at hr; rw [← hr.2]
        | none =>
          simp only [hu] at hr
          rw [Devices.Put_err hr]
  | none =>
    exfalso
    obtain ⟨key, hk, hnone, hsome, _⟩ := xdpAddDevice_ok hr
    rcases h with h | h
    · simp [deviceOf, hk, hnone] at h
    · simp [h] at hsome

/-- C6, witness: adding `192.0.2.5` again, for a user that does not exist, is
rejected. -/
theorem xdpAddDevice_rejects_witness :
    ((deviceOf exampleKernel "192.0.2.5").isSome ∨
        KMap.get exampleKernel.xdpObjects.AccountLocked (sha1Sum "bob") = none) ∧
      (xdpAddDevice exampleKernel "bob" "192.0.2.5").1 ≠ none ∧
      (xdpAddDevice exampleKernel "bob" "192.0.2.5").2.xdpObjects.Devices
        = exampleKernel.xdpObjects.Devices :=
  ⟨by decide!, xdpAddDevice_rejects exampleKernel "bob" "192.0.2.5" (by decide!)⟩

/-- C7, counterexample.  After the warm-up scan, on a peer whose endpoint
changed, the watcher writes the new endpoint to the store first and calls
`Deauthenticate` afterwards: at the moment of the write the device is still
authenticated. -/
theorem watcher_persists_before_deauth :
    (watcherTick roamWatcher [roamPeer]).calls =
      [(Call.GetDeviceByAddress "192.0.2.5", authedKernel),
       (Call.UpdateDeviceEndpoint "192.0.2.5" roamPeer.Endpoint, authedKernel),
       (Call.Deauthenticate "192.0.2.5", authedKernel)] ∧
    isAuthed authedKernel (exampleConfig 1 1) 150 "192.0.2.5" = true ∧
    isAuthed (watcherTick roamWatcher [roamPeer]).kernel (exampleConfig 1 1) 150 "192.0.2.5"
      = false := by
  decide!

/-- C7 (as amended).  On a tick after the warm-up scan, for a peer with
exactly one allowed IP whose observed endpoint differs from the cached one
when the loop reaches it, the watcher calls `Deauthenticate(addr)` in the same
loop step: after `UpdateDeviceEndpoint` when the device lookup in the store
succeeds, and with no store write when it fails.  The kernel state at the
moment of the store write is the state before the step; once the
`Deauthenticate` of the step has succeeded the device is not
authenticated. -/
theorem watcherTick_endpoint_change (w : Watcher) (ps qs : List Peer) (p : Peer)
    (allowed : IPNet) (hs : w.startup = false) (hp : p.AllowedIPs = [allowed])
    (hc : cacheGet (ps.foldl watchPeer w).cache (IPString allowed.IP)
      ≠ UDPAddrString p.Endpoint) :
    (∃ rest, (watcherTick w (ps ++ p :: qs)).calls =
      (ps.foldl watchPeer w).calls ++
      (match (GetDeviceByAddress (ps.foldl watchPeer w).store (IPString allowed.IP)).1 with
       | .ok _ =>
         [(Call.GetDeviceByAddress (IPString allowed.IP), (ps.foldl watchPeer w).kernel),
           (Call.UpdateDeviceEndpoint (IPString allowed.IP) p.Endpoint,
             (ps.foldl watchPeer w).kernel),
           (Call.Deauthenticate (IPString allowed.IP), (ps.foldl watchPeer w).kernel)]
       | .error _ =>
         [(Call.GetDeviceByAddress (IPString allowed.IP), (ps.foldl watchPeer w).kernel),
           (Call.Deauthenticate (IPString allowed.IP), (ps.foldl watchPeer w).kernel)])
      ++ rest) ∧
    ((Deauthenticate (ps.foldl watchPeer w).kernel (IPString allowed.IP)).1 = none →
      ∀ (cfg : Config) (now : Nat),
        isAuthed (watchPeer (ps.foldl watchPeer w) p).kernel cfg now (IPString allowed.IP)
          = false) := by
  have hs1 : (ps.foldl watchPeer w).startup = false := by
    rw [foldl_watchPeer_startup, hs]
  obtain ⟨hcalls, hker⟩ := watchPeer_step (ps.foldl watchPeer w) p allowed hs1 hp hc
  constructor
  · obtain ⟨rest, hrest⟩ := foldl_watchPeer_calls qs (watchPeer (ps.foldl watchPeer w) p)
    refine ⟨rest, ?_⟩
    have : (watcherTick w (ps ++ p :: qs)).calls
        = (qs.foldl watchPeer (watchPeer (ps.foldl watchPeer w) p)).calls := by
      simp [watcherTick, List.foldl_append]
    rw [this, hrest, hcalls]
  · intro hok cfg now
    rw [hker]
    rcases hd : Deauthenticate (ps.foldl watchPeer w).kernel (IPString allowed.IP) with ⟨r, k1⟩
    rw [hd] at hok
    simp only at hok
    subst hok
    obtain ⟨key, e, hk, _, hx⟩ := Deauthenticate_ok hd
    refine isAuthed_false_of_expiry_zero k1 cfg now _
      { e with lastPacketTime := 0, sessionExpiry := 0 } ?_ rfl
    simp only [deviceOf, hk, hx]
    exact KMap.get_put_self _ _ _

/-- C7, witness: the roaming peer of the installation is deauthenticated by
the step that sees its new endpoint. -/
theorem watcherTick_endpoint_change_witness :
    roamWatcher.startup = false ∧
    cacheGet roamWatcher.cache (IPString [192, 0, 2, 5]) ≠ UDPAddrString roamPeer.Endpoint ∧
    isAuthed (watchPeer roamWatcher roamPeer).kernel (exampleConfig (-1) (-1)) 150
      (IPString [192, 0, 2, 5]) = false :=
  ⟨rfl, by decide!,
   (watcherTick_endpoint_change roamWatcher [] [] roamPeer
      { IP := [192, 0, 2, 5], Mask := [255, 255, 255, 255] } rfl rfl (by decide!)).2
      (by decide!) _ _⟩

/-- C8, counterexample.  Refreshing `alice` with the route lists she already
has goes through a state in which `public_table` refers to an empty inner
trie: there a lookup of `10.0.0.7` fails, although the trie before the call
and the trie after it both match. -/
theorem refreshUserAcls_exposes_empty_trie :
    innerIDsAllocated exampleKernel.xdpObjects ∧
    (exampleConfig 1 1).GetEffectiveAcl "alice"
      = { Allow := ["10.0.0.0/24"], Mfa := ["10.1.0.0/16"] } ∧
    routeLookup exampleKernel.xdpObjects .PublicTable (sha1Sum "alice") [10, 0, 0, 7]
      = some true ∧
    routeLookup (refreshUserAcls exampleKernel (exampleConfig 1 1) "alice").2.xdpObjects
      .PublicTable (sha1Sum "alice") [10, 0, 0, 7] = some true ∧
    ∃ o1 ∈ (refreshUserAcls exampleKernel (exampleConfig 1 1) "alice").2.history,
      tableTrie o1 .PublicTable (sha1Sum "alice") = some [] ∧
      routeLookup o1 .PublicTable (sha1Sum "alice") [10, 0, 0, 7] = some false := by
  decide!

/-- C8 (as amended).  On a state whose outer tables hold allocated inner map
IDs, in every state `refreshUserAcls(u)` goes through (after each of its map
writes), `public_table[u]` and `mfa_table[u]` each refer either to the trie
they referred to before the call or to the fresh trie holding the first `m`
entries of the new list, for some `m` from 0 on: the fresh trie is put in the
outer table empty and filled afterwards. -/
theorem refreshUserAcls_intermediate (k : Kernel) (cfg : Config) (u : String)
    (h : innerIDsAllocated k.xdpObjects) :
    ∃ hs, (refreshUserAcls k cfg u).2.history = k.history ++ hs ∧
      ∀ o1 ∈ hs,
        (tableTrie o1 .PublicTable (sha1Sum u)
            = tableTrie k.xdpObjects .PublicTable (sha1Sum u) ∨
          ∃ m, tableTrie o1 .PublicTable (sha1Sum u)
            = some (routeKeys ((cfg.GetEffectiveAcl u).Allow.take m))) ∧
        (tableTrie o1 .MfaTable (sha1Sum u)
            = tableTrie k.xdpObjects .MfaTable (sha1Sum u) ∨
          ∃ m, tableTrie o1 .MfaTable (sha1Sum u)
            = some (routeKeys ((cfg.GetEffectiveAcl u).Mfa.take m))) := by
  obtain ⟨hs, h1, h2⟩ := refreshUserAcls_stages k cfg u h
  exact ⟨hs, h1, fun o1 ho1 => h2 o1 (Or.inl ho1)⟩

/-- C8, witness: the states a refresh of `alice` goes through. -/
theorem refreshUserAcls_intermediate_witness :
    innerIDsAllocated exampleKernel.xdpObjects ∧
    ∃ hs, (refreshUserAcls exampleKernel (exampleConfig 1 1) "alice").2.history
        = exampleKernel.history ++ hs ∧
      ∀ o1 ∈ hs,
        (tableTrie o1 .PublicTable (sha1Sum "alice")
            = tableTrie exampleKernel.xdpObjects .PublicTable (sha1Sum "alice") ∨
          ∃ m, tableTrie o1 .PublicTable (sha1Sum "alice")
            = some (routeKeys (((exampleConfig 1 1).GetEffectiveAcl "alice").Allow.take m))) ∧
        (tableTrie o1 .MfaTable (sha1Sum "alice")
            = tableTrie exampleKernel.xdpObjects .MfaTable (sha1Sum "alice") ∨
          ∃ m, tableTrie o1 .MfaTable (sha1Sum "alice")
            = some (routeKeys (((exampleConfig 1 1).GetEffectiveAcl "alice").Mfa.take m))) :=
  ⟨by decide!,
   refreshUserAcls_intermediate exampleKernel (exampleConfig 1 1) "alice" (by decide!)⟩

/-- C9, counterexample.  With a public list whose second entry does not parse,
`refreshUserAcls` returns that parse error, and both outer tables already
refer to new inner maps: `public_table` to the partly filled one, `mfa_table`
to the completely rebuilt one. -/
theorem refreshUserAcls_error_after_replacement :
    innerIDsAllocated exampleKernel.xdpObjects ∧
    (refreshUserAcls exampleKernel brokenAclConfig "alice").1
      = some "could not parse ip from input: bogus" ∧
    KMap.get exampleKernel.xdpObjects.PublicTable (sha1Sum "alice") = some 1 ∧
    KMap.get exampleKernel.xdpObjects.MfaTable (sha1Sum "alice") = some 2 ∧
    KMap.get (refreshUserAcls exampleKernel brokenAclConfig "alice").2.xdpObjects.PublicTable
      (sha1Sum "alice") = some 3 ∧
    KMap.get (refreshUserAcls exampleKernel brokenAclConfig "alice").2.xdpObjects.MfaTable
      (sha1Sum "alice") = some 4 := by
  decide!

/-- C9 (as amended).  On a state whose outer tables hold allocated inner map
IDs: `refreshUserAcls(u)` returns `nil` only if both tables refer to tries
holding exactly the new `Allow` and `Mfa` entries, all of which are valid
routes; whatever it returns, each table refers afterwards either to the trie
it referred to before or to a fresh trie holding the first entries of its new
list, so an error can come with one or both tries replaced; and the error
returned is that of the public side when it failed, else that of the MFA
side. -/
theorem refreshUserAcls_replacement (k : Kernel) (cfg : Config) (u : String)
    (h : innerIDsAllocated k.xdpObjects) :
    ((refreshUserAcls k cfg u).1 = none →
      tableTrie (refreshUserAcls k cfg u).2.xdpObjects .PublicTable (sha1Sum u)
        = some (routeKeys (cfg.GetEffectiveAcl u).Allow) ∧
      tableTrie (refreshUserAcls k cfg u).2.xdpObjects .MfaTable (sha1Sum u)
        = some (routeKeys (cfg.GetEffectiveAcl u).Mfa) ∧
      (∀ r ∈ (cfg.GetEffectiveAcl u).Allow, validRoute r) ∧
      (∀ r ∈ (cfg.GetEffectiveAcl u).Mfa, validRoute r)) ∧
    ((tableTrie (refreshUserAcls k cfg u).2.xdpObjects .PublicTable (sha1Sum u)
        = tableTrie k.xdpObjects .PublicTable (sha1Sum u) ∨
      ∃ m, tableTrie (refreshUserAcls k cfg u).2.xdpObjects .PublicTable (sha1Sum u)
        = some (routeKeys ((cfg.GetEffectiveAcl u).Allow.take m))) ∧
     (tableTrie (refreshUserAcls k cfg u).2.xdpObjects .MfaTable (sha1Sum u)
        = tableTrie k.xdpObjects .MfaTable (sha1Sum u) ∨
      ∃ m, tableTrie (refreshUserAcls k cfg u).2.xdpObjects .MfaTable (sha1Sum u)
        = some (routeKeys ((cfg.GetEffectiveAcl u).Mfa.take m)))) ∧
    (refreshUserAcls k cfg u).1 =
      (match (updateRoutes k u .PublicTable (cfg.GetEffectiveAcl u).Allow).1 with
       | some e => some e
       | none =>
         (updateRoutes (updateRoutes k u .PublicTable (cfg.GetEffectiveAcl u).Allow).2 u
           .MfaTable (cfg.GetEffectiveAcl u).Mfa).1) := by
  have herr : (refreshUserAcls k cfg u).1 =
      (match (updateRoutes k u .PublicTable (cfg.GetEffectiveAcl u).Allow).1 with
       | some e => some e
       | none =>
         (updateRoutes (updateRoutes k u .PublicTable (cfg.GetEffectiveAcl u).Allow).2 u
           .MfaTable (cfg.GetEffectiveAcl u).Mfa).1) := by
    unfold refreshUserAcls
    simp only
    split
    · simp_all
    · split <;> simp_all
  have hfin : (refreshUserAcls k cfg u).2
      = (updateRoutes (updateRoutes k u .PublicTable (cfg.GetEffectiveAcl u).Allow).2 u
          .MfaTable (cfg.GetEffectiveAcl u).Mfa).2 := by
    exact refreshUserAcls_snd k cfg u
  obtain ⟨hs, _, h2⟩ := refreshUserAcls_stages k cfg u h
  refine ⟨?_, h2 _ (Or.inr rfl), herr⟩
  intro hnone
  obtain ⟨_, _, _, a3, a4⟩ :=
    updateRoutes_stages k u .PublicTable (cfg.GetEffectiveAcl u).Allow h
  obtain ⟨_, _, _, b3, b4⟩ :=
    updateRoutes_stages (updateRoutes k u .PublicTable (cfg.GetEffectiveAcl u).Allow).2 u
      .MfaTable (cfg.GetEffectiveAcl u).Mfa a3.1
  rw [herr] at hnone
  cases h1 : (updateRoutes k u .PublicTable (cfg.GetEffectiveAcl u).Allow).1 with
  | some e => simp [h1] at hnone
  | none =>
    simp only [h1] at hnone
    obtain ⟨pa, pv⟩ := a4 h1
    obtain ⟨ma, mv⟩ := b4 hnone
    refine ⟨?_, ?_, pv, mv⟩
    · rw [hfin, b3.2.1 .PublicTable (sha1Sum u) (by decide)]
      exact pa
    · rw [hfin]
      exact ma

/-- C9, witness: a refresh of `alice` with her own lists succeeds and leaves
the public trie holding exactly the new entries. -/
theorem refreshUserAcls_replacement_witness :
    innerIDsAllocated exampleKernel.xdpObjects ∧
    (refreshUserAcls exampleKernel (exampleConfig 1 1) "alice").1 = none ∧
    tableTrie (refreshUserAcls exampleKernel (exampleConfig 1 1) "alice").2.xdpObjects
      .PublicTable (sha1Sum "alice")
      = some (routeKeys ((exampleConfig 1 1).GetEffectiveAcl "alice").Allow) :=
  ⟨by decide!, by decide!,
   ((refreshUserAcls_replacement exampleKernel (exampleConfig 1 1) "alice" (by decide!)).1
      (by decide!)).1⟩

/-- C10, counterexample.  The invariant holds on the installation;
`RemoveUser("alice")` returns no error and leaves her device without a user,
and `SetAuthorized` for a user that was never added returns no error and
leaves the device with an owner that is not in `account_locked`. -/
theorem RemoveUser_breaks_devicesHaveUsers :
    devicesHaveUsers exampleKernel.xdpObjects ∧
    (RemoveUser exampleKernel "alice").1 = Outcome.returned none ∧
    ¬ devicesHaveUsers (RemoveUser exampleKernel "alice").2.xdpObjects ∧
    (SetAuthorized exampleKernel (exampleConfig 1 1) 100 100 "192.0.2.5" "mallory").1 = none ∧
    ¬ devicesHaveUsers
      (SetAuthorized exampleKernel (exampleConfig 1 1) 100 100 "192.0.2.5" "mallory").2.xdpObjects := by
  decide!

/-- C10 (as amended).  "Every entry of `devices` has a `user_id` that is a
key of `account_locked`" is preserved, whatever the outcome, by `AddUser`,
`xdpAddDevice`, `xdpRemoveDevice`, `Deauthenticate` and `RefreshUserAcls`; by
`SetAuthorized` when the user name given is a key of `account_locked`; and by
`RemoveUser` when no device is owned by the user. -/
theorem devicesHaveUsers_preserved (k : Kernel) (cfg : Config)
    (h : devicesHaveUsers k.xdpObjects) :
    (∀ u acls, devicesHaveUsers (AddUser k u acls).2.xdpObjects) ∧
    (∀ u a, devicesHaveUsers (xdpAddDevice k u a).2.xdpObjects) ∧
    (∀ a, devicesHaveUsers (xdpRemoveDevice k a).2.xdpObjects) ∧
    (∀ a, devicesHaveUsers (Deauthenticate k a).2.xdpObjects) ∧
    (∀ u, devicesHaveUsers (refreshUserAcls k cfg u).2.xdpObjects) ∧
    (∀ now1 now2 a u, (KMap.get k.xdpObjects.AccountLocked (sha1Sum u)).isSome = true →
      devicesHaveUsers (SetAuthorized k cfg now1 now2 a u).2.xdpObjects) ∧
    (∀ u, (∀ p ∈ k.xdpObjects.Devices, p.2.user_id ≠ sha1Sum u) →
      devicesHaveUsers (RemoveUser k u).2.xdpObjects) := by
  refine ⟨fun u acls => AddUser_invariant k u acls h, ?_, ?_, ?_,
    fun u => devicesHaveUsers_of_same h (refreshUserAcls_same k cfg u), ?_,
    fun u hno => RemoveUser_invariant k u h hno⟩
  · intro u a
    rcases hr : xdpAddDevice k u a with ⟨r, k'⟩
    cases r with
    | some e => exact devicesHaveUsers_of_eq h (xdpAddDevice_err hr)
    | none =>
      obtain ⟨key, _, _, hu, hx⟩ := xdpAddDevice_ok hr
      exact devicesHaveUsers_put_device h key _ hu (by rw [hx]) (by rw [hx])
  · intro a
    unfold xdpRemoveDevice
    cases ParseIP a with
    | none => exact h
    | some ip =>
      simp only
      rcases Devices.LookupAndDelete_effect k (To4 ip) with he | ⟨key, he⟩
      · exact devicesHaveUsers_of_eq h he
      · exact devicesHaveUsers_delete_device h key (by rw [he]) (by rw [he])
  · intro a
    rcases hr : Deauthenticate k a with ⟨r, k'⟩
    cases r with
    | some e => exact devicesHaveUsers_of_eq h (Deauthenticate_err hr)
    | none =>
      obtain ⟨key, e, _, hg, hx⟩ := Deauthenticate_ok hr
      have hu : (KMap.get k.xdpObjects.AccountLocked e.user_id).isSome = true :=
        h _ (KMap.mem_of_get hg)
      exact devicesHaveUsers_put_device h key
        { e with lastPacketTime := 0, sessionExpiry := 0 } hu (by rw [hx]) (by rw [hx])
  · intro now1 now2 a u hu
    rcases hr : SetAuthorized k cfg now1 now2 a u with ⟨r, k'⟩
    cases r with
    | some e => exact devicesHaveUsers_of_eq h (SetAuthorized_err hr)
    | none =>
      obtain ⟨key, _, _, hx⟩ := SetAuthorized_ok hr
      exact devicesHaveUsers_put_device h key _ hu (by rw [hx]) (by rw [hx])

/-- C10, witness: the invariant holds on the installation, after adding `bob`
and after deauthenticating the device. -/
theorem devicesHaveUsers_preserved_witness :
    devicesHaveUsers exampleKernel.xdpObjects ∧
    devicesHaveUsers (AddUser exampleKernel "bob" ⟨["10.2.0.0/16"], []⟩).2.xdpObjects ∧
    devicesHaveUsers (Deauthenticate exampleKernel "192.0.2.5").2.xdpObjects :=
  ⟨by decide!,
   (devicesHaveUsers_preserved exampleKernel (exampleConfig 1 1) (by decide!)).1 _ _,
   (devicesHaveUsers_preserved exampleKernel (exampleConfig 1 1) (by decide!)).2.2.2.1 _⟩

/-- Deleting a key the map does not hold leaves the map as it is. -/
theorem KMap.delete_of_get_none {κ ν : Type} [DecidableEq κ] (m : KMap κ ν) (k : κ)
    (h : KMap.get m k = none) : KMap.delete m k = m := by
  induction m with
  | nil => rfl
  | cons q m ih =>
    obtain ⟨k1, w⟩ := q
    by_cases hk : k1 = k
    · simp [KMap.get, hk] at h
    · simp only [KMap.get, hk, if_false] at h
      have := ih h
      simp only [KMap.delete] at this ⊢
      rw [List.filter_cons_of_pos (by simpa using hk), this]

/-- C12: `AddUser` for a user whose SHA-1 is already a key of `account_locked`
returns the error `user already exists` and leaves the whole kernel state as
it was: `account_locked`, `public_table`, `mfa_table` and every inner trie. -/
theorem AddUser_existing_user (k : Kernel) (u : String) (acls : Acl)
    (h : (KMap.get k.xdpObjects.AccountLocked (sha1Sum u)).isSome = true) :
    (AddUser k u acls).1 = some "user already exists" ∧ (AddUser k u acls).2 = k := by
  unfold AddUser
  cases hg : KMap.get k.xdpObjects.AccountLocked (sha1Sum u) with
  | none => simp [hg] at h
  | some v => simp [xdpUserExists, AccountLocked.Lookup, hg]

theorem AddUser_existing_user_witness :
    (KMap.get exampleKernel.xdpObjects.AccountLocked (sha1Sum "alice")).isSome = true ∧
    (AddUser exampleKernel "alice" ⟨["10.9.0.0/16"], []⟩).1 = some "user already exists" ∧
    (AddUser exampleKernel "alice" ⟨["10.9.0.0/16"], []⟩).2 = exampleKernel :=
  ⟨by decide!, AddUser_existing_user exampleKernel "alice" _ (by decide!)⟩

/-- The error of a delete of a missing key is recognised as key-missing. -/
theorem Contains_key_missing : Contains ("delete: " ++ ErrKeyNotExist) ErrKeyNotExist = true := by
  decide

/-- C13, as stated, fails: for `bob`, absent from `account_locked`,
`public_table` and `mfa_table`, `RemoveUser` returns the key-missing error of
its first delete; and for `alice`, present in `account_locked` and `mfa_table`
but missing from `public_table`, it returns no error. -/
theorem RemoveUser_absent_user_is_error :
    KMap.get exampleKernel.xdpObjects.AccountLocked (sha1Sum "bob") = none ∧
    KMap.get exampleKernel.xdpObjects.PublicTable (sha1Sum "bob") = none ∧
    KMap.get exampleKernel.xdpObjects.MfaTable (sha1Sum "bob") = none ∧
    (RemoveUser exampleKernel "bob").1
      = Outcome.returned (some "delete: key does not exist") ∧
    KMap.get partialKernel.xdpObjects.AccountLocked (sha1Sum "alice") = some 0 ∧
    KMap.get partialKernel.xdpObjects.PublicTable (sha1Sum "alice") = none ∧
    KMap.get partialKernel.xdpObjects.MfaTable (sha1Sum "alice") = some 2 ∧
    (RemoveUser partialKernel "alice").1 = Outcome.returned none := by
  decide!

/-- A table delete without a kernel fault: the key is gone afterwards, and the
only error is key-missing. -/
theorem Table.Delete_no_fault (k : Kernel) (t : Table) (uid : UserId) (hf : k.faults = []) :
    (Table.Delete k t uid).2.faults = [] ∧
    (Table.Delete k t uid).2.xdpObjects
      = k.xdpObjects.setTable t (KMap.delete (k.xdpObjects.table t) uid) ∧
    ((Table.Delete k t uid).1 = none ∨
      (Table.Delete k t uid).1 = some ("delete: " ++ ErrKeyNotExist)) := by
  unfold Table.Delete Kernel.fault
  rw [hf]
  simp only
  cases hg : KMap.get (k.xdpObjects.table t) uid with
  | none =>
    refine ⟨hf, ?_, Or.inr rfl⟩
    rw [KMap.delete_of_get_none _ _ hg]
    cases t <;> rfl
  | some v => exact ⟨hf, rfl, Or.inl rfl⟩

/-- C13, amended: for a user absent from `account_locked`, `RemoveUser` returns
an error (that of its first delete) and leaves the maps unchanged; for a user
present in `account_locked`, when no system call fails, it returns no error
whether or not `public_table` and `mfa_table` hold the user, and the user is
gone from the three maps afterwards. -/
theorem RemoveUser_missing_keys (k : Kernel) (u : String) :
    (KMap.get k.xdpObjects.AccountLocked (sha1Sum u) = none →
      (∃ e, (RemoveUser k u).1 = Outcome.returned (some e)) ∧
      (RemoveUser k u).2.xdpObjects = k.xdpObjects) ∧
    (k.faults = [] → (KMap.get k.xdpObjects.AccountLocked (sha1Sum u)).isSome = true →
      (RemoveUser k u).1 = Outcome.returned none ∧
      (RemoveUser k u).2.xdpObjects =
        { k.xdpObjects with
          AccountLocked := KMap.delete k.xdpObjects.AccountLocked (sha1Sum u)
          PublicTable := KMap.delete k.xdpObjects.PublicTable (sha1Sum u)
          MfaTable := KMap.delete k.xdpObjects.MfaTable (sha1Sum u) }) := by
  constructor
  · intro hnone
    have hx := Kernel.fault_xdpObjects k
    unfold RemoveUser AccountLocked.Delete
    rcases hf : k.fault with ⟨f, k1⟩
    rw [hf] at hx
    simp only at hx
    cases f with
    | some e => exact ⟨⟨_, rfl⟩, hx⟩
    | none =>
      simp only [hx, hnone]
      exact ⟨⟨_, rfl⟩, trivial⟩
  · intro hf hsome
    cases hg : KMap.get k.xdpObjects.AccountLocked (sha1Sum u) with
    | none => simp [hg] at hsome
    | some v =>
      have h1 : AccountLocked.Delete k (sha1Sum u)
          = (none, k.write { k.xdpObjects with
              AccountLocked := KMap.delete k.xdpObjects.AccountLocked (sha1Sum u) }) := by
        unfold AccountLocked.Delete Kernel.fault
        rw [hf]
        simp [hg]
      obtain ⟨f2, x2, e2⟩ := Table.Delete_no_fault
        (k.write { k.xdpObjects with
              AccountLocked := KMap.delete k.xdpObjects.AccountLocked (sha1Sum u) })
        .PublicTable (sha1Sum u) (by simp [Kernel.write, hf])
      rcases hd2 : Table.Delete
        (k.write { k.xdpObjects with
              AccountLocked := KMap.delete k.xdpObjects.AccountLocked (sha1Sum u) })
        .PublicTable (sha1Sum u) with ⟨r2, k2⟩
      rw [hd2] at f2 x2 e2
      simp only at f2 x2 e2
      obtain ⟨f3, x3, e3⟩ := Table.Delete_no_fault k2 .MfaTable (sha1Sum u) f2
      rcases hd3 : Table.Delete k2 .MfaTable (sha1Sum u) with ⟨r3, k3⟩
      rw [hd3] at f3 x3 e3
      simp only at f3 x3 e3
      unfold RemoveUser
      simp only [h1, hd2, hd3]
      have hstate : k3.xdpObjects =
        { k.xdpObjects with
          AccountLocked := KMap.delete k.xdpObjects.AccountLocked (sha1Sum u)
          PublicTable := KMap.delete k.xdpObjects.PublicTable (sha1Sum u)
          MfaTable := KMap.delete k.xdpObjects.MfaTable (sha1Sum u) } := by
        rw [x3, x2]
        simp [Kernel.write, bpfObjects.setTable, bpfObjects.table]
      rcases e2 with e2 | e2 <;> rcases e3 with e3 | e3 <;> subst e2 <;> subst e3 <;>
        simp [errorString, Contains_key_missing, hstate]

theorem RemoveUser_missing_keys_witness :
    KMap.get exampleKernel.xdpObjects.AccountLocked (sha1Sum "bob") = none ∧
    (∃ e, (RemoveUser exampleKernel "bob").1 = Outcome.returned (some e)) ∧
    (RemoveUser exampleKernel "bob").2.xdpObjects = exampleKernel.xdpObjects :=
  ⟨by decide!, (RemoveUser_missing_keys exampleKernel "bob").1 (by decide!)⟩

/-- C14: the code at the failing inputs.  When the `public_table` delete of
`RemoveUser`, or its `mfa_table` delete, fails with `EIO`, the call does not
return an error: it panics on the `nil` error it dereferences. -/
theorem RemoveUser_panics_on_table_error :
    (RemoveUser faultyKernel "alice").1
      = Outcome.panicked "runtime error: invalid memory address or nil pointer dereference" ∧
    (RemoveUser faultyKernel3 "alice").1
      = Outcome.panicked "runtime error: invalid memory address or nil pointer dereference" := by
  decide!

/-- A successful `addMapTo` leaves the table referring to a fresh, empty trie. -/
theorem addMapTo_ok (k : Kernel) (uid : UserId) (table : Table)
    (h : (addMapTo k uid table).1 = none) :
    (addMapTo k uid table).2.xdpObjects = k.xdpObjects.replaced table uid [] := by
  unfold addMapTo at h ⊢
  split at h
  · simp at h
  · rename_i inner k1 hn
    split at h
    · simp at h
    · rename_i k2 hp
      rcases NewMap_cases k with ⟨e, he, -⟩ | ⟨hok, hx, -⟩
      · rw [hn] at he
        simp at he
      · rw [hn] at hok hx
        simp only [Except.ok.injEq] at hok hx
        subst hok
        rcases Table.Put_cases k1 table uid k.xdpObjects.nextID with ⟨e, he, -⟩ | ⟨-, hx2, -⟩
        · rw [hp] at he
          simp at he
        · rw [hp] at hx2
          rw [(Close_eq k2).1, hx2, hx, bpfObjects.replaced_nil]

/-- A successful `AccountLocked.Put` stores the value. -/
theorem AccountLocked.Put_stores (k : Kernel) (uid : UserId) (v : Nat)
    (h : (AccountLocked.Put k uid v).1 = none) :
    (AccountLocked.Put k uid v).2.xdpObjects
      = { k.xdpObjects with AccountLocked := KMap.put k.xdpObjects.AccountLocked uid v } := by
  have hx := Kernel.fault_xdpObjects k
  unfold AccountLocked.Put at h ⊢
  rcases hf : k.fault with ⟨f, k1⟩
  rw [hf] at hx
  cases f <;> simp_all [Kernel.write]

/-- The fields of the maps after a table entry was replaced. -/
theorem bpfObjects.replaced_fields (o : bpfObjects) (table : Table) (uid : UserId) (t : Trie) :
    (o.replaced table uid t).table table = KMap.put (o.table table) uid o.nextID ∧
    (∀ t1, t1 ≠ table → (o.replaced table uid t).table t1 = o.table t1) ∧
    (o.replaced table uid t).innerMaps = KMap.put o.innerMaps o.nextID t ∧
    (o.replaced table uid t).nextID = o.nextID + 1 ∧
    (o.replaced table uid t).AccountLocked = o.AccountLocked := by
  cases table
  all_goals
    refine ⟨rfl, ?_, ?_, rfl, rfl⟩
    · intro t1 h1
      cases t1 <;> first | rfl | exact absurd rfl h1
    · simp [bpfObjects.replaced, bpfObjects.withTrie, bpfObjects.allocated,
        bpfObjects.setTable, KMap.put_put]

/-- A bare address parses to a key of prefix length 32. -/
theorem parseIP_bare (r : String) (ip : IP) (hc : ParseCIDR (TrimSpace r) = none)
    (hp : ParseIP (TrimSpace r) = some ip) :
    parseIP r = .ok { Prefixlen := 32, IP := ip } := by
  simp [parseIP, hc, hp]

/-- A successful `AddUser` went through each of its five steps without error. -/
theorem AddUser_steps (k : Kernel) (username : String) (acls : Acl)
    (h : (AddUser k username acls).1 = none) :
    ∃ k1 k2 k3 k4 k5, (∃ e, xdpUserExists k (sha1Sum username) = some e) ∧
      AccountLocked.Put k (sha1Sum username) 0 = (none, k1) ∧
      addMapTo k1 (sha1Sum username) .PublicTable = (none, k2) ∧
      addMapTo k2 (sha1Sum username) .MfaTable = (none, k3) ∧
      xdpAddRoute k3 username .MfaTable acls.Mfa = (none, k4) ∧
      xdpAddRoute k4 username .PublicTable acls.Allow = (none, k5) ∧
      AddUser k username acls = (none, k5) := by
  unfold AddUser at h
  simp only at h
  split at h
  · simp at h
  · rename_i e0 he0
    split at h
    · simp at h
    · rename_i k1 h1
      split at h
      · simp at h
      · rename_i k2 h2
        split at h
        · simp at h
        · rename_i k3 h3
          split at h
          · simp at h
          · rename_i k4 h4
            split at h
            · simp at h
            · rename_i k5 h5
              refine ⟨k1, k2, k3, k4, k5, ⟨e0, he0⟩, h1, h2, h3, h4, h5, ?_⟩
              unfold AddUser
              simp only [he0, h1, h2, h3, h4, h5]

/-- After `AddUser` returned no error: the user was absent before, is in
`account_locked` with the value 0, both outer tables refer for the user to the
trie of its route list, and every listed route is valid. -/
theorem AddUser_tries (k : Kernel) (username : String) (acls : Acl)
    (h : (AddUser k username acls).1 = none) :
    KMap.get k.xdpObjects.AccountLocked (sha1Sum username) = none ∧
    KMap.get (AddUser k username acls).2.xdpObjects.AccountLocked (sha1Sum username) = some 0 ∧
    tableTrie (AddUser k username acls).2.xdpObjects .PublicTable (sha1Sum username)
      = some (routeKeys acls.Allow) ∧
    tableTrie (AddUser k username acls).2.xdpObjects .MfaTable (sha1Sum username)
      = some (routeKeys acls.Mfa) ∧
    (∀ r ∈ acls.Allow, validRoute r) ∧ (∀ r ∈ acls.Mfa, validRoute r) ∧
    (∀ r ip, ParseCIDR (TrimSpace r) = none → ParseIP (TrimSpace r) = some ip →
      parseIP r = .ok { Prefixlen := 32, IP := ip }) := by
  obtain ⟨k1, k2, k3, k4, k5, ⟨e0, hu⟩, e1, e2, e3, e4, e5, hfin⟩ := AddUser_steps k username acls h
  rw [hfin]
  simp only
  have habs : KMap.get k.xdpObjects.AccountLocked (sha1Sum username) = none := by
    unfold xdpUserExists AccountLocked.Lookup at hu
    cases hg : KMap.get k.xdpObjects.AccountLocked (sha1Sum username) with
    | none => rfl
    | some v => simp [hg] at hu
  have h1 := AccountLocked.Put_stores k (sha1Sum username) 0 (by rw [e1])
  rw [e1] at h1
  simp only at h1
  have h2 := addMapTo_ok k1 (sha1Sum username) .PublicTable (by rw [e2])
  rw [e2] at h2
  simp only at h2
  have h3 := addMapTo_ok k2 (sha1Sum username) .MfaTable (by rw [e3])
  rw [e3] at h3
  simp only at h3
  obtain ⟨p2a, p2b, p2c, p2d, p2e⟩ :=
    bpfObjects.replaced_fields k1.xdpObjects .PublicTable (sha1Sum username) []
  obtain ⟨p3a, p3b, p3c, p3d, p3e⟩ :=
    bpfObjects.replaced_fields k2.xdpObjects .MfaTable (sha1Sum username) []
  rw [← h2] at p2a p2b p2c p2d p2e
  rw [← h3] at p3a p3b p3c p3d p3e
  have hT3 : KMap.get (k3.xdpObjects.table .MfaTable) (sha1Sum username)
      = some k2.xdpObjects.nextID := by rw [p3a, KMap.get_put_self]
  have hg3 : KMap.get k3.xdpObjects.innerMaps k2.xdpObjects.nextID = some [] := by
    rw [p3c, KMap.get_put_self]
  obtain ⟨hs4, n4, -, -, x4, ok4⟩ :=
    xdpAddRoute_spec k3 username .MfaTable acls.Mfa k2.xdpObjects.nextID [] hT3 hg3
  rw [e4] at x4 ok4
  simp only at x4 ok4
  obtain ⟨hn4, hv4⟩ := ok4 trivial
  subst hn4
  rw [List.take_length] at x4
  have hne : k1.xdpObjects.nextID ≠ k2.xdpObjects.nextID := by rw [p2d]; omega
  have hT4 : KMap.get (k4.xdpObjects.table .PublicTable) (sha1Sum username)
      = some k1.xdpObjects.nextID := by
    rw [x4]
    show KMap.get (k3.xdpObjects.table .PublicTable) (sha1Sum username) = _
    rw [p3b _ (by decide), p2a, KMap.get_put_self]
  have hg4 : KMap.get k4.xdpObjects.innerMaps k1.xdpObjects.nextID = some [] := by
    rw [x4]
    show KMap.get (KMap.put k3.xdpObjects.innerMaps _ _) _ = _
    rw [KMap.get_put_of_ne _ _ _ _ hne, p3c, KMap.get_put_of_ne _ _ _ _ hne, p2c,
      KMap.get_put_self]
  obtain ⟨hs5, n5, -, -, x5, ok5⟩ :=
    xdpAddRoute_spec k4 username .PublicTable acls.Allow k1.xdpObjects.nextID [] hT4 hg4
  rw [e5] at x5 ok5
  simp only at x5 ok5
  obtain ⟨hn5, hv5⟩ := ok5 trivial
  subst hn5
  rw [List.take_length] at x5
  refine ⟨habs, ?_, ?_, ?_, hv5, hv4, parseIP_bare⟩
  · rw [x5, x4]
    show KMap.get k3.xdpObjects.AccountLocked _ = _
    rw [p3e, p2e, h1]
    exact KMap.get_put_self _ _ _
  · have hT5 : KMap.get (k5.xdpObjects.table .PublicTable) (sha1Sum username)
        = some k1.xdpObjects.nextID := by
      rw [x5]
      exact hT4
    unfold tableTrie
    rw [hT5]
    simp only
    rw [x5]
    show KMap.get (KMap.put k4.xdpObjects.innerMaps _ _) _ = _
    rw [KMap.get_put_self]
    rfl
  · have hT5 : KMap.get (k5.xdpObjects.table .MfaTable) (sha1Sum username)
        = some k2.xdpObjects.nextID := by
      rw [x5, x4]
      exact hT3
    unfold tableTrie
    rw [hT5]
    simp only
    rw [x5, x4]
    show KMap.get (KMap.put (KMap.put k3.xdpObjects.innerMaps _ _) _ _) _ = _
    rw [KMap.get_put_of_ne _ _ _ _ hne.symm, KMap.get_put_self]
    rfl

/-- The bitwise and of a byte with a mask byte keeps the leading bits. -/
theorem land_maskByte : ∀ x < 256, ∀ j < 9,
    x &&& (0xff - 0xff >>> j) = x / 2 ^ (8 - j) * 2 ^ (8 - j) := by
  decide!

/-- The four bytes of an IPv4 mask. -/
theorem CIDRMask_32 (ones : Nat) :
    CIDRMask ones 32
      = [if 8 ≤ ones then 0xff else 0xff - 0xff >>> ones,
         if 8 ≤ ones - 8 then 0xff else 0xff - 0xff >>> (ones - 8),
         if 8 ≤ ones - 16 then 0xff else 0xff - 0xff >>> (ones - 16),
         if 8 ≤ ones - 24 then 0xff else 0xff - 0xff >>> (ones - 24)] := by
  simp [CIDRMask, List.range_succ]

theorem Contains_v4 (n0 n1 n2 n3 x0 x1 x2 x3 m0 m1 m2 m3 : Nat) :
    IPNet.Contains ⟨[n0, n1, n2, n3], [m0, m1, m2, m3]⟩ (v4InV6 [x0, x1, x2, x3])
      = (n0 &&& m0 == x0 &&& m0 && n1 &&& m1 == x1 &&& m1 && n2 &&& m2 == x2 &&& m2
          && n3 &&& m3 == x3 &&& m3) := by
  simp [IPNet.Contains, networkNumberAndMask, To4, v4InV6, List.range_succ, Bool.and_assoc]

/-- The value of a mask byte with `j` leading ones on a byte. -/
theorem land_maskByte_if (x j : Nat) (hx : x < 256) :
    x &&& (if 8 ≤ j then 0xff else 0xff - 0xff >>> j) = x / 2 ^ (8 - j) * 2 ^ (8 - j) := by
  by_cases h : 8 ≤ j
  · have h8 : 8 - j = 0 := by omega
    rw [if_pos h, h8]
    have := land_maskByte x hx 8 (by decide)
    simpa using this
  · rw [if_neg h]
    exact land_maskByte x hx j (by omega)

/-- Dividing a number by a divisor of 256 compares its upper part and the
upper bits of its last byte. -/
theorem div_byte_eq_iff (d e P Q a b : Nat) (hde : d * e = 256) (ha : a < 256) (hb : b < 256) :
    (P * 256 + a) / d = (Q * 256 + b) / d ↔ P = Q ∧ a / d = b / d := by
  have hd : 0 < d := by
    rcases Nat.eq_zero_or_pos d with h | h
    · rw [h] at hde; simp at hde
    · exact h
  have he : 0 < e := by
    rcases Nat.eq_zero_or_pos e with h | h
    · rw [h] at hde; simp at hde
    · exact h
  have h1 : ∀ R c, (R * 256 + c) / d = c / d + R * e := by
    intro R c
    have : R * 256 + c = c + R * e * d := by rw [← hde]; ring
    rw [this, Nat.add_mul_div_right _ _ hd]
  have h2 : ∀ c, c < 256 → c / d < e := by
    intro c hc
    apply Nat.div_lt_of_lt_mul
    rw [hde]; exact hc
  rw [h1, h1]
  constructor
  · intro h
    have hP : (a / d + P * e) / e = P := by
      rw [Nat.add_mul_div_right _ _ he, Nat.div_eq_of_lt (h2 a ha)]; simp
    have hQ : (b / d + Q * e) / e = Q := by
      rw [Nat.add_mul_div_right _ _ he, Nat.div_eq_of_lt (h2 b hb)]; simp
    have hPQ : P = Q := by rw [← hP, ← hQ, h]
    subst hPQ
    exact ⟨rfl, by omega⟩
  · rintro ⟨rfl, h⟩
    rw [h]

/-- Equal multiples of the upper bits are equal upper bits. -/
theorem div_mul_eq_iff (d a b : Nat) (hd : 0 < d) : a / d * d = b / d * d ↔ a / d = b / d :=
  ⟨fun h => Nat.eq_of_mul_eq_mul_right hd h, fun h => by rw [h]⟩

/-- The first byte decides the quotient by a divisor of `2 ^ 32` above `2 ^ 24`. -/
theorem prefix_byte0 (d e n0 n1 n2 n3 x0 x1 x2 x3 : Nat) (hde : d * e = 256)
    (hn0 : n0 < 256) (_hn1 : n1 < 256) (_hn2 : n2 < 256) (_hn3 : n3 < 256)
    (hx0 : x0 < 256) (_hx1 : x1 < 256) (_hx2 : x2 < 256) (_hx3 : x3 < 256) :
    (x0 * 16777216 + x1 * 65536 + x2 * 256 + x3) / (16777216 * d)
      = (n0 * 16777216 + n1 * 65536 + n2 * 256 + n3) / (16777216 * d) ↔ x0 / d = n0 / d := by
  rw [← Nat.div_div_eq_div_mul, ← Nat.div_div_eq_div_mul]
  have hX : (x0 * 16777216 + x1 * 65536 + x2 * 256 + x3) / 16777216 = 0 * 256 + x0 := by omega
  have hN : (n0 * 16777216 + n1 * 65536 + n2 * 256 + n3) / 16777216 = 0 * 256 + n0 := by omega
  rw [hX, hN, div_byte_eq_iff d e _ _ _ _ hde hx0 hn0]
  simp

/-- The first two bytes decide the quotient by a divisor between `2 ^ 16` and `2 ^ 24`. -/
theorem prefix_byte1 (d e n0 n1 n2 n3 x0 x1 x2 x3 : Nat) (hde : d * e = 256)
    (_hn0 : n0 < 256) (hn1 : n1 < 256) (_hn2 : n2 < 256) (_hn3 : n3 < 256)
    (_hx0 : x0 < 256) (hx1 : x1 < 256) (_hx2 : x2 < 256) (_hx3 : x3 < 256) :
    (x0 * 16777216 + x1 * 65536 + x2 * 256 + x3) / (65536 * d)
      = (n0 * 16777216 + n1 * 65536 + n2 * 256 + n3) / (65536 * d)
      ↔ x0 = n0 ∧ x1 / d = n1 / d := by
  rw [← Nat.div_div_eq_div_mul, ← Nat.div_div_eq_div_mul]
  have hX : (x0 * 16777216 + x1 * 65536 + x2 * 256 + x3) / 65536 = x0 * 256 + x1 := by omega
  have hN : (n0 * 16777216 + n1 * 65536 + n2 * 256 + n3) / 65536 = n0 * 256 + n1 := by omega
  rw [hX, hN, div_byte_eq_iff d e _ _ _ _ hde hx1 hn1]

/-- The first three bytes decide the quotient by a divisor between `2 ^ 8` and `2 ^ 16`. -/
theorem prefix_byte2 (d e n0 n1 n2 n3 x0 x1 x2 x3 : Nat) (hde : d * e = 256)
    (_hn0 : n0 < 256) (_hn1 : n1 < 256) (hn2 : n2 < 256) (_hn3 : n3 < 256)
    (_hx0 : x0 < 256) (_hx1 : x1 < 256) (hx2 : x2 < 256) (_hx3 : x3 < 256) :
    (x0 * 16777216 + x1 * 65536 + x2 * 256 + x3) / (256 * d)
      = (n0 * 16777216 + n1 * 65536 + n2 * 256 + n3) / (256 * d)
      ↔ (x0 = n0 ∧ x1 = n1) ∧ x2 / d = n2 / d := by
  rw [← Nat.div_div_eq_div_mul, ← Nat.div_div_eq_div_mul]
  have hX : (x0 * 16777216 + x1 * 65536 + x2 * 256 + x3) / 256
      = (x0 * 256 + x1) * 256 + x2 := by omega
  have hN : (n0 * 16777216 + n1 * 65536 + n2 * 256 + n3) / 256
      = (n0 * 256 + n1) * 256 + n2 := by omega
  rw [hX, hN, div_byte_eq_iff d e _ _ _ _ hde hx2 hn2]
  constructor
  · rintro ⟨h1, h2⟩
    exact ⟨by omega, h2⟩
  · rintro ⟨⟨h1, h2⟩, h3⟩
    exact ⟨by omega, h3⟩

/-- All four bytes decide the quotient by a divisor of 256. -/
theorem prefix_byte3 (d e n0 n1 n2 n3 x0 x1 x2 x3 : Nat) (hde : d * e = 256)
    (_hn0 : n0 < 256) (hn1 : n1 < 256) (hn2 : n2 < 256) (hn3 : n3 < 256)
    (_hx0 : x0 < 256) (hx1 : x1 < 256) (hx2 : x2 < 256) (hx3 : x3 < 256) :
    (x0 * 16777216 + x1 * 65536 + x2 * 256 + x3) / d
      = (n0 * 16777216 + n1 * 65536 + n2 * 256 + n3) / d
      ↔ ((x0 = n0 ∧ x1 = n1) ∧ x2 = n2) ∧ x3 / d = n3 / d := by
  have hX : x0 * 16777216 + x1 * 65536 + x2 * 256 + x3
      = ((x0 * 256 + x1) * 256 + x2) * 256 + x3 := by omega
  have hN : n0 * 16777216 + n1 * 65536 + n2 * 256 + n3
      = ((n0 * 256 + n1) * 256 + n2) * 256 + n3 := by omega
  rw [hX, hN, div_byte_eq_iff d e _ _ _ _ hde hx3 hn3]
  constructor
  · rintro ⟨h1, h2⟩
    exact ⟨⟨⟨by omega, by omega⟩, by omega⟩, h2⟩
  · rintro ⟨⟨⟨h1, h2⟩, h3⟩, h4⟩
    exact ⟨by omega, h4⟩

/-- Membership in an IPv4 network, in numbers: the first `ones` bits agree. -/
theorem Contains_iff (n0 n1 n2 n3 x0 x1 x2 x3 ones : Nat)
    (hn0 : n0 < 256) (hn1 : n1 < 256) (hn2 : n2 < 256) (hn3 : n3 < 256)
    (hx0 : x0 < 256) (hx1 : x1 < 256) (hx2 : x2 < 256) (hx3 : x3 < 256) (ho : ones ≤ 32) :
    IPNet.Contains ⟨[n0, n1, n2, n3], CIDRMask ones 32⟩ (v4InV6 [x0, x1, x2, x3]) = true ↔
      addrNat [x0, x1, x2, x3] / 2 ^ (32 - ones) = addrNat [n0, n1, n2, n3] / 2 ^ (32 - ones) := by
  rw [CIDRMask_32, Contains_v4]
  simp only [land_maskByte_if _ _ hn0, land_maskByte_if _ _ hn1, land_maskByte_if _ _ hn2,
    land_maskByte_if _ _ hn3, land_maskByte_if _ _ hx0, land_maskByte_if _ _ hx1,
    land_maskByte_if _ _ hx2, land_maskByte_if _ _ hx3, Bool.and_eq_true, beq_iff_eq]
  have e1 : addrNat [x0, x1, x2, x3] = x0 * 16777216 + x1 * 65536 + x2 * 256 + x3 := by
    simp [addrNat]
  have e2 : addrNat [n0, n1, n2, n3] = n0 * 16777216 + n1 * 65536 + n2 * 256 + n3 := by
    simp [addrNat]
  rw [e1, e2]
  have hde : ∀ r, r ≤ 8 → 2 ^ (8 - r) * 2 ^ r = 256 := by
    intro r hr
    rw [← pow_add, show 8 - r + r = 8 by omega]; norm_num
  have hd : ∀ r, 0 < 2 ^ (8 - r) := fun r => by positivity
  have z : ∀ x y, x < 256 → y < 256 → (x / 2 ^ 8 * 2 ^ 8 = y / 2 ^ 8 * 2 ^ 8 ↔ True) := by
    intro x y hx hy
    rw [Nat.div_eq_of_lt (by simpa using hx), Nat.div_eq_of_lt (by simpa using hy)]; simp
  have o : ∀ x y : Nat, (x / 2 ^ 0 * 2 ^ 0 = y / 2 ^ 0 * 2 ^ 0 ↔ x = y) := by
    intro x y; simp
  by_cases h1 : ones ≤ 8
  · rw [show 8 - (ones - 8) = 8 by omega, show 8 - (ones - 16) = 8 by omega,
      show 8 - (ones - 24) = 8 by omega, show 32 - ones = 24 + (8 - ones) by omega, pow_add,
      z _ _ hn1 hx1, z _ _ hn2 hx2, z _ _ hn3 hx3, div_mul_eq_iff _ _ _ (hd ones)]
    have := prefix_byte0 (2 ^ (8 - ones)) (2 ^ ones) n0 n1 n2 n3 x0 x1 x2 x3 (hde ones h1)
      hn0 hn1 hn2 hn3 hx0 hx1 hx2 hx3
    norm_num at this ⊢
    rw [this]
    exact eq_comm
  · by_cases h2 : ones ≤ 16
    · rw [show 8 - ones = 0 by omega, show 8 - (ones - 16) = 8 by omega,
        show 8 - (ones - 24) = 8 by omega, show 32 - ones = 16 + (8 - (ones - 8)) by omega,
        pow_add, o, z _ _ hn2 hx2, z _ _ hn3 hx3, div_mul_eq_iff _ _ _ (hd (ones - 8))]
      have := prefix_byte1 (2 ^ (8 - (ones - 8))) (2 ^ (ones - 8)) n0 n1 n2 n3 x0 x1 x2 x3
        (hde (ones - 8) (by omega)) hn0 hn1 hn2 hn3 hx0 hx1 hx2 hx3
      norm_num at this ⊢
      rw [this]
      constructor
      · rintro ⟨h1, h2⟩
        exact ⟨h1.symm, h2.symm⟩
      · rintro ⟨h1, h2⟩
        exact ⟨h1.symm, h2.symm⟩
    · by_cases h3 : ones ≤ 24
      · rw [show 8 - ones = 0 by omega, show 8 - (ones - 8) = 0 by omega,
          show 8 - (ones - 24) = 8 by omega, show 32 - ones = 8 + (8 - (ones - 16)) by omega,
          pow_add, o, o, z _ _ hn3 hx3, div_mul_eq_iff _ _ _ (hd (ones - 16))]
        have := prefix_byte2 (2 ^ (8 - (ones - 16))) (2 ^ (ones - 16)) n0 n1 n2 n3 x0 x1 x2 x3
          (hde (ones - 16) (by omega)) hn0 hn1 hn2 hn3 hx0 hx1 hx2 hx3
        norm_num at this ⊢
        rw [this]
        constructor
        · rintro ⟨⟨h1, h2⟩, h3⟩
          exact ⟨⟨h1.symm, h2.symm⟩, h3.symm⟩
        · rintro ⟨⟨h1, h2⟩, h3⟩
          exact ⟨⟨h1.symm, h2.symm⟩, h3.symm⟩
      · rw [show 8 - ones = 0 by omega, show 8 - (ones - 8) = 0 by omega,
          show 8 - (ones - 16) = 0 by omega, show 32 - ones = 8 - (ones - 24) by omega,
          o, o, o, div_mul_eq_iff _ _ _ (hd (ones - 24))]
        have := prefix_byte3 (2 ^ (8 - (ones - 24))) (2 ^ (ones - 24)) n0 n1 n2 n3 x0 x1 x2 x3
          (hde (ones - 24) (by omega)) hn0 hn1 hn2 hn3 hx0 hx1 hx2 hx3
        rw [this]
        constructor
        · rintro ⟨⟨⟨h1, h2⟩, h3⟩, h4⟩
          exact ⟨⟨⟨h1.symm, h2.symm⟩, h3.symm⟩, h4.symm⟩
        · rintro ⟨⟨⟨h1, h2⟩, h3⟩, h4⟩
          exact ⟨⟨⟨h1.symm, h2.symm⟩, h3.symm⟩, h4.symm⟩

/-- The increment loop on an IPv4 address in 16-byte form: the numeric
successor, or, from `255.255.255.255`, the carry into the prefix. -/
theorem incrementLoop_v4 (a0 a1 a2 a3 : Nat)
    (h0 : a0 < 256) (h1 : a1 < 256) (h2 : a2 < 256) (h3 : a3 < 256) :
    (incrementLoop (v4InV6 [a0, a1, a2, a3]).reverse).reverse
      = if addrNat [a0, a1, a2, a3] + 1 < 2 ^ 32
        then v4InV6 (natAddr (addrNat [a0, a1, a2, a3] + 1))
        else [0, 0, 0, 0, 0, 0, 0, 0, 0, 1, 0, 0, 0, 0, 0, 0] := by
  have e : addrNat [a0, a1, a2, a3] = a0 * 16777216 + a1 * 65536 + a2 * 256 + a3 := by
    simp [addrNat]
  rw [e]
  by_cases c3 : a3 = 255
  · by_cases c2 : a2 = 255
    · by_cases c1 : a1 = 255
      · by_cases c0 : a0 = 255
        · subst c3 c2 c1 c0
          decide
        · subst c3 c2 c1
          have hlt : a0 * 16777216 + 255 * 65536 + 255 * 256 + 255 + 1 < 2 ^ 32 := by omega
          rw [if_pos hlt]
          have hm : (a0 + 1) % 256 = a0 + 1 := by omega
          have hne : a0 + 1 ≠ 256 := by omega
          simp [incrementLoop, v4InV6, natAddr, hm]
          omega
      · subst c3 c2
        have hlt : a0 * 16777216 + a1 * 65536 + 255 * 256 + 255 + 1 < 2 ^ 32 := by omega
        rw [if_pos hlt]
        have hm : (a1 + 1) % 256 = a1 + 1 := by omega
        simp [incrementLoop, v4InV6, natAddr, hm]
        omega
    · subst c3
      have hlt : a0 * 16777216 + a1 * 65536 + a2 * 256 + 255 + 1 < 2 ^ 32 := by omega
      rw [if_pos hlt]
      have hm : (a2 + 1) % 256 = a2 + 1 := by omega
      simp [incrementLoop, v4InV6, natAddr, hm]
      omega
  · have hlt : a0 * 16777216 + a1 * 65536 + a2 * 256 + a3 + 1 < 2 ^ 32 := by omega
    rw [if_pos hlt]
    have hm : (a3 + 1) % 256 = a3 + 1 := by omega
    simp [incrementLoop, v4InV6, natAddr, hm]
    omega

/-- The carry out of `255.255.255.255` is in no IPv4 network. -/
theorem Contains_carry (n0 n1 n2 n3 ones : Nat) :
    IPNet.Contains ⟨[n0, n1, n2, n3], CIDRMask ones 32⟩
      [0, 0, 0, 0, 0, 0, 0, 0, 0, 1, 0, 0, 0, 0, 0, 0] = false := by
  rw [CIDRMask_32]
  simp [IPNet.Contains, networkNumberAndMask, To4]

/-- The bytes of a number give the number back. -/
theorem addrNat_natAddr (m : Nat) (h : m < 2 ^ 32) : addrNat (natAddr m) = m := by
  simp only [addrNat, natAddr, List.getD_cons_zero, List.getD_cons_succ]
  omega

/-- An IPv4 address in 16-byte form prints dotted. -/
theorem IPString_v4InV6 (x0 x1 x2 x3 : Nat) :
    IPString (v4InV6 [x0, x1, x2, x3]) = dotted [x0, x1, x2, x3] := by
  simp [IPString, To4, v4InV6]

/-- What `incrementIP` returns for an IPv4 address and an IPv4 network. -/
theorem incrementIP_spec (s c : String) (ip : IP) (a0 a1 a2 a3 n0 n1 n2 n3 ones : Nat)
    (hs : ParseIP s = some (v4InV6 [a0, a1, a2, a3]))
    (h0 : a0 < 256) (h1 : a1 < 256) (h2 : a2 < 256) (h3 : a3 < 256)
    (hc : ParseCIDRNet c = some (ip, ⟨[n0, n1, n2, n3], CIDRMask ones 32⟩))
    (hn0 : n0 < 256) (hn1 : n1 < 256) (hn2 : n2 < 256) (hn3 : n3 < 256) (ho : ones ≤ 32) :
    incrementIP s c =
      if successorInCIDR [a0, a1, a2, a3] [n0, n1, n2, n3] ones
      then (dotted (natAddr (addrNat [a0, a1, a2, a3] + 1)), none)
      else (s, some "overflowed CIDR while incrementing IP") := by
  unfold incrementIP successorInCIDR
  simp only [hs, hc, Option.getD_some]
  rw [incrementLoop_v4 a0 a1 a2 a3 h0 h1 h2 h3]
  by_cases hlt : addrNat [a0, a1, a2, a3] + 1 < 2 ^ 32
  · rw [if_pos hlt]
    have hb : ∀ m : Nat, m % 256 < 256 := fun m => Nat.mod_lt _ (by norm_num)
    have hiff := Contains_iff n0 n1 n2 n3 _ _ _ _ ones hn0 hn1 hn2 hn3
      (hb (((addrNat [a0, a1, a2, a3] + 1)) / 2 ^ 24)) (hb ((addrNat [a0, a1, a2, a3] + 1) / 2 ^ 16))
      (hb ((addrNat [a0, a1, a2, a3] + 1) / 2 ^ 8)) (hb (addrNat [a0, a1, a2, a3] + 1)) ho
    have hnat := addrNat_natAddr _ hlt
    unfold natAddr at hnat
    rw [hnat] at hiff
    unfold natAddr
    by_cases hin : (addrNat [a0, a1, a2, a3] + 1) / 2 ^ (32 - ones)
        = addrNat [n0, n1, n2, n3] / 2 ^ (32 - ones)
    · have hC := hiff.2 hin
      have hcond : addrNat [a0, a1, a2, a3] + 1 < 2 ^ 32 ∧
          (addrNat [a0, a1, a2, a3] + 1) / 2 ^ (32 - ones)
            = addrNat [n0, n1, n2, n3] / 2 ^ (32 - ones) := ⟨hlt, hin⟩
      simp only [hC, hcond, and_self, if_true, Bool.not_true, Bool.false_eq_true, if_false,
        IPString_v4InV6]
    · have hf : IPNet.Contains ⟨[n0, n1, n2, n3], CIDRMask ones 32⟩
          (v4InV6 [(addrNat [a0, a1, a2, a3] + 1) / 2 ^ 24 % 256,
            (addrNat [a0, a1, a2, a3] + 1) / 2 ^ 16 % 256,
            (addrNat [a0, a1, a2, a3] + 1) / 2 ^ 8 % 256,
            (addrNat [a0, a1, a2, a3] + 1) % 256]) = false := by
        cases hC : IPNet.Contains ⟨[n0, n1, n2, n3], CIDRMask ones 32⟩
          (v4InV6 [(addrNat [a0, a1, a2, a3] + 1) / 2 ^ 24 % 256,
            (addrNat [a0, a1, a2, a3] + 1) / 2 ^ 16 % 256,
            (addrNat [a0, a1, a2, a3] + 1) / 2 ^ 8 % 256,
            (addrNat [a0, a1, a2, a3] + 1) % 256]) with
        | false => rfl
        | true => exact absurd (hiff.1 hC) hin
      have hcond : ¬ (addrNat [a0, a1, a2, a3] + 1 < 2 ^ 32 ∧
          (addrNat [a0, a1, a2, a3] + 1) / 2 ^ (32 - ones)
            = addrNat [n0, n1, n2, n3] / 2 ^ (32 - ones)) := fun h => hin h.2
      simp only [hf, hcond, hin, hlt, and_false, and_true, if_true, Bool.not_false, if_false]
  · have hcond : ¬ (addrNat [a0, a1, a2, a3] + 1 < 2 ^ 32 ∧
        (addrNat [a0, a1, a2, a3] + 1) / 2 ^ (32 - ones)
          = addrNat [n0, n1, n2, n3] / 2 ^ (32 - ones)) := fun h => hlt h.1
    simp only [hlt, hcond, Contains_carry, false_and, if_true, Bool.not_false, if_false]

/-- C17, amended: for an IPv4 address `a` (a string `s` that parses to it) and
an IPv4 network `c`: when the numeric successor of `a`, the carry running
across the octets, is an IPv4 address and lies in `c`, `incrementIP` returns
the dotted form of the successor
and no error, and otherwise it returns `s` unchanged with the error
`overflowed CIDR while incrementing IP`; for a CIDR that does not parse it
returns its first argument unchanged with an error; and `utils.IncrementIP`
returns what `router.incrementIP` returns on every input. -/
theorem incrementIP_successor (s c : String) (ip : IP) (a0 a1 a2 a3 n0 n1 n2 n3 ones : Nat)
    (hs : ParseIP s = some (v4InV6 [a0, a1, a2, a3]))
    (h0 : a0 < 256) (h1 : a1 < 256) (h2 : a2 < 256) (h3 : a3 < 256)
    (hc : ParseCIDRNet c = some (ip, ⟨[n0, n1, n2, n3], CIDRMask ones 32⟩))
    (hn0 : n0 < 256) (hn1 : n1 < 256) (hn2 : n2 < 256) (hn3 : n3 < 256) (ho : ones ≤ 32) :
    (incrementIP s c =
      if successorInCIDR [a0, a1, a2, a3] [n0, n1, n2, n3] ones
      then (dotted (natAddr (addrNat [a0, a1, a2, a3] + 1)), none)
      else (s, some "overflowed CIDR while incrementing IP")) ∧
    (∀ s1 c1, ParseCIDRNet c1 = none →
      incrementIP s1 c1 = (s1, some ("invalid CIDR address: " ++ c1))) ∧
    (∀ s1 c1, IncrementIP s1 c1 = incrementIP s1 c1) := by
  refine ⟨incrementIP_spec s c ip a0 a1 a2 a3 n0 n1 n2 n3 ones hs h0 h1 h2 h3 hc
    hn0 hn1 hn2 hn3 ho, ?_, fun _ _ => rfl⟩
  intro s1 c1 h
  simp [incrementIP, h]

theorem incrementIP_successor_witness :
    incrementIP "10.0.0.255" "10.0.0.0/16" = ("10.0.1.0", none) ∧
    incrementIP "10.0.255.255" "10.0.0.0/16"
      = ("10.0.255.255", some "overflowed CIDR while incrementing IP") := by
  have w1 := (incrementIP_successor "10.0.0.255" "10.0.0.0/16" (v4InV6 [10, 0, 0, 0])
    10 0 0 255 10 0 0 0 16 (by decide!) (by decide) (by decide) (by decide) (by decide)
    (by decide!) (by decide) (by decide) (by decide) (by decide) (by decide)).1
  have w2 := (incrementIP_successor "10.0.255.255" "10.0.0.0/16" (v4InV6 [10, 0, 0, 0])
    10 0 255 255 10 0 0 0 16 (by decide!) (by decide) (by decide) (by decide) (by decide)
    (by decide!) (by decide) (by decide) (by decide) (by decide) (by decide)).1
  rw [if_pos (by decide)] at w1
  rw [if_neg (by decide)] at w2
  exact ⟨w1, w2⟩

/-- C15: the code at the failing input.  The peer `192.0.2.5` is found and
removed from the WireGuard device, the removal from the kernel `devices` table
fails with `EIO`, and `RemovePeer` returns `nil` although `xdpRemoveDevice`
returned an error and the entry is still in the table. -/
theorem RemovePeer_hides_kernel_error :
    (xdpRemoveDevice failingKernel "192.0.2.5").1
      = some "remove device failed: removing from devices table failed: lookup and delete: EIO " ∧
    (RemovePeer exampleCtrl failingKernel "192.0.2.5").1 = none ∧
    (RemovePeer exampleCtrl failingKernel "192.0.2.5").2.1.Peers = [] ∧
    (KMap.get (RemovePeer exampleCtrl failingKernel "192.0.2.5").2.2.xdpObjects.Devices
      [192, 0, 2, 5]).isSome = true := by
  decide!

/-- C16, as stated, fails: the device lists the peer `10.0.0.5` before the peer
`10.0.0.2`, and `AddPeer` allocates `10.0.0.3`, the successor of the address
listed last, which is below the allocated address `10.0.0.5`. -/
theorem AddPeer_allocates_below_largest :
    tunnelCtrl.Peers.map peerAddress = ["10.0.0.5", "10.0.0.2"] ∧
    (AddPeer tunnelValues tunnelCtrl tunnelDatabase tunnelKernel "pk3" "alice").1
      = AddPeerOutcome.returned "10.0.0.3" none ∧
    ParseIP4 "10.0.0.3" = some [10, 0, 0, 3] ∧ ParseIP4 "10.0.0.5" = some [10, 0, 0, 5] ∧
    addrNat [10, 0, 0, 3] < addrNat [10, 0, 0, 5] := by
  decide!

/-- C16, amended: for a device that lists at least one peer, each peer with an
allowed address, `AddPeer` does not panic and works from the address `last`
of the peer listed last: when `incrementIP last range` fails, `AddPeer`
returns that error with the empty address and changes neither the peers, nor
the database, nor the kernel maps; and an address that `AddPeer` returns
without error is the address of the `/32` network parsed from the successor
`incrementIP` computed for `last`. -/
theorem AddPeer_allocates_after_last (wg : WireguardValues) (c c1 : WgCtrl) (db : Database)
    (k : Kernel) (pub username last : String)
    (hdev : ctrl.Device c = (.ok c.Peers, c1))
    (hall : ∀ p ∈ c.Peers, p.AllowedIPs ≠ [])
    (hlast : (c.Peers.map peerAddress).getLast? = some last) :
    (∃ a e, (AddPeer wg c db k pub username).1 = AddPeerOutcome.returned a e) ∧
    (∀ e, (incrementIP last wg.Range.String).2 = some e →
      AddPeer wg c db k pub username = (AddPeerOutcome.returned "" (some e), c1, db, k)) ∧
    (∀ addr, (AddPeer wg c db k pub username).1 = AddPeerOutcome.returned addr none →
      (incrementIP last wg.Range.String).2 = none ∧
      ∃ ip network, ParseCIDRNet ((incrementIP last wg.Range.String).1 ++ "/32")
          = some (ip, network) ∧ addr = IPString network.IP) := by
  have hany : c.Peers.any (fun peer => peer.AllowedIPs.isEmpty) = false := by
    rw [List.any_eq_false]
    intro p hp
    have := hall p hp
    simp [List.isEmpty_iff, this]
  unfold AddPeer
  simp only [hdev, hany, hlast, Bool.false_eq_true, if_false]
  rcases hinc : incrementIP last wg.Range.String with ⟨newAddress, err⟩
  cases err with
  | some e =>
    simp
  | none =>
    simp only
    cases hp : ParseCIDRNet (newAddress ++ "/32") with
    | none => simp
    | some pn =>
      obtain ⟨ip, network⟩ := pn
      simp only
      rcases hcr : CreateMFAEntry db newAddress pub username with ⟨r, db1⟩
      cases r with
      | error e => simp
      | ok newDevice =>
        simp only
        rcases hx : xdpAddDevice k newDevice.Username newDevice.Address with ⟨r2, k1⟩
        cases r2 with
        | some e => simp
        | none =>
          simp only
          refine ⟨⟨_, _, rfl⟩, by simp, ?_⟩
          intro addr h
          simp only [AddPeerOutcome.returned.injEq] at h
          exact ⟨trivial, ip, network, rfl, h.1.symm⟩

theorem AddPeer_allocates_after_last_witness :
    (AddPeer tunnelValues tunnelCtrl tunnelDatabase tunnelKernel "pk3" "alice").1
        = AddPeerOutcome.returned "10.0.0.3" none ∧
    incrementIP "10.0.0.2" tunnelValues.Range.String = ("10.0.0.3", none) ∧
    ∃ ip network, ParseCIDRNet ((incrementIP "10.0.0.2" tunnelValues.Range.String).1 ++ "/32")
      = some (ip, network) ∧ "10.0.0.3" = IPString network.IP :=
  ⟨by decide!, by decide!,
   ((AddPeer_allocates_after_last tunnelValues tunnelCtrl tunnelCtrl tunnelDatabase tunnelKernel
      "pk3" "alice" "10.0.0.2" rfl (by decide!) (by decide!)).2.2
      "10.0.0.3" (by decide!)).2⟩

/-- C18, as stated, fails: 40 seconds after boot, with a maximum session
lifetime of 307445734 minutes, `SetAuthorized` succeeds and stores the expiry
6290448384, which is not the exact sum and is smaller than the clock reading
40000000000. -/
theorem SetAuthorized_expiry_wraps :
    GetTimeStamp fortySeconds = 40000000000 ∧
    (SetAuthorized exampleKernel longLifetimeConfig (GetTimeStamp fortySeconds)
      (GetTimeStamp fortySeconds) "192.0.2.5" "alice").1 = none ∧
    deviceOf (SetAuthorized exampleKernel longLifetimeConfig (GetTimeStamp fortySeconds)
      (GetTimeStamp fortySeconds) "192.0.2.5" "alice").2 "192.0.2.5"
      = some ⟨sha1Sum "alice", 40000000000, 6290448384⟩ ∧
    (0 : Int) ≤ longLifetimeConfig.MaxSessionLifetimeMinutes ∧
    (6290448384 : Int)
      ≠ 40000000000 + longLifetimeConfig.MaxSessionLifetimeMinutes * 60000000000 ∧
    (6290448384 : Nat) < 40000000000 := by
  decide!

/-- The expiry `SetAuthorized` stores, as an integer. -/
theorem sessionExpiryValue_eq (cfg : Config) (now : Nat) :
    (cfg.MaxSessionLifetimeMinutes < 0 → sessionExpiryValue cfg now = MaxUint64) ∧
    (0 ≤ cfg.MaxSessionLifetimeMinutes →
      ((sessionExpiryValue cfg now : Nat) : Int)
        = (now + cfg.MaxSessionLifetimeMinutes * 60000000000) % 2 ^ 64) ∧
    (0 ≤ cfg.MaxSessionLifetimeMinutes →
      (now : Int) + cfg.MaxSessionLifetimeMinutes * 60000000000 < 2 ^ 64 →
      ((sessionExpiryValue cfg now : Nat) : Int)
        = now + cfg.MaxSessionLifetimeMinutes * 60000000000) := by
  have hmod : 0 ≤ cfg.MaxSessionLifetimeMinutes →
      ((sessionExpiryValue cfg now : Nat) : Int)
        = (now + cfg.MaxSessionLifetimeMinutes * 60000000000) % 2 ^ 64 := by
    intro h0
    unfold sessionExpiryValue add64 mul64 uint64
    rw [if_neg (by omega)]
    push_cast
    rw [Int.toNat_of_nonneg (Int.emod_nonneg _ (by norm_num))]
    rw [Int.add_emod, Int.emod_emod_of_dvd _ (dvd_refl _), Int.mul_emod,
      Int.emod_emod_of_dvd _ (dvd_refl _), ← Int.mul_emod, ← Int.add_emod]
  refine ⟨?_, hmod, ?_⟩
  · intro h
    simp [sessionExpiryValue, h]
  · intro h0 hlt
    rw [hmod h0]
    apply Int.emod_eq_of_lt
    · have : (0 : Int) ≤ now := Int.natCast_nonneg _
      nlinarith
    · exact hlt

/-- C18, amended: after `SetAuthorized` succeeds with the clock readings
`now1` and `now2` of its two calls of `GetTimeStamp`, the stored record has
`lastPacketTime = now1`, and `sessionExpiry` is `MAX` when `L < 0`, and for
`L >= 0` the sum `now2 + L*60*10^9` reduced modulo `2^64`, which is the exact
sum when that sum is below `2^64`. -/
theorem SetAuthorized_stamps (k k1 : Kernel) (cfg : Config) (now1 now2 : Nat) (a u : String)
    (h : SetAuthorized k cfg now1 now2 a u = (none, k1)) :
    ∃ e, deviceOf k1 a = some e ∧ e.user_id = sha1Sum u ∧ e.lastPacketTime = now1 ∧
      (cfg.MaxSessionLifetimeMinutes < 0 → e.sessionExpiry = MaxUint64) ∧
      (0 ≤ cfg.MaxSessionLifetimeMinutes →
        ((e.sessionExpiry : Nat) : Int)
          = (now2 + cfg.MaxSessionLifetimeMinutes * 60000000000) % 2 ^ 64) ∧
      (0 ≤ cfg.MaxSessionLifetimeMinutes →
        (now2 : Int) + cfg.MaxSessionLifetimeMinutes * 60000000000 < 2 ^ 64 →
        ((e.sessionExpiry : Nat) : Int)
          = now2 + cfg.MaxSessionLifetimeMinutes * 60000000000) := by
  obtain ⟨key, hkey, -, hx⟩ := SetAuthorized_ok h
  refine ⟨⟨sha1Sum u, now1, sessionExpiryValue cfg now2⟩, ?_, rfl, rfl,
    sessionExpiryValue_eq cfg now2⟩
  unfold deviceOf
  rw [hkey, hx]
  exact KMap.get_put_self _ _ _

theorem SetAuthorized_stamps_witness :
    ∃ e, deviceOf authedKernel "192.0.2.5" = some e ∧ e.lastPacketTime = 100 ∧
      ((e.sessionExpiry : Nat) : Int) = 100 + 1 * 60000000000 := by
  obtain ⟨e, h1, -, h2, -, -, h3⟩ := SetAuthorized_stamps exampleKernel authedKernel
    (exampleConfig 1 1) 100 100 "192.0.2.5" "alice" rfl
  exact ⟨e, h1, h2, h3 (by decide) (by decide)⟩

/-- C20: the code at the failing input.  With the one user `alice`, whose
refresh succeeds, and a successful inactivity write, `RefreshConfiguration`
returns a collection of one entry, the `nil` error, not the empty collection. -/
theorem RefreshConfiguration_appends_nil :
    (RefreshConfiguration exampleKernel (exampleConfig 1 1) (.ok [⟨"alice"⟩])).1 = [none] ∧
    (RefreshConfiguration exampleKernel (exampleConfig 1 1)
      (.ok [⟨"alice"⟩, ⟨"alice"⟩])).1 = [none, none] := by
  decide!

/-- The answer of `isAuthed` depends on the maps only. -/
theorem isAuthed_congr (k1 k2 : Kernel) (cfg : Config) (t : Nat) (a : String)
    (h : k1.xdpObjects = k2.xdpObjects) : isAuthed k1 cfg t a = isAuthed k2 cfg t a := by
  rw [isAuthed_eq, isAuthed_eq]
  unfold deviceOf
  rw [h]

/-- A successful `iterateSubmap` leaves the maps as they are and lists the
keys of the inner trie. -/
theorem iterateSubmap_ok (k k1 : Kernel) (id : Nat) (l : List String)
    (h : iterateSubmap k id = (.ok l, k1)) :
    k1.xdpObjects = k.xdpObjects ∧
    ∃ t, KMap.get k.xdpObjects.innerMaps id = some t ∧ l = trieStrings t := by
  unfold iterateSubmap at h
  obtain ⟨hx, -, him⟩ := NewMapFromID_eq k id
  split at h
  · simp at h
  · rename_i innerMap kf hn
    rw [hn] at hx him
    simp only at hx him
    have hid := him innerMap rfl
    subst hid
    simp only [Prod.mk.injEq, Except.ok.injEq] at h
    obtain ⟨hl, hk⟩ := h
    have hx1 : k1.xdpObjects = k.xdpObjects := by
      rw [← hk, (Close_eq kf).1, hx]
    refine ⟨hx1, ?_⟩
    have hsome : ∃ t, KMap.get kf.xdpObjects.innerMaps innerMap = some t := by
      unfold NewMapFromID at hn
      split at hn
      · simp at hn
      · rename_i kf1 hf
        split at hn
        · simp at hn
        · rename_i t ht
          simp only [Prod.mk.injEq, Except.ok.injEq] at hn
          rw [← hn.2]
          exact ⟨t, ht⟩
    obtain ⟨t, ht⟩ := hsome
    refine ⟨t, by rw [← hx]; exact ht, ?_⟩
    rw [← hl, ht]
    rfl

/-- A successful table statement of `GetRules` leaves the maps as they are,
and lists the keys of the inner trie when the table holds the user. -/
theorem GetRulesTable_ok (k k1 : Kernel) (table : Table) (uid : UserId) (cur l : List String)
    (h : GetRulesTable k table uid cur = (.ok l, k1)) :
    k1.xdpObjects = k.xdpObjects ∧
    ((KMap.get (k.xdpObjects.table table) uid).isSome = true →
      (tableTrie k.xdpObjects table uid).map trieStrings = some l) := by
  unfold GetRulesTable Table.Lookup at h
  cases hg : KMap.get (k.xdpObjects.table table) uid with
  | none =>
    simp only [hg, Prod.mk.injEq, Except.ok.injEq] at h
    rw [← h.2]
    exact ⟨rfl, by simp⟩
  | some id =>
    simp only [hg] at h
    obtain ⟨hx, t, ht, hl⟩ := iterateSubmap_ok k k1 id l h
    refine ⟨hx, fun _ => ?_⟩
    unfold tableTrie
    rw [hg]
    simp only
    rw [ht, hl]
    rfl

/-- A successful iteration of the loop of `GetRules` leaves the maps as they
are and stores, under the user ID, a rule that describes the device. -/
theorem GetRulesStep_ok (k k1 : Kernel) (cfg : Config) (t : Nat)
    (result result1 : KMap String FirewallRules) (ip : IP) (e : fwentry)
    (h : GetRulesStep k cfg t result ip e = (.ok result1, k1)) :
    k1.xdpObjects = k.xdpObjects ∧
    ∃ rule, result1 = KMap.put result (hexEncode e.user_id) rule ∧
      ruleDescribes k cfg t (ip, e) rule := by
  unfold GetRulesStep at h
  simp only [fwentry.Unpack] at h
  split at h
  · simp at h
  · rename_i pub ka hpub
    split at h
    · simp at h
    · rename_i mfa kb hmfa
      simp only [Prod.mk.injEq, Except.ok.injEq] at h
      obtain ⟨hr, hk⟩ := h
      obtain ⟨hxa, hpa⟩ := GetRulesTable_ok _ _ _ _ _ _ hpub
      obtain ⟨hxb, hpb⟩ := GetRulesTable_ok _ _ _ _ _ _ hmfa
      rw [hxa] at hxb hpb
      subst hk
      refine ⟨hxb, _, hr.symm, rfl, rfl, rfl, rfl, hpa, hpb⟩

/-- The keys of a map after a put: the key is added at the end unless the map
has it. -/
theorem KMap.keys_put {κ ν : Type} [DecidableEq κ] (m : KMap κ ν) (k : κ) (v : ν) :
    (KMap.put m k v).map Prod.fst
      = if k ∈ m.map Prod.fst then m.map Prod.fst else m.map Prod.fst ++ [k] := by
  induction m with
  | nil => simp [KMap.put]
  | cons q m ih =>
    obtain ⟨k1, w⟩ := q
    by_cases hk : k1 = k
    · subst hk
      simp [KMap.put]
    · have hk2 : ¬ k = k1 := fun h => hk h.symm
      simp only [KMap.put, hk, if_false, List.map_cons, ih, List.mem_cons, hk2, false_or]
      split <;> simp

/-- What a rule describes depends on the maps only. -/
theorem ruleDescribes_congr (k1 k2 : Kernel) (cfg : Config) (t : Nat) (p : IP × fwentry)
    (rule : FirewallRules) (h : k1.xdpObjects = k2.xdpObjects)
    (hd : ruleDescribes k1 cfg t p rule) : ruleDescribes k2 cfg t p rule := by
  unfold ruleDescribes at hd ⊢
  rw [← h, ← isAuthed_congr k1 k2 cfg t _ h]
  exact hd

/-- The loop of `GetRules`, when it succeeds: every device it went through has
its user in the result, every entry it added describes one of the devices,
and the keys stay distinct. -/
theorem GetRulesLoop_ok (cfg : Config) (clock : Nat → Nat) :
    ∀ (ds : List (IP × fwentry)) (k k1 : Kernel) (i : Nat) (r0 r1 : KMap String FirewallRules),
      GetRulesLoop cfg clock k i r0 ds = (.ok r1, k1) →
      (∀ p ∈ ds, (KMap.get r1 (hexEncode p.2.user_id)).isSome = true) ∧
      (∀ key, (KMap.get r0 key).isSome = true → (KMap.get r1 key).isSome = true) ∧
      (∀ q ∈ r1, q ∈ r0 ∨ ∃ j p, ds[j]? = some p ∧ hexEncode p.2.user_id = q.1 ∧
        ruleDescribes k cfg (clock (i + j)) p q.2) ∧
      ((r0.map Prod.fst).Nodup → (r1.map Prod.fst).Nodup) ∧
      r1.length ≤ r0.length + ds.length := by
  intro ds
  induction ds with
  | nil =>
    intro k k1 i r0 r1 h
    simp only [GetRulesLoop, Prod.mk.injEq, Except.ok.injEq] at h
    obtain ⟨rfl, -⟩ := h
    exact ⟨by simp, fun _ h => h, fun q hq => Or.inl hq, fun h => h, by simp⟩
  | cons d ds ih =>
    intro k k1 i r0 r1 h
    obtain ⟨ip, e⟩ := d
    simp only [GetRulesLoop] at h
    split at h
    · simp at h
    · rename_i ra ka hstep
      obtain ⟨hxa, rule, hra, hdesc⟩ := GetRulesStep_ok _ _ _ _ _ _ _ _ hstep
      obtain ⟨c1, c2, c3, c4, c5⟩ := ih ka k1 (i + 1) ra r1 h
      have hkeys := KMap.keys_put r0 (hexEncode e.user_id) rule
      rw [← hra] at hkeys
      refine ⟨?_, ?_, ?_, ?_, ?_⟩
      · intro p hp
        rcases List.mem_cons.1 hp with rfl | hp
        · apply c2
          rw [hra, KMap.get_put_self]
          rfl
        · exact c1 p hp
      · intro key hkey
        apply c2
        rw [hra]
        exact KMap.get_put_isSome _ _ _ _ hkey
      · intro q hq
        rcases c3 q hq with hq0 | ⟨j, p, hj, hp, hd⟩
        · rw [hra] at hq0
          rcases KMap.mem_put hq0 with hq1 | hq1
          · exact Or.inl hq1
          · refine Or.inr ⟨0, (ip, e), by simp, ?_, ?_⟩
            · rw [hq1]
            · rw [hq1]
              exact hdesc
        · refine Or.inr ⟨j + 1, p, by simpa using hj, hp, ?_⟩
          have := ruleDescribes_congr ka k cfg _ p q.2 hxa hd
          rw [show i + (j + 1) = i + 1 + j by omega]
          exact this
      · intro hnd
        apply c4
        rw [hkeys]
        split
        · exact hnd
        · rename_i hnot
          rw [List.nodup_append]
          refine ⟨hnd, by simp, ?_⟩
          intro a ha hb
          simp only [List.mem_singleton] at hb
          subst hb
          exact hnot ha
      · have hlen : ra.length ≤ r0.length + 1 := by
          have := congrArg List.length hkeys
          simp only [List.length_map] at this
          rw [this]
          split <;> simp
        simp only [List.length_cons]
        omega

/-- A result that is not an error is the value it holds. -/
theorem Except.eq_ok_of_toOption {ε α : Type} (x : Except ε α) (d : α)
    (h : x.toOption.isSome = true) : x = .ok (x.toOption.getD d) := by
  cases x <;> simp [Except.toOption] at h ⊢

/-- C19, as stated, fails: the `devices` map holds the two devices `10.0.0.5`
and `10.0.0.2` of one user, and `GetRules` succeeds with a snapshot of one
entry, the device `10.0.0.2`; the device `10.0.0.5` has no entry. -/
theorem GetRules_merges_devices_of_user :
    tunnelKernel.xdpObjects.Devices.map Prod.fst = [[10, 0, 0, 5], [10, 0, 0, 2]] ∧
    (match (GetRules tunnelKernel (exampleConfig 1 1) (fun _ => 5)).1 with
      | .ok result => some (result.map (fun q => q.2.IP))
      | .error _ => none) = some [[10, 0, 0, 2]] := by
  decide!

/-- C19, amended: when `GetRules` succeeds, its snapshot has one entry for
every user that owns a device, under the hexadecimal user ID: every device of
the `devices` map finds the entry of its user, no two entries have the same
key, so there are at most as many entries as devices, and every entry
describes one device of its user, with that device's IP, `lastPacketTime`,
`sessionExpiry` and `isAuthed` result and the user's Public and MFA lists. -/
theorem GetRules_snapshot (k k1 : Kernel) (cfg : Config) (clock : Nat → Nat)
    (result : KMap String FirewallRules)
    (h : GetRules k cfg clock = (.ok result, k1)) :
    (∀ p ∈ k.xdpObjects.Devices, (KMap.get result (hexEncode p.2.user_id)).isSome = true) ∧
    (∀ q ∈ result, ∃ j p, k.xdpObjects.Devices[j]? = some p ∧ hexEncode p.2.user_id = q.1 ∧
      ruleDescribes k cfg (clock j) p q.2) ∧
    (result.map Prod.fst).Nodup ∧
    result.length ≤ k.xdpObjects.Devices.length := by
  obtain ⟨c1, -, c3, c4, c5⟩ := GetRulesLoop_ok cfg clock _ _ _ _ _ _ h
  refine ⟨c1, ?_, c4 (by simp), by simpa using c5⟩
  intro q hq
  rcases c3 q hq with h0 | ⟨j, p, hj, hp, hd⟩
  · simp at h0
  · exact ⟨j, p, hj, hp, by simpa using hd⟩

theorem GetRules_snapshot_witness :
    (GetRules exampleKernel (exampleConfig 1 1) (fun _ => 5)).1.toOption.isSome = true ∧
    (KMap.get ((GetRules exampleKernel (exampleConfig 1 1) (fun _ => 5)).1.toOption.getD [])
      (hexEncode (sha1Sum "alice"))).isSome = true ∧
    ((GetRules exampleKernel (exampleConfig 1 1) (fun _ => 5)).1.toOption.getD []).length ≤ 1 :=
  have h : GetRules exampleKernel (exampleConfig 1 1) (fun _ => 5)
      = (.ok ((GetRules exampleKernel (exampleConfig 1 1) (fun _ => 5)).1.toOption.getD []),
         (GetRules exampleKernel (exampleConfig 1 1) (fun _ => 5)).2) :=
    Prod.ext (Except.eq_ok_of_toOption _ [] (by decide!)) rfl
  ⟨by decide!,
   (GetRules_snapshot exampleKernel _ (exampleConfig 1 1) (fun _ => 5) _ h).1
      ([192, 0, 2, 5], ⟨sha1Sum "alice", 0, 0⟩) (by decide!),
   (GetRules_snapshot exampleKernel _ (exampleConfig 1 1) (fun _ => 5) _ h).2.2.2⟩

/-- `AddUser` for a user that `account_locked` holds fails, whatever the routes. -/
theorem AddUser_of_present (k : Kernel) (u : String) (acls : Acl)
    (h : (KMap.get k.xdpObjects.AccountLocked (sha1Sum u)).isSome = true) :
    (AddUser k u acls).1 = some "user already exists" := by
  unfold AddUser
  cases hg : KMap.get k.xdpObjects.AccountLocked (sha1Sum u) with
  | none => simp [hg] at h
  | some v => simp [xdpUserExists, AccountLocked.Lookup, hg]

/-- C29, as stated, fails: `AddUser` for the new user `bob` with a route that
does not parse returns an error and leaves `bob` in `account_locked`,
`public_table` and `mfa_table`; the later `AddUser` for `bob` with the
corrected routes fails with `user already exists`, although it succeeds on the
maps as they were before the failed call. -/
theorem AddUser_failure_leaves_user :
    (AddUser exampleKernel "bob" badAcl).1 = some "could not parse ip from input: not-an-ip" ∧
    KMap.get (AddUser exampleKernel "bob" badAcl).2.xdpObjects.AccountLocked (sha1Sum "bob")
      = some 0 ∧
    (KMap.get (AddUser exampleKernel "bob" badAcl).2.xdpObjects.PublicTable
      (sha1Sum "bob")).isSome = true ∧
    (KMap.get (AddUser exampleKernel "bob" badAcl).2.xdpObjects.MfaTable
      (sha1Sum "bob")).isSome = true ∧
    (AddUser (AddUser exampleKernel "bob" badAcl).2 "bob" bobAcl).1
      = some "user already exists" ∧
    (AddUser exampleKernel "bob" bobAcl).1 = none := by
  decide!

/-- C27, as stated, fails: on the first tick after the start, with a store
that does not hold the device, the watcher looks the device up, fails, and
calls `Deauthenticate` for the peer. -/
theorem watcher_warmup_deauthenticates :
    (watcherStart authedKernel emptyStore []).startup = true ∧
    ((watcherTick (watcherStart authedKernel emptyStore []) [roamPeer]).calls.map Prod.fst)
      = [Call.GetDeviceByAddress "192.0.2.5", Call.Deauthenticate "192.0.2.5"] ∧
    isAuthed authedKernel (exampleConfig 1 1) 101 "192.0.2.5" = true ∧
    isAuthed (watcherTick (watcherStart authedKernel emptyStore []) [roamPeer]).kernel
      (exampleConfig 1 1) 101 "192.0.2.5" = false := by
  decide!

/-- C27, amended: during the warm-up scan (`startup` is set, and stays set
through the loop over the peers) the watcher calls `Deauthenticate` for a peer
only when the endpoint of the peer differs from the cache and the lookup of
its device in the store fails; when the endpoint is the cached one it does
nothing, and when the lookup succeeds it updates the store and leaves the
kernel maps as they are.  A peer with `len(AllowedIPs) != 1` is skipped on
every tick: the watcher state does not change. -/
theorem watchPeer_warmup (w : Watcher) (p : Peer) (hs : w.startup = true) :
    (∀ ps : List Peer, (ps.foldl watchPeer w).startup = true) ∧
    (∀ w1 : Watcher, p.AllowedIPs.length ≠ 1 → watchPeer w1 p = w1) ∧
    (∀ allowed, p.AllowedIPs = [allowed] →
      cacheGet w.cache (IPString allowed.IP) = UDPAddrString p.Endpoint → watchPeer w p = w) ∧
    (∀ allowed d s1, p.AllowedIPs = [allowed] →
      cacheGet w.cache (IPString allowed.IP) ≠ UDPAddrString p.Endpoint →
      GetDeviceByAddress w.store (IPString allowed.IP) = (.ok d, s1) →
      (watchPeer w p).kernel = w.kernel ∧
      (watchPeer w p).calls = w.calls ++
        [(Call.GetDeviceByAddress (IPString allowed.IP), w.kernel),
         (Call.UpdateDeviceEndpoint (IPString allowed.IP) p.Endpoint, w.kernel)]) ∧
    (∀ allowed e s1, p.AllowedIPs = [allowed] →
      cacheGet w.cache (IPString allowed.IP) ≠ UDPAddrString p.Endpoint →
      GetDeviceByAddress w.store (IPString allowed.IP) = (.error e, s1) →
      (watchPeer w p).kernel = (Deauthenticate w.kernel (IPString allowed.IP)).2 ∧
      (watchPeer w p).calls = w.calls ++
        [(Call.GetDeviceByAddress (IPString allowed.IP), w.kernel),
         (Call.Deauthenticate (IPString allowed.IP), w.kernel)]) := by
  refine ⟨fun ps => by rw [foldl_watchPeer_startup, hs], ?_, ?_, ?_, ?_⟩
  · intro w1 hl
    unfold watchPeer
    split
    · rename_i allowed hp
      rw [hp] at hl
      simp at hl
    · rfl
  · intro allowed hp hc
    unfold watchPeer
    simp [hp, hc]
  · intro allowed d s1 hp hc hg
    unfold watchPeer
    simp [hp, hc, hg, hs]
  · intro allowed e s1 hp hc hg
    unfold watchPeer
    simp [hp, hc, hg, Watcher.deauthenticate]

theorem watchPeer_warmup_witness :
    (watcherStart authedKernel emptyStore []).startup = true ∧
    ∀ ps : List Peer,
      (ps.foldl watchPeer (watcherStart authedKernel emptyStore [])).startup = true :=
  ⟨rfl, (watchPeer_warmup (watcherStart authedKernel emptyStore []) roamPeer rfl).1⟩

/-- C24: for every authenticator `a` and handler `f`, the handler
`checkEnabled(a, f)` answers 404 Not Found and leaves everything else as it is,
whatever `f` is (`f` is not invoked), when `a` is disabled at the request, and
does exactly what one invocation of `f` does, adding nothing, when `a` is
enabled; `GetMethod(m)` returns `(a, true)` exactly when `m` is the key of
the compiled-in authenticator `a` and `a` is enabled, and `(nil, false)` in
every other case. -/
theorem checkEnabled_GetMethod {σ ρ : Type} (a : Authenticator) (f : Handler σ ρ)
    (flags : EnableFlags) (s : σ) (w : ResponseWriter) (r : ρ) (m : String) :
    (IsEnabled flags a = false →
      checkEnabled a f flags (s, w) r = (s, NotFound w) ∧ (NotFound w).status = some
        (w.status.getD 404) ∧
      ∀ g : Handler σ ρ, checkEnabled a g flags (s, w) r = checkEnabled a f flags (s, w) r) ∧
    (IsEnabled flags a = true → checkEnabled a f flags (s, w) r = f (s, w) r) ∧
    (∀ b, GetMethod flags m = (some b, true) ↔ allMfa m = some b ∧ IsEnabled flags b = true) ∧
    ((¬ ∃ b, allMfa m = some b ∧ IsEnabled flags b = true) → GetMethod flags m = (none, false)) ∧
    (∀ b, allMfa m = some b ↔
      (m = "totp" ∧ b = .Totp) ∨ (m = "webauthn" ∧ b = .Webauthn) ∨ (m = "oidc" ∧ b = .Oidc)
        ∨ (m = "pam" ∧ b = .Pam)) := by
  refine ⟨?_, ?_, ?_, ?_, ?_⟩
  · intro h
    refine ⟨by simp [checkEnabled, h], ?_, fun g => by simp [checkEnabled, h]⟩
    unfold NotFound
    cases w.status <;> rfl
  · intro h
    simp [checkEnabled, h]
  · intro b
    unfold GetMethod
    cases hm : allMfa m with
    | none => simp
    | some v =>
      simp only
      by_cases hv : IsEnabled flags v = true
      · rw [if_pos hv]
        constructor
        · intro hb
          simp only [Prod.mk.injEq, Option.some.injEq, and_true] at hb
          subst hb
          exact ⟨rfl, hv⟩
        · rintro ⟨hb, -⟩
          rw [Option.some.injEq] at hb
          subst hb
          rfl
      · rw [if_neg hv]
        constructor
        · intro hb
          simp at hb
        · rintro ⟨hb, hb2⟩
          rw [Option.some.injEq] at hb
          subst hb
          exact absurd hb2 hv
  · intro h
    unfold GetMethod
    cases hm : allMfa m with
    | none => rfl
    | some v =>
      simp only
      by_cases hv : IsEnabled flags v = true
      · exact absurd ⟨v, hm, hv⟩ h
      · rw [if_neg hv]
  · intro b
    unfold allMfa
    by_cases h1 : m = "totp"
    · subst h1; simp; exact eq_comm
    · by_cases h2 : m = "webauthn"
      · subst h2; simp; exact eq_comm
      · by_cases h3 : m = "oidc"
        · subst h3; simp; exact eq_comm
        · by_cases h4 : m = "pam"
          · subst h4; simp; exact eq_comm
          · simp [h1, h2, h3, h4]

theorem checkEnabled_GetMethod_witness :
    checkEnabled .Oidc countingHandler totpOnly (0, emptyResponse) "GET /authorise/oidc/"
      = (0, NotFound emptyResponse) ∧
    checkEnabled .Totp countingHandler totpOnly (0, emptyResponse) "GET /authorise/totp/"
      = (1, { Header := [], status := some 200, body := "ok" }) ∧
    GetMethod totpOnly "totp" = (some .Totp, true) ∧
    GetMethod totpOnly "oidc" = (none, false) ∧ GetMethod totpOnly "sms" = (none, false) :=
  ⟨((checkEnabled_GetMethod .Oidc countingHandler totpOnly 0 emptyResponse
      "GET /authorise/oidc/" "oidc").1 (by decide)).1,
   (checkEnabled_GetMethod .Totp countingHandler totpOnly 0 emptyResponse
      "GET /authorise/totp/" "totp").2.1 (by decide),
   ((checkEnabled_GetMethod .Totp countingHandler totpOnly 0 emptyResponse
      "GET /authorise/totp/" "totp").2.2.1 .Totp).2 (by decide),
   (checkEnabled_GetMethod .Totp countingHandler totpOnly 0 emptyResponse
      "GET /authorise/totp/" "oidc").2.2.2.1 (by decide),
   (checkEnabled_GetMethod .Totp countingHandler totpOnly 0 emptyResponse
      "GET /authorise/totp/" "sms").2.2.2.1 (by decide)⟩

/-- C25: `resultMessage(nil)` is `("Success", 200)`; for every error the
status is 400; the message is `Validation failed` unless the error text
contains `account is locked` or `device is locked`; with `account is locked`
it is `Account is locked contact: <mail>`, also when the text contains
`device is locked` too, and with `device is locked` alone it is
`Device is locked contact: <mail>`. -/
theorem resultMessage_cases (mail : String) (e : Error) :
    resultMessage mail none = ("Success", 200) ∧
    (resultMessage mail (some e)).2 = 400 ∧
    (Contains e "account is locked" = false → Contains e "device is locked" = false →
      (resultMessage mail (some e)).1 = "Validation failed") ∧
    (Contains e "account is locked" = true →
      (resultMessage mail (some e)).1 = "Account is locked contact: " ++ mail) ∧
    (Contains e "account is locked" = false → Contains e "device is locked" = true →
      (resultMessage mail (some e)).1 = "Device is locked contact: " ++ mail) := by
  refine ⟨rfl, rfl, ?_, ?_, ?_⟩
  · intro h1 h2
    simp [resultMessage, h1, h2]
  · intro h1
    simp [resultMessage, h1]
  · intro h1 h2
    simp [resultMessage, h1, h2]

theorem resultMessage_cases_witness :
    (resultMessage "help@example.com" (some "totp code wrong")).1 = "Validation failed" ∧
    (resultMessage "help@example.com" (some "device is locked, account is locked")).1
      = "Account is locked contact: help@example.com" ∧
    (resultMessage "help@example.com" (some "device is locked")).1
      = "Device is locked contact: help@example.com" :=
  ⟨(resultMessage_cases "help@example.com" "totp code wrong").2.2.1 (by decide) (by decide),
   (resultMessage_cases "help@example.com" "device is locked, account is locked").2.2.2.1
      (by decide),
   (resultMessage_cases "help@example.com" "device is locked").2.2.2.2 (by decide) (by decide)⟩

/-- C30: the code at the failing inputs.  When the `Init` of `totp` and of
`oidc` both fail, `ReinitaliseMethods(totp, oidc)` returns the list `[oidc]`:
the method of the second failure is in the list.  When `totp` succeeds and
`oidc` and `pam` fail, the list is `[totp, pam]`. -/
theorem ReinitaliseMethods_keeps_later_failure :
    ReinitaliseMethods (fun _ _ => some "boom") ["totp", "oidc"]
      = (["oidc"], some "oidc failed to init: boom\ntotp failed to init: boom") ∧
    ReinitaliseMethods (fun _ m => if m = "totp" then none else some "boom")
        ["totp", "oidc", "pam"]
      = (["totp", "pam"], some "pam failed to init: boom\noidc failed to init: boom") := by
  decide

/-- The visit of the flags of `devices` leaves the action flag that is last
in lexicographical order among those set. -/
theorem devices_visit_action (fs : FlagSet)
    (hb : fs.boolFlags = ["del", "list", "sessions", "reset", "lock"])
    (hs : fs.stringFlags = ["device"]) :
    fs.Visit.foldl (visitAction ["reset", "del", "list", "lock", "sessions"]) ""
      = chosenAction devicesActions fs.actual := by
  have hsort : (["del", "list", "sessions", "reset", "lock"] ++ ["device"]).insertionSort
      (fun a b => a.toList ≤ b.toList) = ["del", "device", "list", "lock", "reset", "sessions"] := by
    decide
  have l1 : ToLower "del" = "del" := by decide
  have l2 : ToLower "list" = "list" := by decide
  have l3 : ToLower "lock" = "lock" := by decide
  have l4 : ToLower "reset" = "reset" := by decide
  have l5 : ToLower "sessions" = "sessions" := by decide
  unfold FlagSet.Visit chosenAction devicesActions
  rw [hb, hs, hsort]
  by_cases h1 : "del" ∈ fs.actual <;> by_cases h2 : "device" ∈ fs.actual <;>
    by_cases h3 : "list" ∈ fs.actual <;> by_cases h4 : "lock" ∈ fs.actual <;>
    by_cases h5 : "reset" ∈ fs.actual <;> by_cases h6 : "sessions" ∈ fs.actual <;>
    simp [List.filter, List.find?, h1, h2, h3, h4, h5, h6, visitAction, l1, l2, l3, l4, l5]

/-- Parsing sets flags and values; the defined flags stay as they are. -/
theorem FlagSet.Parse_formal (args : List String) :
    ∀ (f f1 : FlagSet), f.Parse args = .ok f1 →
      f1.boolFlags = f.boolFlags ∧ f1.stringFlags = f.stringFlags := by
  have hset : ∀ (f : FlagSet) (n : String), (f.setActual n).boolFlags = f.boolFlags ∧
      (f.setActual n).stringFlags = f.stringFlags := by
    intro f n
    unfold FlagSet.setActual
    split <;> exact ⟨rfl, rfl⟩
  induction args with
  | nil =>
    intro f f1 h
    unfold FlagSet.Parse at h
    split at h
    · simp at h
    · simp only [Except.ok.injEq] at h
      rw [← h]
      exact ⟨rfl, rfl⟩
  | cons s args ih =>
    intro f f1 h
    unfold FlagSet.Parse at h
    split at h
    on_goal 2 => dsimp only at h
    all_goals repeat' split at h
    all_goals first
      | (simp at h; done)
      | (simp only [Except.ok.injEq] at h; rw [← h]; exact ⟨rfl, rfl⟩)
      | (have hi := ih _ _ h
         rw [(hset _ _).1, (hset _ _).2] at hi
         exact hi)
      | exact (ih _ _ h :)

/-- The action chosen is one of the action flags, or empty. -/
theorem chosenAction_cases (order actual : List String) :
    (chosenAction order actual = "" ∧ ∀ a ∈ order, a ∉ actual) ∨
    (chosenAction order actual ∈ order ∧ chosenAction order actual ∈ actual) := by
  unfold chosenAction
  cases hf : order.find? (fun a => a ∈ actual) with
  | none =>
    left
    refine ⟨rfl, ?_⟩
    intro a ha
    have := List.find?_eq_none.1 hf a ha
    simpa using this
  | some a =>
    right
    have h1 := List.mem_of_find?_eq_some hf
    have h2 := List.find?_some hf
    exact ⟨h1, by simpa using h2⟩

/-- The visit of the flags of `webadmin` leaves the action flag that is last
in lexicographical order among those set. -/
theorem webadmin_visit_action (fs : FlagSet)
    (hb : fs.boolFlags = ["add", "del", "list", "lockaccount", "unlockaccount"])
    (hs : fs.stringFlags = ["username", "password", "socket"]) :
    fs.Visit.foldl (visitAction ["lockaccount", "unlockaccount", "del", "list", "add"]) ""
      = chosenAction webadminActions fs.actual := by
  have hsort : (["add", "del", "list", "lockaccount", "unlockaccount"]
        ++ ["username", "password", "socket"]).insertionSort
      (fun a b => a.toList ≤ b.toList)
      = ["add", "del", "list", "lockaccount", "password", "socket", "unlockaccount",
          "username"] := by
    decide
  have l1 : ToLower "add" = "add" := by decide
  have l2 : ToLower "del" = "del" := by decide
  have l3 : ToLower "list" = "list" := by decide
  have l4 : ToLower "lockaccount" = "lockaccount" := by decide
  have l5 : ToLower "unlockaccount" = "unlockaccount" := by decide
  unfold FlagSet.Visit chosenAction webadminActions
  rw [hb, hs, hsort]
  by_cases h1 : "add" ∈ fs.actual <;> by_cases h2 : "del" ∈ fs.actual <;>
    by_cases h3 : "list" ∈ fs.actual <;> by_cases h4 : "lockaccount" ∈ fs.actual <;>
    by_cases h5 : "unlockaccount" ∈ fs.actual <;>
    simp [List.filter, List.find?, h1, h2, h3, h4, h5, visitAction, l1, l2, l3, l4, l5] <;>
    (by_cases h6 : "password" ∈ fs.actual <;> by_cases h7 : "socket" ∈ fs.actual <;>
      by_cases h8 : "username" ∈ fs.actual <;>
      simp [List.filter, h6, h7, h8, visitAction, l1, l2, l3, l4, l5])

/-- C26, as stated, fails: the argument list `-list -del` sets two action
flags, and `devices.Init` and `webadmin.Check` both accept it, with the
action `list`. -/
theorem two_action_flags_accepted :
    (Devices.Init ["-list", "-del"] none).1 = none ∧
    (Devices.Init ["-list", "-del"] none).2.action = "list" ∧
    ((Webadmin "/tmp/wag.sock").Parse ["-list", "-del"]).toOption.map
      (fun g => (g.Check.1, g.Check.2.action)) = some (none, "list") := by
  decide

/-- The action names are their own lower-case forms. -/
theorem ToLower_chosenAction (actual : List String) :
    ToLower (chosenAction devicesActions actual) = chosenAction devicesActions actual ∧
    ToLower (chosenAction webadminActions actual) = chosenAction webadminActions actual := by
  constructor
  · rcases chosenAction_cases devicesActions actual with ⟨h0, -⟩ | ⟨hm, -⟩
    · rw [h0]; decide
    · simp only [devicesActions, List.mem_cons, List.mem_singleton, List.not_mem_nil,
        or_false] at hm
      rcases hm with h | h | h | h | h <;> (unfold devicesActions; rw [h]; decide)
  · rcases chosenAction_cases webadminActions actual with ⟨h0, -⟩ | ⟨hm, -⟩
    · rw [h0]; decide
    · simp only [webadminActions, List.mem_cons, List.mem_singleton, List.not_mem_nil,
        or_false] at hm
      rcases hm with h | h | h | h | h <;> (unfold webadminActions; rw [h]; decide)

/-- What `devices.Init` returns after a successful parse, by the action
chosen. -/
theorem devices_Init_eq (args : List String) (load : Option Error) (fs : FlagSet)
    (hd : Devices.fs.Parse args = .ok fs) :
    Devices.Init args load =
      if chosenAction devicesActions fs.actual = "del"
          ∨ chosenAction devicesActions fs.actual = "reset"
          ∨ chosenAction devicesActions fs.actual = "lock" then
        if fs.value "device" "" = "" then
          (some "Device must be supplied",
            ⟨fs, fs.value "device" "", chosenAction devicesActions fs.actual⟩)
        else
          (load.map (fun err => "Cannot load database: " ++ err),
            ⟨fs, fs.value "device" "", chosenAction devicesActions fs.actual⟩)
      else if chosenAction devicesActions fs.actual = "list"
          ∨ chosenAction devicesActions fs.actual = "sessions" then
        (load.map (fun err => "Cannot load database: " ++ err),
          ⟨fs, fs.value "device" "", chosenAction devicesActions fs.actual⟩)
      else
        (some "Invalid action choice",
          ⟨fs, fs.value "device" "", chosenAction devicesActions fs.actual⟩) := by
  obtain ⟨hb, hs⟩ := FlagSet.Parse_formal args _ _ hd
  have hv := devices_visit_action fs hb hs
  have ha : Devices.action = "" := rfl
  have hdev : Devices.device = "" := rfl
  unfold devices.Init
  simp only [hd, ha, hdev, hv, (ToLower_chosenAction fs.actual).1]
  cases load <;> rfl

/-- What `webadmin.Check` returns after a successful parse, by the action
chosen. -/
theorem webadmin_Check_eq (args : List String) (socket : String) (g : webadmin)
    (hw : (Webadmin socket).Parse args = .ok g) :
    g.Check =
      if chosenAction webadminActions g.fs.actual = "del"
          ∨ chosenAction webadminActions g.fs.actual = "unlockaccount"
          ∨ chosenAction webadminActions g.fs.actual = "lockaccount" then
        if g.username = "" then
          (some "address must be supplied",
            { g with action := chosenAction webadminActions g.fs.actual })
        else (none, { g with action := chosenAction webadminActions g.fs.actual })
      else if chosenAction webadminActions g.fs.actual = "list" then
        (none, { g with action := chosenAction webadminActions g.fs.actual })
      else if chosenAction webadminActions g.fs.actual = "add" then
        if g.username = "" ∨ g.password = "" then
          (some "both username and password must be specified to add a user",
            { g with action := chosenAction webadminActions g.fs.actual })
        else (none, { g with action := chosenAction webadminActions g.fs.actual })
      else
        (some ("Unknown flag: " ++ chosenAction webadminActions g.fs.actual),
          { g with action := chosenAction webadminActions g.fs.actual }) := by
  unfold webadmin.Parse at hw
  cases hp : (Webadmin socket).fs.Parse args with
  | error e => simp [hp] at hw
  | ok fs =>
    simp only [hp, Except.ok.injEq] at hw
    obtain ⟨hb, hs⟩ := FlagSet.Parse_formal args _ _ hp
    have hv := webadmin_visit_action fs hb hs
    subst hw
    unfold webadmin.Check
    simp only
    have ha : (Webadmin socket).action = "" := rfl
    rw [ha, hv]

/-- C26, amended: `devices.Init` and `webadmin.Check` do not test that one
action flag only is set.  After a successful parse the action is the action
flag that is last in lexicographical order among those set; an argument list
that sets none is rejected; and an action that needs a target is rejected
when the target is empty (`del`, `reset`, `lock` need `-device`; `del`,
`lockaccount`, `unlockaccount` need `-username`; `add` needs `-username` and
`-password`).  Every other argument list is accepted (by `Init` when the
database loads). -/
theorem action_flag_choice (args1 args2 : List String) (load : Option Error) (socket : String)
    (fs : FlagSet) (g : webadmin)
    (hd : Devices.fs.Parse args1 = .ok fs) (hw : (Webadmin socket).Parse args2 = .ok g) :
    ((Devices.Init args1 load).2.action = chosenAction devicesActions fs.actual ∧
      ((∀ a ∈ devicesActions, a ∉ fs.actual) →
        (Devices.Init args1 load).1 = some "Invalid action choice") ∧
      ((chosenAction devicesActions fs.actual ∈ ["del", "reset", "lock"] ∧
          (Devices.Init args1 load).2.device = "") →
        (Devices.Init args1 load).1 = some "Device must be supplied") ∧
      ((∃ a ∈ devicesActions, a ∈ fs.actual) →
        ¬ (chosenAction devicesActions fs.actual ∈ ["del", "reset", "lock"] ∧
          (Devices.Init args1 load).2.device = "") →
        (Devices.Init args1 load).1 = load.map (fun err => "Cannot load database: " ++ err))) ∧
    (g.Check.2.action = chosenAction webadminActions g.fs.actual ∧
      ((∀ a ∈ webadminActions, a ∉ g.fs.actual) → g.Check.1 = some "Unknown flag: ") ∧
      ((chosenAction webadminActions g.fs.actual ∈ ["del", "unlockaccount", "lockaccount"] ∧
          g.username = "") → g.Check.1 = some "address must be supplied") ∧
      ((chosenAction webadminActions g.fs.actual = "add" ∧ (g.username = "" ∨ g.password = "")) →
        g.Check.1 = some "both username and password must be specified to add a user") ∧
      ((∃ a ∈ webadminActions, a ∈ g.fs.actual) →
        ¬ (chosenAction webadminActions g.fs.actual ∈ ["del", "unlockaccount", "lockaccount"] ∧
          g.username = "") →
        ¬ (chosenAction webadminActions g.fs.actual = "add" ∧
          (g.username = "" ∨ g.password = "")) →
        g.Check.1 = none)) := by
  have hne : ∀ (order actual : List String), (∃ a ∈ order, a ∈ actual) →
      chosenAction order actual ∈ order := by
    intro order actual ⟨a, ha, hb⟩
    rcases chosenAction_cases order actual with ⟨-, h0⟩ | ⟨hm, -⟩
    · exact absurd hb (h0 a ha)
    · exact hm
  have hnone : ∀ (order actual : List String), (∀ a ∈ order, a ∉ actual) →
      chosenAction order actual = "" := by
    intro order actual h
    rcases chosenAction_cases order actual with ⟨h0, -⟩ | ⟨hm, hm2⟩
    · exact h0
    · exact absurd hm2 (h _ hm)
  constructor
  · have hI := devices_Init_eq args1 load fs hd
    have hdev : (Devices.Init args1 load).2.device = fs.value "device" "" := by
      rw [hI]
      split
      · split <;> rfl
      · split <;> rfl
    rw [hdev, hI]
    refine ⟨?_, ?_, ?_, ?_⟩
    · split
      · split <;> rfl
      · split <;> rfl
    · intro h
      rw [hnone _ _ h]
      simp
    · rintro ⟨hm, hdv⟩
      simp only [List.mem_cons, List.mem_singleton, List.not_mem_nil, or_false] at hm
      rw [if_pos hm, if_pos hdv]
    · intro hex hnot
      have hm := hne _ _ hex
      simp only [devicesActions, List.mem_cons, List.mem_singleton, List.not_mem_nil,
        or_false] at hm
      unfold devicesActions at hnot ⊢
      rcases hm with h | h | h | h | h <;> rw [h] at hnot ⊢ <;> simp at hnot ⊢ <;>
        try simp [hnot]
  · rw [webadmin_Check_eq args2 socket g hw]
    refine ⟨?_, ?_, ?_, ?_, ?_⟩
    · split
      · split <;> rfl
      · split
        · rfl
        · split
          · split <;> rfl
          · rfl
    · intro h
      rw [hnone _ _ h]
      simp
    · rintro ⟨hm, hu⟩
      simp only [List.mem_cons, List.mem_singleton, List.not_mem_nil, or_false] at hm
      rw [if_pos hm, if_pos hu]
    · rintro ⟨hm, hu⟩
      rw [hm]
      simp [hu]
    · intro hex hnot1 hnot2
      have hm := hne _ _ hex
      simp only [webadminActions, List.mem_cons, List.mem_singleton, List.not_mem_nil,
        or_false] at hm
      unfold webadminActions at hnot1 hnot2 ⊢
      rcases hm with h | h | h | h | h <;> rw [h] at hnot1 hnot2 ⊢ <;>
        simp at hnot1 hnot2 ⊢ <;> try simp [hnot1, hnot2]

theorem action_flag_choice_witness :
    (Devices.Init ["-list", "-del"] none).2.action = "list" ∧
    (Devices.Init [] none).1 = some "Invalid action choice" ∧
    (Devices.Init ["-reset"] none).1 = some "Device must be supplied" := by
  have h1 := (action_flag_choice ["-list", "-del"] [] none "s" _ _ rfl rfl).1
  have h2 := (action_flag_choice [] [] none "s" _ _ rfl rfl).1
  have h3 := (action_flag_choice ["-reset"] [] none "s" _ _ rfl rfl).1
  exact ⟨h1.1.trans (by decide), h2.2.1 (by decide), h3.2.2.1 (by decide)⟩

/-- C21, as stated, fails.  With the lockout threshold 0 the `reset` of the
device succeeds and sets its counter to 0, and the device is still reported
Locked, since `0 >= 0`; and with the threshold 5 and the account of the owner
locked, the `reset` leaves `account_locked` as it is, so the device is still
Locked. -/
theorem reset_leaves_device_locked :
    (devices.Run resetCommand 0 quietCalls fiveAttempts).1 = none ∧
    KMap.get (devices.Run resetCommand 0 quietCalls fiveAttempts).2.attempts "192.0.2.5"
      = some 0 ∧
    reportedLocked (devices.Run resetCommand 0 quietCalls fiveAttempts).2 0 "192.0.2.5" = true ∧
    (devices.Run resetCommand 5 quietCalls fiveAttempts).1 = none ∧
    reportedLocked (devices.Run resetCommand 5 quietCalls fiveAttempts).2 5 "192.0.2.5" = false ∧
    Locked lockedKernel (devices.Run resetCommand 5 quietCalls fiveAttempts).2 5 "alice"
      "192.0.2.5" = true := by
  decide!

/-- C21, amended: after the admin `reset` action succeeds the attempt counter
of the device is 0, so the predicate `attempts >= lockout` that reports Locked
is false exactly when the lockout threshold is at least 1; the action does not
touch `account_locked`, and the device is Locked in the sense of the spec
exactly when the threshold is 0 or below or the account of its owner is
locked. -/
theorem reset_counter (g : devices) (Lockout lockout : Int) (calls : devicesCalls)
    (db : AttemptsTable) (k : Kernel) (username : String)
    (ha : g.action = "reset") (hok : (devices.Run g Lockout calls db).1 = none) :
    KMap.get (devices.Run g Lockout calls db).2.attempts g.device = some 0 ∧
    (reportedLocked (devices.Run g Lockout calls db).2 lockout g.device = false ↔ 1 ≤ lockout) ∧
    (Locked k (devices.Run g Lockout calls db).2 lockout username g.device = true ↔
      (lockout ≤ 0 ∨ (KMap.get k.xdpObjects.AccountLocked (sha1Sum username)).getD 0 ≠ 0)) := by
  have hrun : devices.Run g Lockout calls db =
      match SetAttemptsLeft db g.device 0 with
      | (some err, db1) =>
        (some ("Could not reset device authentication attempts: " ++ err), db1)
      | (none, db1) => (none, db1) := by
    unfold devices.Run
    simp [ha]
  rw [hrun] at hok ⊢
  have hget : ∀ db1, SetAttemptsLeft db g.device 0 = (none, db1) →
      KMap.get db1.attempts g.device = some 0 := by
    intro db1 h
    unfold SetAttemptsLeft at h
    split at h
    · simp at h
    · split at h
      · simp at h
      · simp only [Prod.mk.injEq, true_and] at h
        rw [← h]
        exact KMap.get_put_self _ _ _
  rcases hs : SetAttemptsLeft db g.device 0 with ⟨r, db1⟩
  rw [hs] at hok
  cases r with
  | some e => simp at hok
  | none =>
    simp only
    have h0 := hget db1 hs
    have hrep : reportedLocked db1 lockout g.device = decide (lockout ≤ 0) := by
      unfold reportedLocked
      rw [h0]
      rfl
    refine ⟨h0, ?_, ?_⟩
    · rw [hrep]
      simp
      omega
    · unfold Locked
      rw [hrep]
      simp
      tauto

theorem reset_counter_witness :
    KMap.get (devices.Run resetCommand 5 quietCalls fiveAttempts).2.attempts resetCommand.device
      = some 0 ∧
    (reportedLocked (devices.Run resetCommand 5 quietCalls fiveAttempts).2 5 resetCommand.device
      = false ↔ (1 : Int) ≤ 5) :=
  ⟨(reset_counter resetCommand 5 5 quietCalls fiveAttempts exampleKernel "alice"
      (by decide) (by decide)).1,
   (reset_counter resetCommand 5 5 quietCalls fiveAttempts exampleKernel "alice"
      (by decide) (by decide)).2.1⟩

/-- C22: the code at the failing input.  `RemoveMember("e")` on a cluster with
the nodes `e` and `e5` succeeds and removes the member 14 only, but it deletes
every key that starts with `wag/node/e`: with the key of the node `e` also the
key of the node `e5`, whose ID has `e` as a proper prefix, and the event error
under `wag/node/errors/`; only the device key is left. -/
theorem RemoveMember_deletes_other_keys :
    ParseUint16 "e" = .ok 14 ∧ pathJoin [NodeEvents, "e"] = "wag/node/e" ∧
    (RemoveMember exampleEtcd "e").1 = none ∧
    (RemoveMember exampleEtcd "e").2.members = [229] ∧
    (RemoveMember exampleEtcd "e").2.kvs = [("devices-192.0.2.5", "{}")] ∧
    exampleEtcd.kvs.map Prod.fst
      = ["wag/node/e/drain", "wag/node/e5/ping", "wag/node/errors/6f1d", "devices-192.0.2.5"] := by
  refine ⟨rfl, ?_, ?_, ?_, ?_, ?_⟩ <;> decide

/-- C28: the code at the failing input.  For a delete event that carries no
previous key-value the classification step reads `event.PrevKv.Value`, a nil
dereference: it yields no state, the listener panics, the handler is not
invoked, and the events after it are not processed, while the second event
alone is classified as created and handed to the handler. -/
theorem listenEvent_panics_on_delete :
    classifyEvent { IsDelete := true, Kv := ⟨"devices-192.0.2.5", ""⟩, PrevKv := none } = none ∧
    (listenEvent textListener quietState
      { IsDelete := true, Kv := ⟨"devices-192.0.2.5", ""⟩, PrevKv := none }).panicked
      = some "runtime error: invalid memory address or nil pointer dereference" ∧
    (listen textListener quietState
      [{ IsDelete := true, Kv := ⟨"devices-192.0.2.5", ""⟩, PrevKv := none },
       { IsDelete := false, Kv := ⟨"devices-192.0.2.6", "ok"⟩, PrevKv := none }]).invocations
      = [] ∧
    (listen textListener quietState
      [{ IsDelete := false, Kv := ⟨"devices-192.0.2.6", "ok"⟩, PrevKv := none }]).invocations
      = [("devices-192.0.2.6", "ok", "", EventType.CREATED)] := by
  decide

/-- C23: the code at the counterexample.  The value of the event decodes and the
handler, invoked once, returns an error; the store call of `RaiseError` fails,
so no Event Error is persisted: the keys of the store are what they were. -/
theorem handler_error_not_persisted :
    (listenEvent textListener failingStoreState badEvent).invocations
      = [("devices-192.0.2.5", "bad", "", EventType.CREATED)] ∧
    textListener.f "devices-192.0.2.5" "bad" "" EventType.CREATED = some "cannot apply" ∧
    (listenEvent textListener failingStoreState badEvent).etcd.kvs = failingStoreState.etcd.kvs ∧
    (listenEvent textListener failingStoreState badEvent).EventsQueue = [] := by
  decide

/-- C23, amended: for an event that the classification accepts as `state` with
`value`.  When `value` and the previous value decode, the handler is invoked
exactly once, with the decoded values; when it returns an error, nothing is
appended to the events queue and `RaiseError` runs once: with an ID generated
and no fault of the store it persists exactly one Event Error, which carries
the payload `value` and the message of the error, under
`wag/node/errors/<ID>`, and otherwise it leaves the keys of the store as they
were.  When `value` or the previous value fails to decode, the handler is not
invoked, the state is unchanged, and the listener goes on with the events that
follow. -/
theorem listenEvent_handler {T : Type} (l : Listener T) (st : ListenerState T) (event : Event)
    (state : EventType) (value : String) (hc : classifyEvent event = some (state, value))
    (hst : st.panicked = none) :
    (∀ cur prev, l.Unmarshal value = some cur → decodePrevious l event = some prev →
      (listenEvent l st event).invocations
        = st.invocations ++ [(event.Kv.Key, cur, prev, state)] ∧
      ∀ err, l.f event.Kv.Key cur prev state = some err →
        (listenEvent l st event).EventsQueue = st.EventsQueue ∧
        (listenEvent l st event).drawn = st.drawn + 1 ∧
        (∀ id, l.generateRandomBytes st.drawn = .ok id → st.etcd.fault.1 = none →
          (listenEvent l st event).etcd.kvs
            = KMap.put st.etcd.kvs (pathJoin [NodeErrors, id])
                (l.Marshal
                  { NodeID := l.ServerID, ErrorID := id, FailedEventData := value,
                    Error := err, Time := l.Now })) ∧
        ((∃ e, l.generateRandomBytes st.drawn = .error e) ∨ st.etcd.fault.1 ≠ none →
          (listenEvent l st event).etcd.kvs = st.etcd.kvs)) ∧
    (l.Unmarshal value = none ∨ decodePrevious l event = none →
      listenEvent l st event = st ∧
      ∀ events, listen l st (event :: events) = listen l st events) := by
  refine ⟨?_, ?_⟩
  · intro cur prev hcur hprev
    have hl : listenEvent l st event = applyEvent l st event state value cur prev := by
      simp only [listenEvent, hc, hcur, hprev]
    rw [hl]
    refine ⟨?_, ?_⟩
    · unfold applyEvent
      cases hf : l.f event.Kv.Key cur prev state with
      | some err =>
        simp only [RaiseError]
        cases l.generateRandomBytes st.drawn <;> simp only []
      | none => cases state <;> rfl
    · intro err hf
      simp only [applyEvent, hf, RaiseError]
      refine ⟨?_, ?_, ?_, ?_⟩
      · cases l.generateRandomBytes st.drawn <;> rfl
      · cases l.generateRandomBytes st.drawn <;> rfl
      · intro id hid hfault
        simp only [hid, Etcd.Put]
        rcases hfl : st.etcd.fault with ⟨f, e1⟩
        rw [hfl] at hfault
        simp only at hfault
        subst hfault
        have hk : e1.kvs = st.etcd.kvs := by
          unfold Etcd.fault at hfl
          split at hfl <;> simp only [Prod.mk.injEq] at hfl <;> rw [← hfl.2]
        simp only [hk]
      · intro h
        cases hg : l.generateRandomBytes st.drawn with
        | error e => rfl
        | ok id =>
          rcases h with ⟨e, he⟩ | hfault
          · rw [hg] at he
            cases he
          · simp only [Etcd.Put]
            rcases hfl : st.etcd.fault with ⟨f, e1⟩
            rw [hfl] at hfault
            cases f with
            | none => exact absurd rfl hfault
            | some f =>
              simp only
              unfold Etcd.fault at hfl
              split at hfl <;> simp only [Prod.mk.injEq] at hfl <;> rw [← hfl.2]
  · intro h
    have hl : listenEvent l st event = st := by
      unfold listenEvent
      rw [hc]
      simp only
      rcases h with h | h
      · rw [h]
      · cases l.Unmarshal value with
        | none => rfl
        | some c => simp only [h]
    refine ⟨hl, fun events => ?_⟩
    rw [listen, hst]
    simp only [hl]

/-- C23, amended, at an input: the handler rejects the value of `badEvent`, and
with no fault of the store the Event Error is stored under the generated ID. -/
theorem listenEvent_handler_witness :
    classifyEvent badEvent = some (EventType.CREATED, "bad") ∧
    quietState.panicked = none ∧
    (listenEvent textListener quietState badEvent).etcd.kvs
      = KMap.put quietState.etcd.kvs (pathJoin [NodeErrors, "6f1e"])
          (textListener.Marshal
            { NodeID := "e5", ErrorID := "6f1e", FailedEventData := "bad",
              Error := "cannot apply", Time := "2006-01-02T15:04:05Z" }) :=
  ⟨rfl, rfl,
    ((((listenEvent_handler textListener quietState badEvent EventType.CREATED "bad" rfl rfl).1
      "bad" "" rfl rfl).2 "cannot apply" rfl).2.2.1 "6f1e" rfl rfl)⟩

/-- Two keys name the same node exactly when their nodes are equal. -/
theorem sameNode_iff (x y : TrieKey) : sameNode x y = true ↔ nodeOf x = nodeOf y := by
  unfold sameNode nodeOf
  simp only [Bool.and_eq_true, beq_iff_eq, Prod.mk.injEq]

/-- The nodes of a trie after an insert: the node of the key is added at the
end when it is new, and the nodes are as before when the trie has it. -/
theorem Trie.map_nodeOf_put (t : Trie) (x : TrieKey) :
    (t.put x).map nodeOf
      = if nodeOf x ∈ t.map nodeOf then t.map nodeOf else t.map nodeOf ++ [nodeOf x] := by
  induction t with
  | nil => simp [Trie.put]
  | cons y t ih =>
    unfold Trie.put
    by_cases hs : sameNode y x = true
    · have hn := (sameNode_iff y x).1 hs
      simp [hs, hn]
    · have hn : nodeOf y ≠ nodeOf x := fun e => hs ((sameNode_iff y x).2 e)
      have hn2 : ¬ nodeOf x = nodeOf y := fun e => hn e.symm
      simp only [hs, Bool.false_eq_true, if_false, List.map_cons, ih, List.mem_cons, hn2,
        false_or]
      split <;> simp

/-- A key of the trie after an insert is the inserted key or was in the trie. -/
theorem Trie.mem_of_mem_put (t : Trie) (x y : TrieKey) (h : y ∈ t.put x) : y = x ∨ y ∈ t := by
  induction t with
  | nil =>
    simp only [Trie.put, List.mem_singleton] at h
    exact Or.inl h
  | cons z t ih =>
    unfold Trie.put at h
    split at h
    · rcases List.mem_cons.1 h with h | h
      · exact Or.inl h
      · exact Or.inr (List.mem_cons_of_mem _ h)
    · rcases List.mem_cons.1 h with h | h
      · exact Or.inr (by rw [h]; exact List.mem_cons_self _ _)
      · rcases ih h with h | h
        · exact Or.inl h
        · exact Or.inr (List.mem_cons_of_mem _ h)

/-- The keys of the trie after the routes were inserted: each is the packed
key of a listed route or was in the trie. -/
theorem routeKeysFrom_mem (rs : List String) :
    ∀ (t : Trie) (y : TrieKey), y ∈ routeKeysFrom t rs →
      y ∈ t ∨ ∃ r ∈ rs, ∃ key, parseIP r = .ok key ∧ key.Bytes = y := by
  induction rs with
  | nil =>
    intro t y h
    exact Or.inl (by simpa [routeKeysFrom] using h)
  | cons r rs ih =>
    intro t y h
    cases hp : parseIP r with
    | error e =>
      have e1 : routeKeysFrom t (r :: rs) = routeKeysFrom t rs := by simp [routeKeysFrom, hp]
      rw [e1] at h
      rcases ih t y h with h | ⟨r1, hr1, key, hk, hb⟩
      · exact Or.inl h
      · exact Or.inr ⟨r1, List.mem_cons_of_mem _ hr1, key, hk, hb⟩
    | ok key =>
      rw [routeKeysFrom_cons_ok t r rs key hp] at h
      rcases ih _ y h with h | ⟨r1, hr1, key1, hk, hb⟩
      · rcases Trie.mem_of_mem_put t _ y h with h | h
        · exact Or.inr ⟨r, List.mem_cons_self _ _, key, hp, h.symm⟩
        · exact Or.inl h
      · exact Or.inr ⟨r1, List.mem_cons_of_mem _ hr1, key1, hk, hb⟩

/-- The nodes of the trie after the routes were inserted: those of the trie
and those of the listed routes that parse. -/
theorem routeKeysFrom_nodes (rs : List String) :
    ∀ (t : Trie) (n : Nat × Nat), n ∈ (routeKeysFrom t rs).map nodeOf ↔
      n ∈ t.map nodeOf ∨ ∃ r ∈ rs, ∃ key, parseIP r = .ok key ∧ nodeOf key.Bytes = n := by
  induction rs with
  | nil =>
    intro t n
    simp [routeKeysFrom]
  | cons r rs ih =>
    intro t n
    cases hp : parseIP r with
    | error e =>
      have e1 : routeKeysFrom t (r :: rs) = routeKeysFrom t rs := by simp [routeKeysFrom, hp]
      rw [e1, ih]
      constructor
      · rintro (h | ⟨r1, hr1, key, hk, hb⟩)
        · exact Or.inl h
        · exact Or.inr ⟨r1, List.mem_cons_of_mem _ hr1, key, hk, hb⟩
      · rintro (h | ⟨r1, hr1, key, hk, hb⟩)
        · exact Or.inl h
        · rcases List.mem_cons.1 hr1 with e | hr
          · rw [e, hp] at hk
            cases hk
          · exact Or.inr ⟨r1, hr, key, hk, hb⟩
    | ok key =>
      rw [routeKeysFrom_cons_ok t r rs key hp, ih, Trie.map_nodeOf_put]
      constructor
      · rintro (h | ⟨r1, hr1, key1, hk, hb⟩)
        · split at h
          · exact Or.inl h
          · rcases List.mem_append.1 h with h | h
            · exact Or.inl h
            · rw [List.mem_singleton] at h
              exact Or.inr ⟨r, List.mem_cons_self _ _, key, hp, h.symm⟩
        · exact Or.inr ⟨r1, List.mem_cons_of_mem _ hr1, key1, hk, hb⟩
      · rintro (h | ⟨r1, hr1, key1, hk, hb⟩)
        · left
          split
          · exact h
          · exact List.mem_append_left _ h
        · rcases List.mem_cons.1 hr1 with e | hr
          · rw [e, hp] at hk
            cases hk
            left
            split
            · rename_i hm
              rw [← hb]
              exact hm
            · rw [← hb]
              exact List.mem_append_right _ (List.mem_singleton_self _)
          · exact Or.inr ⟨r1, hr, key1, hk, hb⟩

/-- Inserting routes keeps the nodes of a trie distinct. -/
theorem routeKeysFrom_nodup (rs : List String) :
    ∀ (t : Trie), (t.map nodeOf).Nodup → ((routeKeysFrom t rs).map nodeOf).Nodup := by
  induction rs with
  | nil =>
    intro t h
    simpa [routeKeysFrom] using h
  | cons r rs ih =>
    intro t h
    cases hp : parseIP r with
    | error e =>
      have e1 : routeKeysFrom t (r :: rs) = routeKeysFrom t rs := by simp [routeKeysFrom, hp]
      rw [e1]
      exact ih t h
    | ok key =>
      rw [routeKeysFrom_cons_ok t r rs key hp]
      apply ih
      rw [Trie.map_nodeOf_put]
      split
      · exact h
      · rename_i hm
        exact List.Nodup.append h (List.nodup_singleton _) (by simpa using hm)

/-- No two keys of a trie with distinct nodes name the same node. -/
theorem Trie.pairwise_of_nodup (t : Trie) (h : (t.map nodeOf).Nodup) :
    t.Pairwise (fun x y => sameNode x y = false) := by
  rw [List.Nodup, List.pairwise_map] at h
  refine h.imp ?_
  intro x y hne
  cases hs : sameNode x y with
  | false => rfl
  | true => exact absurd ((sameNode_iff x y).1 hs) hne

/-- The trie of a route list: its keys are packed keys of listed routes, it
has the node of every listed route that parses, and each node once. -/
theorem routeKeys_exact (rs : List String) :
    (∀ x ∈ routeKeys rs, ∃ r ∈ rs, ∃ key, parseIP r = .ok key ∧ key.Bytes = x) ∧
    (∀ r ∈ rs, ∀ key, parseIP r = .ok key → ∃ x ∈ routeKeys rs, sameNode x key.Bytes = true) ∧
    (routeKeys rs).Pairwise (fun x y => sameNode x y = false) := by
  refine ⟨?_, ?_, ?_⟩
  · intro x hx
    rcases routeKeysFrom_mem rs [] x hx with h | h
    · simp at h
    · exact h
  · intro r hr key hk
    have hn : nodeOf key.Bytes ∈ (routeKeys rs).map nodeOf :=
      (routeKeysFrom_nodes rs [] _).2 (Or.inr ⟨r, hr, key, hk, rfl⟩)
    obtain ⟨x, hx, hxn⟩ := List.mem_map.1 hn
    exact ⟨x, hx, (sameNode_iff _ _).2 hxn⟩
  · exact Trie.pairwise_of_nodup _ (routeKeysFrom_nodup rs [] (by simp))

/-- The number of mask bits `net.ParseCIDR` accepts is at most 128. -/
theorem ParseCIDR_ones_le (s : String) (ip : IP) (ones : Nat)
    (h : ParseCIDR s = some (ip, ones)) : ones ≤ 128 := by
  unfold ParseCIDR at h
  simp only at h
  split at h
  · simp at h
  · split at h
    · simp at h
    · rename_i a ha
      split at h
      · simp at h
      · split at h
        · simp at h
        · rename_i hle
          simp only [Option.some.injEq, Prod.mk.injEq] at h
          rw [← h.2]
          have hb : a.BitLen ≤ 128 := by cases a <;> simp [Addr.BitLen]
          omega

/-- A CIDR parses to the key of its address and its number of mask bits. -/
theorem parseIP_cidr (r : String) (ip : IP) (ones : Nat)
    (hc : ParseCIDR (TrimSpace r) = some (ip, ones)) :
    parseIP r = .ok { Prefixlen := ones, IP := ip } := by
  have hle := ParseCIDR_ones_le _ _ _ hc
  have hm : ones % 2 ^ 32 = ones := Nat.mod_eq_of_lt (by omega)
  simp only [parseIP, hc, hm]

/-- C11: when `AddUser` returns no error, the user was absent from
`account_locked` before the call, and afterwards `account_locked` holds 0
under `SHA-1(username)` and `public_table` and `mfa_table` each refer, under
`SHA-1(username)`, to an existing inner trie, `pub` and `mfa`.  The key set of
`pub` is exactly the parsed entries of `acls.Allow`: every key of `pub` is the
packed key of an entry, every entry parses to a key the kernel accepts and
`pub` has that key's node, and no two keys of `pub` name the same node; the
same holds of `mfa` and `acls.Mfa`.  An entry that is a bare address parses to
that address with the prefix length 32, a CIDR to its address with its number
of mask bits, and the packed key of an IPv4 key is its prefix length with the
four bytes of the address. -/
theorem AddUser_installs_user (k : Kernel) (username : String) (acls : Acl)
    (h : (AddUser k username acls).1 = none) :
    KMap.get k.xdpObjects.AccountLocked (sha1Sum username) = none ∧
    KMap.get (AddUser k username acls).2.xdpObjects.AccountLocked (sha1Sum username) = some 0 ∧
    (∃ pub mfa,
      tableTrie (AddUser k username acls).2.xdpObjects .PublicTable (sha1Sum username)
        = some pub ∧
      tableTrie (AddUser k username acls).2.xdpObjects .MfaTable (sha1Sum username)
        = some mfa ∧
      pub = routeKeys acls.Allow ∧ mfa = routeKeys acls.Mfa ∧
      (∀ x ∈ pub, ∃ r ∈ acls.Allow, ∃ key, parseIP r = .ok key ∧ key.Bytes = x) ∧
      (∀ x ∈ mfa, ∃ r ∈ acls.Mfa, ∃ key, parseIP r = .ok key ∧ key.Bytes = x) ∧
      (∀ r ∈ acls.Allow, ∃ key, parseIP r = .ok key ∧ key.Bytes.1 ≤ 32 ∧
        ∃ x ∈ pub, sameNode x key.Bytes = true) ∧
      (∀ r ∈ acls.Mfa, ∃ key, parseIP r = .ok key ∧ key.Bytes.1 ≤ 32 ∧
        ∃ x ∈ mfa, sameNode x key.Bytes = true) ∧
      pub.Pairwise (fun x y => sameNode x y = false) ∧
      mfa.Pairwise (fun x y => sameNode x y = false)) ∧
    (∀ r ip, ParseCIDR (TrimSpace r) = none → ParseIP (TrimSpace r) = some ip →
      parseIP r = .ok { Prefixlen := 32, IP := ip }) ∧
    (∀ r ip ones, ParseCIDR (TrimSpace r) = some (ip, ones) →
      parseIP r = .ok { Prefixlen := ones, IP := ip }) ∧
    (∀ (key : Key) ip4, To4 key.IP = some ip4 → key.Prefixlen ≤ 32 →
      key.Bytes = (key.Prefixlen, ip4)) := by
  obtain ⟨habs, hput, hpub, hmfa, hva, hvm, hbare⟩ := AddUser_tries k username acls h
  obtain ⟨a1, a2, a3⟩ := routeKeys_exact acls.Allow
  obtain ⟨m1, m2, m3⟩ := routeKeys_exact acls.Mfa
  refine ⟨habs, hput, ⟨_, _, hpub, hmfa, rfl, rfl, a1, m1, ?_, ?_, a3, m3⟩, hbare, parseIP_cidr, ?_⟩
  · intro r hr
    obtain ⟨key, hk, hle⟩ := hva r hr
    exact ⟨key, hk, hle, a2 r hr key hk⟩
  · intro r hr
    obtain ⟨key, hk, hle⟩ := hvm r hr
    exact ⟨key, hk, hle, m2 r hr key hk⟩
  · intro key ip4 h4 hle
    unfold Key.Bytes
    rw [h4, Nat.mod_eq_of_lt (by omega)]
    rfl

/-- C11 at an input: `AddUser` for the new user `bob` with two entries of the
prefix `10.0.0.0/24` and a bare address in `Allow`, and two entries of the
prefix `10.1.0.0/16` in `Mfa`, leaves `bob` unlocked, the two nodes
`10.0.0.9/24` and `10.2.3.4/32` in the trie of `public_table`, and the one node
`10.1.2.3/16` in the trie of `mfa_table`. -/
theorem AddUser_installs_user_witness :
    (AddUser exampleKernel "bob" overlapAcl).1 = none ∧
    KMap.get (AddUser exampleKernel "bob" overlapAcl).2.xdpObjects.AccountLocked (sha1Sum "bob")
      = some 0 ∧
    tableTrie (AddUser exampleKernel "bob" overlapAcl).2.xdpObjects .PublicTable (sha1Sum "bob")
      = some [(24, [10, 0, 0, 9]), (32, [10, 2, 3, 4])] ∧
    tableTrie (AddUser exampleKernel "bob" overlapAcl).2.xdpObjects .MfaTable (sha1Sum "bob")
      = some [(16, [10, 1, 2, 3])] := by
  have h0 : (AddUser exampleKernel "bob" overlapAcl).1 = none := by decide!
  obtain ⟨-, hl, ⟨pub, mfa, hp, hm, hpe, hme, -⟩, -⟩ :=
    AddUser_installs_user exampleKernel "bob" overlapAcl h0
  have e1 : routeKeys overlapAcl.Allow = [(24, [10, 0, 0, 9]), (32, [10, 2, 3, 4])] := by decide
  have e2 : routeKeys overlapAcl.Mfa = [(16, [10, 1, 2, 3])] := by decide
  rw [hpe, e1] at hp
  rw [hme, e2] at hm
  exact ⟨h0, hl, hp, hm⟩

/-- With no fault scheduled the next system call meets none. -/
theorem Kernel.fault_of_nil (k : Kernel) (h : k.faults = []) : k.fault = (none, k) := by
  unfold Kernel.fault
  rw [h]

/-- With no fault scheduled the write to `account_locked` succeeds. -/
theorem AccountLocked.Put_of_nil (k : Kernel) (uid : UserId) (v : Nat) (h : k.faults = []) :
    (AccountLocked.Put k uid v).1 = none ∧ (AccountLocked.Put k uid v).2.faults = [] := by
  unfold AccountLocked.Put
  rw [Kernel.fault_of_nil k h]
  exact ⟨rfl, h⟩

/-- With no fault scheduled `addMapTo` succeeds. -/
theorem addMapTo_of_nil (k : Kernel) (uid : UserId) (table : Table) (h : k.faults = []) :
    (addMapTo k uid table).1 = none ∧ (addMapTo k uid table).2.faults = [] := by
  unfold addMapTo NewMap
  rw [Kernel.fault_of_nil k h]
  simp only
  unfold Table.Put
  rw [Kernel.fault_of_nil _ (by exact h)]
  simp only
  unfold Close
  rw [Kernel.fault_of_nil _ (by exact h)]
  exact ⟨rfl, h⟩

/-- With no fault scheduled the loop of `xdpAddRoute` fails only on a route
that is not valid. -/
theorem xdpAddRouteLoop_of_nil (rs : List String) :
    ∀ (k : Kernel) (id : Nat) (t0 : Trie), k.faults = [] →
      KMap.get k.xdpObjects.innerMaps id = some t0 →
      (xdpAddRouteLoop k id rs).2.faults = [] ∧
      ((∀ r ∈ rs, validRoute r) → (xdpAddRouteLoop k id rs).1 = none) := by
  induction rs with
  | nil =>
    intro k id t0 hf _
    exact ⟨hf, fun _ => rfl⟩
  | cons r rs ih =>
    intro k id t0 hf hg
    unfold xdpAddRouteLoop
    cases hp : parseIP r with
    | error e =>
      refine ⟨hf, fun hv => ?_⟩
      obtain ⟨key, hk, -⟩ := hv r (List.mem_cons_self _ _)
      rw [hp] at hk
      cases hk
    | ok key =>
      simp only
      unfold InnerMap.Put
      rw [Kernel.fault_of_nil k hf]
      simp only [hg]
      by_cases hle : 32 < key.Bytes.1
      · simp only [hle, if_true]
        refine ⟨hf, fun hv => ?_⟩
        obtain ⟨key1, hk, hb⟩ := hv r (List.mem_cons_self _ _)
        rw [hp] at hk
        cases hk
        omega
      · simp only [hle, if_false]
        have hg1 : KMap.get (k.write { k.xdpObjects with
            innerMaps := KMap.put k.xdpObjects.innerMaps id (t0.put key.Bytes) }).xdpObjects.innerMaps
            id = some (t0.put key.Bytes) := KMap.get_put_self _ _ _
        obtain ⟨h1, h2⟩ := ih _ id _ (by exact hf) hg1
        exact ⟨h1, fun hv => h2 (fun r1 hr1 => hv r1 (List.mem_cons_of_mem _ hr1))⟩

/-- With no fault scheduled `xdpAddRoute` on an existing inner map fails only
on a route that is not valid. -/
theorem xdpAddRoute_of_nil (k : Kernel) (u : String) (table : Table) (rs : List String)
    (id : Nat) (t0 : Trie) (hf : k.faults = [])
    (hT : KMap.get (k.xdpObjects.table table) (sha1Sum u) = some id)
    (hg : KMap.get k.xdpObjects.innerMaps id = some t0) :
    (xdpAddRoute k u table rs).2.faults = [] ∧
    ((∀ r ∈ rs, validRoute r) → (xdpAddRoute k u table rs).1 = none) := by
  unfold xdpAddRoute
  simp only [Table.Lookup, hT]
  unfold NewMapFromID
  rw [Kernel.fault_of_nil k hf]
  simp only [hg]
  obtain ⟨h1, h2⟩ := xdpAddRouteLoop_of_nil rs k id t0 hf hg
  rcases hl : xdpAddRouteLoop k id rs with ⟨res, k2⟩
  rw [hl] at h1 h2
  simp only at h1 h2 ⊢
  unfold Close
  rw [Kernel.fault_of_nil k2 h1]
  exact ⟨h1, h2⟩

/-- The user `AddUser` looks up is absent exactly when `xdpUserExists` fails. -/
theorem xdpUserExists_of_absent (k : Kernel) (uid : UserId)
    (h : KMap.get k.xdpObjects.AccountLocked uid = none) :
    xdpUserExists k uid = some ("lookup: " ++ ErrKeyNotExist) := by
  simp [xdpUserExists, AccountLocked.Lookup, h]

/-- What `AddUser` leaves once `account_locked` and both outer tables were
written: whatever the two calls of `xdpAddRoute` return, both tables refer for
the user to a trie that holds the first entries of its route list, the result
is the error of the first call that fails, and `account_locked` is as the three
writes left it. -/
theorem AddUser_after_maps (k k1 k2 k3 : Kernel) (u : String) (acls : Acl)
    (habs : KMap.get k.xdpObjects.AccountLocked (sha1Sum u) = none)
    (e1 : AccountLocked.Put k (sha1Sum u) 0 = (none, k1))
    (e2 : addMapTo k1 (sha1Sum u) .PublicTable = (none, k2))
    (e3 : addMapTo k2 (sha1Sum u) .MfaTable = (none, k3)) :
    (∃ n m,
      tableTrie (AddUser k u acls).2.xdpObjects .PublicTable (sha1Sum u)
        = some (routeKeys (acls.Allow.take n)) ∧
      tableTrie (AddUser k u acls).2.xdpObjects .MfaTable (sha1Sum u)
        = some (routeKeys (acls.Mfa.take m))) ∧
    ((AddUser k u acls).1 = none → (∀ r ∈ acls.Mfa, validRoute r) ∧ ∀ r ∈ acls.Allow, validRoute r) ∧
    (k3.faults = [] → (∀ r ∈ acls.Mfa, validRoute r) → (∀ r ∈ acls.Allow, validRoute r) →
      (AddUser k u acls).1 = none) := by
  have h2 := addMapTo_ok k1 (sha1Sum u) .PublicTable (by rw [e2])
  rw [e2] at h2
  simp only at h2
  have h3 := addMapTo_ok k2 (sha1Sum u) .MfaTable (by rw [e3])
  rw [e3] at h3
  simp only at h3
  obtain ⟨p2a, p2b, p2c, p2d, p2e⟩ :=
    bpfObjects.replaced_fields k1.xdpObjects .PublicTable (sha1Sum u) []
  obtain ⟨p3a, p3b, p3c, p3d, p3e⟩ :=
    bpfObjects.replaced_fields k2.xdpObjects .MfaTable (sha1Sum u) []
  rw [← h2] at p2a p2b p2c p2d p2e
  rw [← h3] at p3a p3b p3c p3d p3e
  have hT3 : KMap.get (k3.xdpObjects.table .MfaTable) (sha1Sum u)
      = some k2.xdpObjects.nextID := by rw [p3a, KMap.get_put_self]
  have hg3 : KMap.get k3.xdpObjects.innerMaps k2.xdpObjects.nextID = some [] := by
    rw [p3c, KMap.get_put_self]
  have hne : k1.xdpObjects.nextID ≠ k2.xdpObjects.nextID := by rw [p2d]; omega
  have hP3 : KMap.get (k3.xdpObjects.table .PublicTable) (sha1Sum u)
      = some k1.xdpObjects.nextID := by
    rw [p3b _ (by decide), p2a, KMap.get_put_self]
  have hq3 : KMap.get k3.xdpObjects.innerMaps k1.xdpObjects.nextID = some [] := by
    rw [p3c, KMap.get_put_of_ne _ _ _ _ hne, p2c, KMap.get_put_self]
  obtain ⟨-, n4, -, -, x4, ok4⟩ :=
    xdpAddRoute_spec k3 u .MfaTable acls.Mfa k2.xdpObjects.nextID [] hT3 hg3
  have hu := xdpUserExists_of_absent k (sha1Sum u) habs
  have hA : AddUser k u acls =
      (match xdpAddRoute k3 u .MfaTable acls.Mfa with
        | (some err, k4) => (some err, k4)
        | (none, k4) => xdpAddRoute k4 u .PublicTable acls.Allow) := by
    unfold AddUser
    simp only [hu, e1, e2, e3]
    rcases xdpAddRoute k3 u .MfaTable acls.Mfa with ⟨r4, k4⟩
    cases r4 with
    | some err => rfl
    | none =>
      simp only
      rcases xdpAddRoute k4 u .PublicTable acls.Allow with ⟨r5, k5⟩
      cases r5 <;> rfl
  rw [hA]
  have f4 := xdpAddRoute_of_nil k3 u .MfaTable acls.Mfa k2.xdpObjects.nextID []
  rcases h4 : xdpAddRoute k3 u .MfaTable acls.Mfa with ⟨r4, k4⟩
  rw [h4] at x4 ok4 f4
  simp only at x4 ok4 f4
  have hT4 : KMap.get (k4.xdpObjects.table .PublicTable) (sha1Sum u)
      = some k1.xdpObjects.nextID := by
    rw [x4]
    exact hP3
  have hM4 : KMap.get (k4.xdpObjects.table .MfaTable) (sha1Sum u)
      = some k2.xdpObjects.nextID := by
    rw [x4]
    exact hT3
  have hg4 : KMap.get k4.xdpObjects.innerMaps k1.xdpObjects.nextID = some [] := by
    rw [x4]
    show KMap.get (KMap.put k3.xdpObjects.innerMaps _ _) _ = _
    rw [KMap.get_put_of_ne _ _ _ _ hne]
    exact hq3
  have hm4 : KMap.get k4.xdpObjects.innerMaps k2.xdpObjects.nextID
      = some (routeKeys (acls.Mfa.take n4)) := by
    rw [x4]
    exact KMap.get_put_self _ _ _
  cases r4 with
  | some err =>
    simp only
    refine ⟨⟨0, n4, ?_, ?_⟩, by simp, ?_⟩
    · unfold tableTrie
      rw [hT4]
      simp only [hg4]
      rfl
    · unfold tableTrie
      rw [hM4]
      exact hm4
    · intro hf hvm _
      have := (f4 hf hT3 hg3).2 hvm
      simp at this
  | none =>
    simp only
    obtain ⟨hn4, hv4⟩ := ok4 rfl
    obtain ⟨-, n5, -, -, x5, ok5⟩ :=
      xdpAddRoute_spec k4 u .PublicTable acls.Allow k1.xdpObjects.nextID [] hT4 hg4
    refine ⟨⟨n5, n4, ?_, ?_⟩, fun h => ⟨hv4, (ok5 h).2⟩, ?_⟩
    · unfold tableTrie
      rw [x5]
      show (match KMap.get (k4.xdpObjects.table .PublicTable) (sha1Sum u) with
        | none => none
        | some id => KMap.get (KMap.put k4.xdpObjects.innerMaps _ _) id) = _
      rw [hT4]
      exact KMap.get_put_self _ _ _
    · unfold tableTrie
      rw [x5]
      show (match KMap.get (k4.xdpObjects.table .MfaTable) (sha1Sum u) with
        | none => none
        | some id => KMap.get (KMap.put k4.xdpObjects.innerMaps _ _) id) = _
      rw [hM4]
      simp only
      rw [KMap.get_put_of_ne _ _ _ _ hne.symm]
      exact hm4
    · intro hf _ hva
      exact (xdpAddRoute_of_nil k4 u .PublicTable acls.Allow k1.xdpObjects.nextID []
        (f4 hf hT3 hg3).1 hT4 hg4).2 hva

/-- `AddUser` for an absent user, by the result of the write to
`account_locked`: its error is returned with the maps unchanged, and after its
success the user stays in `account_locked` with the value 0 whatever follows. -/
theorem AddUser_absent_cases (k : Kernel) (u : String) (acls : Acl)
    (habs : KMap.get k.xdpObjects.AccountLocked (sha1Sum u) = none) :
    (∀ e, (AccountLocked.Put k (sha1Sum u) 0).1 = some e →
      (AddUser k u acls).1 = some e ∧ (AddUser k u acls).2.xdpObjects = k.xdpObjects) ∧
    ((AccountLocked.Put k (sha1Sum u) 0).1 = none →
      KMap.get (AddUser k u acls).2.xdpObjects.AccountLocked (sha1Sum u) = some 0) := by
  have hu := xdpUserExists_of_absent k (sha1Sum u) habs
  have hput := AccountLocked.Put_stores k (sha1Sum u) 0
  unfold AddUser
  simp only [hu]
  rcases hp : AccountLocked.Put k (sha1Sum u) 0 with ⟨r1, k1⟩
  rw [hp] at hput
  cases r1 with
  | some e1 =>
    refine ⟨?_, by simp⟩
    intro e he
    simp only [Option.some.injEq] at he
    subst he
    refine ⟨rfl, ?_⟩
    simp only
    unfold AccountLocked.Put at hp
    have hx := Kernel.fault_xdpObjects k
    rcases hf : k.fault with ⟨f, kf⟩
    rw [hf] at hp hx
    cases f with
    | none => simp at hp
    | some e2 =>
      simp only [Prod.mk.injEq] at hp
      rw [← hp.2]
      exact hx
  | none =>
    refine ⟨by simp, fun _ => ?_⟩
    simp only
    have h1 : KMap.get k1.xdpObjects.AccountLocked (sha1Sum u) = some 0 := by
      rw [hput rfl]
      exact KMap.get_put_self _ _ _
    have s2 := addMapTo_same k1 (sha1Sum u) .PublicTable
    rcases hp2 : addMapTo k1 (sha1Sum u) .PublicTable with ⟨r2, k2⟩
    rw [hp2] at s2
    have a2 : KMap.get k2.xdpObjects.AccountLocked (sha1Sum u) = some 0 := by
      rw [s2.2]; exact h1
    cases r2 with
    | some e2 => exact a2
    | none =>
      simp only
      have s3 := addMapTo_same k2 (sha1Sum u) .MfaTable
      rcases hp3 : addMapTo k2 (sha1Sum u) .MfaTable with ⟨r3, k3⟩
      rw [hp3] at s3
      have a3 : KMap.get k3.xdpObjects.AccountLocked (sha1Sum u) = some 0 := by
        rw [s3.2]; exact a2
      cases r3 with
      | some e3 => exact a3
      | none =>
        simp only
        have s4 := xdpAddRoute_same k3 u .MfaTable acls.Mfa
        rcases hp4 : xdpAddRoute k3 u .MfaTable acls.Mfa with ⟨r4, k4⟩
        rw [hp4] at s4
        have a4 : KMap.get k4.xdpObjects.AccountLocked (sha1Sum u) = some 0 := by
          rw [s4.2]; exact a3
        cases r4 with
        | some e4 => exact a4
        | none =>
          simp only
          have s5 := xdpAddRoute_same k4 u .PublicTable acls.Allow
          rcases hp5 : xdpAddRoute k4 u .PublicTable acls.Allow with ⟨r5, k5⟩
          rw [hp5] at s5
          have a5 : KMap.get k5.xdpObjects.AccountLocked (sha1Sum u) = some 0 := by
            rw [s5.2]; exact a4
          cases r5 with
          | some e5 => exact a5
          | none => exact a5

/-- C29, amended: `AddUser` has no rollback.  For a user that is present it
returns `user already exists` and leaves the state as it is.  For a user that
is absent: when the write to `account_locked` fails, its error is returned and
the maps are as before the call; when that write succeeds, then whatever
`AddUser` returns, an error included, the maps differ from those before the
call, `SHA-1(username)` is in `account_locked` with the value 0, and every
later `AddUser` for the same username fails with `user already exists`; when
also both calls of `addMapTo` succeed, `public_table` and `mfa_table` each
refer for the user to an inner trie holding the first entries of its route
list.  With no fault of a map operation ahead all three writes succeed, so
both tables are left so, and `AddUser` returns an error exactly when an entry
of `acls.Mfa` or `acls.Allow` does not parse to a key the kernel accepts. -/
theorem AddUser_no_rollback (k : Kernel) (u : String) (acls : Acl) :
    ((KMap.get k.xdpObjects.AccountLocked (sha1Sum u)).isSome = true →
      AddUser k u acls = (some "user already exists", k)) ∧
    (KMap.get k.xdpObjects.AccountLocked (sha1Sum u) = none →
      (∀ e, (AccountLocked.Put k (sha1Sum u) 0).1 = some e →
        (AddUser k u acls).1 = some e ∧ (AddUser k u acls).2.xdpObjects = k.xdpObjects) ∧
      ((AccountLocked.Put k (sha1Sum u) 0).1 = none →
        KMap.get (AddUser k u acls).2.xdpObjects.AccountLocked (sha1Sum u) = some 0 ∧
        (AddUser k u acls).2.xdpObjects ≠ k.xdpObjects ∧
        ∀ acls2, (AddUser (AddUser k u acls).2 u acls2).1 = some "user already exists") ∧
      (∀ k1 k2 k3, AccountLocked.Put k (sha1Sum u) 0 = (none, k1) →
        addMapTo k1 (sha1Sum u) .PublicTable = (none, k2) →
        addMapTo k2 (sha1Sum u) .MfaTable = (none, k3) →
        ∃ n m,
          tableTrie (AddUser k u acls).2.xdpObjects .PublicTable (sha1Sum u)
            = some (routeKeys (acls.Allow.take n)) ∧
          tableTrie (AddUser k u acls).2.xdpObjects .MfaTable (sha1Sum u)
            = some (routeKeys (acls.Mfa.take m))) ∧
      (k.faults = [] →
        (AccountLocked.Put k (sha1Sum u) 0).1 = none ∧
        (∃ n m,
          tableTrie (AddUser k u acls).2.xdpObjects .PublicTable (sha1Sum u)
            = some (routeKeys (acls.Allow.take n)) ∧
          tableTrie (AddUser k u acls).2.xdpObjects .MfaTable (sha1Sum u)
            = some (routeKeys (acls.Mfa.take m))) ∧
        ((AddUser k u acls).1 = none ↔
          (∀ r ∈ acls.Mfa, validRoute r) ∧ ∀ r ∈ acls.Allow, validRoute r))) := by
  refine ⟨?_, fun habs => ?_⟩
  · intro h
    unfold AddUser
    cases hg : KMap.get k.xdpObjects.AccountLocked (sha1Sum u) with
    | none => simp [hg] at h
    | some v => simp [xdpUserExists, AccountLocked.Lookup, hg]
  · obtain ⟨c1, c2⟩ := AddUser_absent_cases k u acls habs
    refine ⟨c1, ?_, ?_, ?_⟩
    · intro hput
      have hl := c2 hput
      refine ⟨hl, ?_, fun acls2 => AddUser_of_present _ u acls2 (by rw [hl]; rfl)⟩
      intro he
      rw [he, habs] at hl
      cases hl
    · intro k1 k2 k3 e1 e2 e3
      exact (AddUser_after_maps k k1 k2 k3 u acls habs e1 e2 e3).1
    · intro hf
      obtain ⟨a1, a1f⟩ := AccountLocked.Put_of_nil k (sha1Sum u) 0 hf
      obtain ⟨a2, a2f⟩ := addMapTo_of_nil (AccountLocked.Put k (sha1Sum u) 0).2 (sha1Sum u)
        .PublicTable a1f
      obtain ⟨a3, a3f⟩ := addMapTo_of_nil
        (addMapTo (AccountLocked.Put k (sha1Sum u) 0).2 (sha1Sum u) .PublicTable).2 (sha1Sum u)
        .MfaTable a2f
      obtain ⟨t, v1, v2⟩ := AddUser_after_maps k _ _ _ u acls habs
        (Prod.ext a1 rfl) (Prod.ext a2 rfl) (Prod.ext a3 rfl)
      exact ⟨a1, t, v1, fun hv => v2 a3f hv.1 hv.2⟩

/-- C29, amended, at an input: for the new user `bob` and a route list with an
entry that does not parse, on a state with no fault ahead, `AddUser` returns an
error, `bob` is left in `account_locked` with the value 0, and the later
`AddUser` for `bob` with the corrected routes fails. -/
theorem AddUser_no_rollback_witness :
    KMap.get exampleKernel.xdpObjects.AccountLocked (sha1Sum "bob") = none ∧
    (AccountLocked.Put exampleKernel (sha1Sum "bob") 0).1 = none ∧
    (AddUser exampleKernel "bob" badAcl).1 = some "could not parse ip from input: not-an-ip" ∧
    KMap.get (AddUser exampleKernel "bob" badAcl).2.xdpObjects.AccountLocked (sha1Sum "bob")
      = some 0 ∧
    (AddUser exampleKernel "bob" badAcl).2.xdpObjects ≠ exampleKernel.xdpObjects ∧
    (AddUser (AddUser exampleKernel "bob" badAcl).2 "bob" bobAcl).1
      = some "user already exists" :=
  have habs : KMap.get exampleKernel.xdpObjects.AccountLocked (sha1Sum "bob") = none := by
    decide!
  have hput : (AccountLocked.Put exampleKernel (sha1Sum "bob") 0).1 = none := by decide!
  have h := ((AddUser_no_rollback exampleKernel "bob" badAcl).2 habs).2.1 hput
  ⟨habs, hput, by decide!, h.1, h.2.1, h.2.2 bobAcl⟩

/-- C17, as stated, fails for a CIDR that is not IPv4.  The numeric successor
of the IPv4 address `255.255.255.255` is no IPv4 address, yet with the CIDR
`::/0` both functions return no error and no dotted string: the carry runs
past the four octets into the 16-byte form of the address, and the result is
the IPv6 text `::1:0:0:0`.  With the IPv4 CIDR `0.0.0.0/0` the same address is
returned unchanged with the overflow error. -/
theorem incrementIP_carries_past_ipv4 :
    ParseIP "255.255.255.255" = some (v4InV6 [255, 255, 255, 255]) ∧
    incrementIP "255.255.255.255" "::/0" = ("::1:0:0:0", none) ∧
    IncrementIP "255.255.255.255" "::/0" = ("::1:0:0:0", none) ∧
    incrementIP "255.255.255.255" "0.0.0.0/0"
      = ("255.255.255.255", some "overflowed CIDR while incrementing IP") := by
  decide

end Wag
